import Mathlib

/-! # Amanda catalog reconstruction and dumpspec parsing

A shallow embedding of `server-src/find.c` (the log scanner `search_logfile`
and its helpers) and of `server-src/cmdline.c` / `cmdline.h` (the dumpspec
parser), followed by theorems about them.

C strings are modelled as `String` (no embedded NUL, one `Char` per C `char`),
`int` and `off_t` as `Int` (a value stored into an `int` is reduced to 32 bits
where it can leave the range), a `NULL`-able `char *` as `Option String`, and the
singly linked lists (`find_result_t` through `next`, `GSList`) as `List`, head
first.  Diagnostics written with `printf` and `dbprintf` are not modelled.
-/

namespace Amanda

/-! ## C library character classes and number readers -/

/-- The C library `isspace` in the C locale: space, `\t`, `\n`, `\v`, `\f`, `\r`. -/
def isspace (c : Char) : Bool :=
  c = ' ' || c = '\t' || c = '\n' || c = '\x0b' || c = '\x0c' || c = '\r'

/-- The C library `isdigit`. -/
def isdigit (c : Char) : Bool :=
  c = '0' || c = '1' || c = '2' || c = '3' || c = '4' ||
  c = '5' || c = '6' || c = '7' || c = '8' || c = '9'

/-- Value of a decimal digit character. -/
def digit_value (c : Char) : Nat := c.toNat - '0'.toNat

/-- Value of the leading run of decimal digits of a string, most significant
digit first, starting from the accumulator `acc`. -/
def read_digits (acc : Nat) : List Char → Nat
  | [] => acc
  | c :: s => if isdigit c then read_digits (acc * 10 + digit_value c) s else acc

/-- An optionally signed run of digits: the common core of `atoi` and of the
`%d` conversion, after leading white space has been skipped.  The flag tells
whether at least one digit was read. -/
def read_signed (s : List Char) : Bool × Int :=
  match s with
  | '-' :: t => ((t.head?.map isdigit).getD false, - (read_digits 0 t : Int))
  | '+' :: t => ((t.head?.map isdigit).getD false, (read_digits 0 t : Int))
  | t => ((t.head?.map isdigit).getD false, (read_digits 0 t : Int))

/-- Arithmetic on C `int`: the value of a sum, of a difference or of a
conversion to `int`, reduced to the range of a 32-bit two's complement
integer. -/
def wrap_int (x : Int) : Int := (x + 2147483648) % 4294967296 - 2147483648

/-- The result of the C library `strtol` for a number of the given value, with
a 64-bit `long`: a value outside the range of `long` gives `LONG_MAX` or
`LONG_MIN`. -/
def strtol_saturate (x : Int) : Int :=
  if x > 9223372036854775807 then 9223372036854775807
  else if x < -9223372036854775808 then -9223372036854775808
  else x

/-- The `int` that `atoi` and the `%d` conversion store for a number of the
given value: the `long` of `strtol` converted to `int`. -/
def strtol_int (x : Int) : Int := wrap_int (strtol_saturate x)

/-- The C library `atoi`, `(int) strtol(s, NULL, 10)`: skips white space,
reads an optionally signed decimal number, and gives 0 when there is none. -/
def atoi (s : List Char) : Int := strtol_int (read_signed (s.dropWhile isspace)).2

/-- The call `sscanf(str, "%d", &level)` with `int level`: `some level` when
it returns 1. -/
def sscanf_d (s : List Char) : Option Int :=
  let r := read_signed (s.dropWhile isspace)
  if r.1 then some (strtol_int r.2) else none

/-! ## Tokenization macros of `amanda.h`

The scanner walks a line with a pointer `s` and a character variable `ch`
holding `s[-1]`.  A cursor keeps the characters from `s - 1` to the end of the
line (`ch` is `'\0'` exactly when this list is empty) and whether the byte at
`s - 1` has been overwritten with `'\0'` by an earlier `s[-1] = '\0'`. -/

/-- Scanning position inside a log line. -/
structure cursor where
  /-- Characters from `s - 1` on, as they were before any overwriting. -/
  p : List Char
  /-- Whether the byte at `s - 1` now holds `'\0'`. -/
  zapped : Bool
deriving DecidableEq, Repr

/-- The C string found in memory at `s - 1`. -/
def cursor.cstr (c : cursor) : List Char := if c.zapped then [] else c.p

/-- Characters that `skip_whitespace` steps over: white space other than `\n`. -/
def is_skipped_space (c : Char) : Bool := c != '\n' && isspace c

/-- Modelled from the spec: the tokenization macro `skip_whitespace(s, ch)` of
`amanda.h` (not under src/), `while (ch != '\n' && isspace(ch)) ch = *s++`. -/
def skip_whitespace (c : cursor) : cursor :=
  match c.p with
  | [] => c
  | ch :: s => if is_skipped_space ch then ⟨s.dropWhile is_skipped_space, false⟩ else c

/-- Modelled from the spec: the tokenization macro `skip_non_whitespace(s, ch)`
of `amanda.h` followed by `s[-1] = '\0'`: returns the C string then found at
the starting position and the cursor after it. -/
def take_word (c : cursor) : List Char × cursor :=
  let w := c.p.takeWhile (fun ch => !isspace ch)
  (if c.zapped then [] else w, ⟨c.p.dropWhile (fun ch => !isspace ch), true⟩)

/-- Loop of the macro `skip_quoted_string`: the characters stepped over and
the characters left, `iq` telling whether a double quote is open. -/
def quoted_span (iq : Bool) : List Char → List Char × List Char
  | [] => ([], [])
  | c :: s =>
    if !iq && isspace c then ([], c :: s)
    else if c = '"' then
      let r := quoted_span (!iq) s
      (c :: r.1, r.2)
    else
      match s with
      | d :: t =>
        if c = '\\' && d = '"' then
          let r := quoted_span iq t
          (c :: d :: r.1, r.2)
        else
          let r := quoted_span iq (d :: t)
          (c :: r.1, r.2)
      | [] => ([c], [])

/-- Modelled from the spec: the tokenization macro `skip_quoted_string(s, ch)`
of `amanda.h` followed by `s[-1] = '\0'`: returns the C string then found at
the starting position and the cursor after it. -/
def take_quoted (c : cursor) : List Char × cursor :=
  let r := quoted_span false c.p
  (if c.zapped then [] else r.1, ⟨r.2, true⟩)

/-- Modelled from the spec: the tokenization macro `skip_integer(s, ch)` of
`amanda.h`: steps over one sign character, then over digits. -/
def skip_integer (c : cursor) : cursor :=
  match c.p with
  | [] => c
  | ch :: s =>
    if ch = '+' || ch = '-' then ⟨s.dropWhile isdigit, false⟩
    else if isdigit ch then ⟨s.dropWhile isdigit, false⟩
    else c

/-- Modelled from the spec: the macro `strncmp_const_skip(s - 1, cnst, s, ch)`
of `amanda.h`: when the string at `s - 1` starts with `cnst` the cursor moves
past it (`some`), otherwise the comparison is non-zero (`none`). -/
def strncmp_const_skip (c : cursor) (cnst : List Char) : Option cursor :=
  if cnst.isPrefixOf c.cstr then some ⟨c.p.drop cnst.length, false⟩ else none

/-! ## `parse_taper_datestamp_log` -/

/-- Source `parse_taper_datestamp_log` (find.c 511-556): reads
`datestamp <D> label <L>`; `none` is the return value 0, `some (D, L)` the
return value 1 with the two output pointers. -/
def parse_taper_datestamp_log (logline : String) : Option (String × String) :=
  let c := skip_whitespace ⟨logline.data, false⟩
  if c.p = [] then none else
  match strncmp_const_skip c "datestamp".data with
  | none => none
  | some c =>
    let c := skip_whitespace c
    if c.p = [] then none else
    let d := take_word c
    let c := skip_whitespace d.2
    if c.p = [] then none else
    match strncmp_const_skip c "label".data with
    | none => none
    | some c =>
      let c := skip_whitespace c
      if c.p = [] then none else
      let l := take_word c
      some (String.mk d.1, String.mk l.1)

/-! ## Data model of the log scanner -/

/-- Modelled from the spec: the log line kinds named in find.c (the enum of
`logfile.h` is not under src/); `L_BOGUS` stands for every other kind. -/
inductive logtype_t where
  | L_BOGUS | L_START | L_SUCCESS | L_CHUNKSUCCESS | L_DONE | L_FAIL
  | L_CHUNK | L_PART | L_PARTIAL | L_PARTPARTIAL
deriving DecidableEq, Repr

/-- Modelled from the spec: the programs that write log lines (the enum of
`logfile.h` is not under src/); find.c names only `P_TAPER`. -/
inductive program_t where
  | P_UNKNOWN | P_PLANNER | P_DRIVER | P_REPORTER | P_DUMPER | P_CHUNKER
  | P_TAPER | P_AMFLUSH
deriving DecidableEq, Repr

open logtype_t program_t

/-- One line as classified by `get_logline`: the globals `curlog`, `curprog`
and `curstr` (the text after the program name). -/
structure logline where
  curlog : logtype_t
  curprog : program_t
  curstr : String
deriving DecidableEq, Repr

/-- Source `find_result_t` without its `next` link: a catalog is a `List`. -/
structure find_result_t where
  timestamp : String
  hostname : String
  diskname : String
  level : Int
  label : String
  filenum : Int
  status : String
  partnum : String
deriving DecidableEq, Repr

/-- Modelled from the spec: an entry of the disk inventory (`disk_t` of
`diskfile.h`, not under src/) keyed by host and disk name, with its
"scheduled" flag `todo`. -/
structure disk_t where
  hostname : String
  name : String
  todo : Bool
deriving DecidableEq, Repr

/-- The disk inventory `find_diskqp`. -/
abbrev disklist_t := List disk_t

/-- Modelled from the spec: `lookup_disk(host, disk)` of `diskfile.c` (not
under src/), "lookupDisk(host, disk) -> handle | absent". -/
def lookup_disk (dl : disklist_t) (host disk : String) : Option disk_t :=
  dl.find? (fun d => d.hostname = host && d.name = disk)

/-- Modelled from the spec: `add_disk` followed by `enqueue_disk` of
`diskfile.c` (not under src/): "a new inventory entry is created and
scheduled". -/
def add_disk (dl : disklist_t) (host disk : String) : disklist_t :=
  dl ++ [⟨host, disk, true⟩]

/-- Source `find_match` (find.c 466-473): `dp && dp->todo`. -/
def find_match (dl : disklist_t) (host disk : String) : Bool :=
  match lookup_disk dl host disk with
  | some dp => dp.todo
  | none => false

/-- External collaborators of the scanner that are not under src/ and are
taken as parameters: `unquote_string` of the common library and the table
`program_str` of program names. -/
structure externals where
  unquote_string : String → String
  program_str : program_t → String

/-! ## Field extraction of `search_logfile` (find.c 647-746) -/

/-- The fields read from one record line. -/
structure record_fields where
  host : String
  disk : String
  date : String
  partnum : String
  level : Int
  rest : String
deriving DecidableEq, Repr

/-- The assignment `rest = s - 1` followed by cutting the line at the first
`\n` found from `s` on (find.c 743-746). -/
def rest_of (c : cursor) : List Char :=
  if c.zapped then [] else
  match c.p with
  | [] => []
  | ch :: s => ch :: s.takeWhile (fun x => x != '\n')

/-- Lines 657-685: on a PART or PARTPARTIAL line the tape label and the tape
file number come first.  The first component is `some fileno` when
`filenum = fileno` was executed; the second is the cursor at the host field,
or `none` when the line was left with `continue`. -/
def part_header (curlog : logtype_t) (label : String) (c : cursor) :
    Option Int × Option cursor :=
  if curlog = L_PART ∨ curlog = L_PARTPARTIAL then
    let thelabel := take_word c
    if String.mk thelabel.1 ≠ label then (none, none) else
    let c := skip_whitespace thelabel.2
    if c.p = [] then (none, none) else
    let number := take_word c
    let fileno := atoi number.1
    let c := skip_whitespace number.2
    if c.p = [] then (some fileno, none) else (some fileno, some c)
  else (none, some c)

/-- Lines 720-727: a part number token is read only on CHUNK, PART,
PARTPARTIAL and DONE lines; otherwise `partnum` stays `"--"`. -/
def take_partnum (curlog : logtype_t) (c : cursor) : String × cursor :=
  if curlog = L_CHUNK ∨ curlog = L_PART ∨ curlog = L_PARTPARTIAL ∨ curlog = L_DONE then
    let w := take_word (skip_whitespace c)
    (String.mk w.1, w.2)
  else ("--", c)

/-- Lines 687-746: host, quoted disk, date, optional part number, level and the
rest of the line; `none` when the line was left with `continue`. -/
def dump_fields (E : externals) (curlog : logtype_t) (datestamp : String)
    (c : cursor) : Option record_fields :=
  let host := take_word c
  let c := skip_whitespace host.2
  if c.p = [] then none else
  let qdisk := take_quoted c
  let disk := E.unquote_string (String.mk qdisk.1)
  let c := skip_whitespace qdisk.2
  if c.p = [] then none else
  let date := take_word c
  if date.1.length < 3 then
    let level := atoi date.1
    let c := skip_whitespace date.2
    if c.p = [] then none else
    some ⟨String.mk host.1, disk, datestamp, "--", level, String.mk (rest_of c)⟩
  else
    let pn := take_partnum curlog date.2
    let c := skip_whitespace pn.2
    if c.p = [] then none else
    match sscanf_d c.cstr with
    | none => none
    | some level =>
      let c := skip_whitespace (skip_integer c)
      if c.p = [] then none else
      some ⟨String.mk host.1, disk, String.mk date.1, pn.1, level, String.mk (rest_of c)⟩

/-- Lines 647-746 as a whole, for one line of a record kind. -/
def parse_record (E : externals) (curlog : logtype_t) (label datestamp curstr : String) :
    Option Int × Option record_fields :=
  let c := skip_whitespace ⟨curstr.data, false⟩
  if c.p = [] then (none, none) else
  match part_header curlog label c with
  | (fileno, none) => (fileno, none)
  | (fileno, some c) => (fileno, dump_fields E curlog datestamp c)

/-! ## The scanning loop of `search_logfile` (find.c 625-838) -/

/-- Local variables of `search_logfile` that live across loop iterations,
together with the catalog `*output_find` and the inventory `find_diskqp`. -/
structure scan_state where
  /-- The catalog `*output_find`, head first. -/
  output_find : List find_result_t
  /-- The pending parts list `part_find`, head first. -/
  part_find : List find_result_t
  filenum : Int
  passlabel : Bool
  diskq : disklist_t
deriving DecidableEq, Repr

/-- The kinds whose lines carry dump fields (find.c 643-646). -/
def is_record_kind (k : logtype_t) : Bool :=
  k = L_SUCCESS || k = L_CHUNKSUCCESS || k = L_DONE || k = L_FAIL ||
  k = L_CHUNK || k = L_PART || k = L_PARTIAL || k = L_PARTPARTIAL

/-- Lines 628-632: the running tape file counter. -/
def count_filenum (st : scan_state) (ln : logline) : Int :=
  if (ln.curlog = L_SUCCESS ∨ ln.curlog = L_CHUNK ∨ ln.curlog = L_PART ∨
      ln.curlog = L_PARTPARTIAL) ∧ ln.curprog = P_TAPER ∧ st.passlabel = true
  then st.filenum + 1 else st.filenum

/-- Lines 633-641: a START taper line naming another label flips `passlabel`. -/
def check_label (label : String) (st : scan_state) (ln : logline) : Bool :=
  if ln.curlog = L_START ∧ ln.curprog = P_TAPER then
    match parse_taper_datestamp_log ln.curstr with
    | none => st.passlabel
    | some ck => if ck.2 ≠ label then !st.passlabel else st.passlabel
  else st.passlabel

/-- The record allocated at find.c 759-768, before its status is set. -/
def new_output_find (label : String) (f : record_fields) (filenum : Int)
    (status : String) : find_result_t :=
  { timestamp := f.date, hostname := f.host, diskname := f.disk, level := f.level,
    partnum := f.partnum, label := label, filenum := filenum, status := status }

/-- Lines 776-785: on PARTIAL and FAIL the status of every pending part is
overwritten; on CHUNKSUCCESS and DONE the parts are left as they are. -/
def change_status (curlog : logtype_t) (rest : String)
    (part_find : List find_result_t) : List find_result_t :=
  if curlog = L_PARTIAL ∨ curlog = L_FAIL then
    part_find.map (fun a =>
      { a with status := if curlog = L_PARTIAL then "PARTIAL" else rest })
  else part_find

/-- Lines 757-835: what a line with resolved fields does to the catalog and to
the pending parts. -/
def add_record (E : externals) (label : String) (ln : logline) (f : record_fields)
    (st : scan_state) : scan_state :=
  if find_match st.diskq f.host f.disk then
    if ln.curprog = P_TAPER then
      if ln.curlog = L_SUCCESS then
        { st with output_find := new_output_find label f st.filenum "OK" :: st.output_find }
      else if ln.curlog = L_CHUNKSUCCESS ∨ ln.curlog = L_DONE ∨
              ln.curlog = L_PARTIAL ∨ ln.curlog = L_FAIL then
        match change_status ln.curlog f.rest st.part_find with
        | [] => { st with part_find := [] }
        | a :: parts => { st with output_find := (a :: parts) ++ st.output_find, part_find := [] }
      else
        let new := new_output_find label f st.filenum
          (if ln.curlog = L_PART ∨ ln.curlog = L_CHUNK then "OK" else "PARTIAL")
        if ln.curlog = L_PARTPARTIAL then
          { st with output_find := (new :: st.part_find) ++ st.output_find, part_find := [] }
        else
          { st with part_find := new :: st.part_find }
    else if ln.curlog = L_FAIL then
      { st with output_find :=
          { timestamp := f.date, hostname := f.host, diskname := f.disk, level := f.level,
            label := label, partnum := f.partnum, filenum := 0,
            status := "FAILED (" ++ E.program_str ln.curprog ++ ") " ++ f.rest }
          :: st.output_find }
    else st
  else st

/-- Lines 748-755: disk resolution, then the record handling. -/
def resolve_disk (E : externals) (dynamic_disklist : Bool) (label : String) (ln : logline)
    (f : record_fields) (st : scan_state) : scan_state :=
  match lookup_disk st.diskq f.host f.disk with
  | none =>
    if dynamic_disklist = false then st
    else add_record E label ln f { st with diskq := add_disk st.diskq f.host f.disk }
  | some _ => add_record E label ln f st

/-- One iteration of the loop at find.c 627-838. -/
def scan_line (E : externals) (dynamic_disklist : Bool) (label datestamp : String)
    (st : scan_state) (ln : logline) : scan_state :=
  let st1 := { st with filenum := count_filenum st ln, passlabel := check_label label st ln }
  if is_record_kind ln.curlog then
    match parse_record E ln.curlog label datestamp ln.curstr with
    | (fileno, none) => { st1 with filenum := fileno.getD st1.filenum }
    | (fileno, some f) =>
      resolve_disk E dynamic_disklist label ln f { st1 with filenum := fileno.getD st1.filenum }
  else st1

/-- The loop `while (get_logline(logf) && passlabel)` over the lines left in
the file. -/
def scan_loop (E : externals) (dynamic_disklist : Bool) (label datestamp : String) :
    scan_state → List logline → scan_state
  | st, [] => st
  | st, ln :: lines =>
    if st.passlabel then
      scan_loop E dynamic_disklist label datestamp
        (scan_line E dynamic_disklist label datestamp st ln) lines
    else st

/-- Whether a line confirms the tape identity (find.c 600-608). -/
def is_tape_start (label datestamp : String) (ln : logline) : Bool :=
  ln.curlog = L_START && ln.curprog = P_TAPER &&
  match parse_taper_datestamp_log ln.curstr with
  | none => false
  | some ck => ck.1 = datestamp && ck.2 = label

/-- The loop `while (!tapematch && get_logline(logf))` (find.c 597-610):
`some lines` holds the lines left in the file after the first line that
confirms the tape identity; `none` is `tapematch == 0` at end of file. -/
def tape_loop (label datestamp : String) : List logline → Option (List logline)
  | [] => none
  | ln :: lines =>
    if is_tape_start label datestamp ln then some lines
    else tape_loop label datestamp lines

/-- What `search_logfile` leaves behind: its return value, the catalog
`*output_find` (`none` when called with a `NULL` sink) and the inventory. -/
structure search_result where
  ret : Int
  output_find : Option (List find_result_t)
  diskq : disklist_t
deriving DecidableEq, Repr

/-- Source `search_logfile` (find.c 564-846) on the lines of an opened log
file (a failing `fopen` ends the process through `error` and is outside the
model).  `output_find = none` is the call with a `NULL` sink (probe mode). -/
def search_logfile (E : externals) (dynamic_disklist : Bool) (diskq : disklist_t)
    (output_find : Option (List find_result_t)) (label datestamp : String)
    (logfile : List logline) : search_result :=
  match output_find with
  | none =>
    match tape_loop label datestamp logfile with
    | none => ⟨0, none, diskq⟩
    | some _ => ⟨1, none, diskq⟩
  | some catalog =>
    match tape_loop label datestamp logfile with
    | none => ⟨0, some catalog, diskq⟩
    | some lines =>
      let st := scan_loop E dynamic_disklist label datestamp ⟨catalog, [], 0, true, diskq⟩ lines
      ⟨1, some st.output_find, st.diskq⟩

/-! ## Dumpspec parsing (cmdline.c, cmdline.h) -/

/-- Source `dumpspec_t` (cmdline.h 39-43); `none` is a `NULL` field. -/
structure dumpspec_t where
  host : Option String
  disk : Option String
  datestamp : Option String
deriving DecidableEq, Repr

/-- Source `dumpspec_new` (cmdline.c 33-48). -/
def dumpspec_new (host disk datestamp : Option String) : dumpspec_t :=
  ⟨host, disk, datestamp⟩

/-- The local enum `arg_state` of `cmdline_parse_dumpspecs`. -/
inductive arg_state_t where
  | ARG_GET_HOST | ARG_GET_DISK | ARG_GET_DATE
deriving DecidableEq, Repr

open arg_state_t

/-- Assignment through the pointer `dumpspec`, which always refers to the
element appended last to `list`: the last element of the list is updated. -/
def update_last (f : dumpspec_t → dumpspec_t) : List dumpspec_t → List dumpspec_t
  | [] => []
  | [d] => [f d]
  | d :: e :: l => d :: update_last f (e :: l)

/-- The test `name[0] != '\0' && (errstr = validate_regexp(name)) != NULL`;
`validate_regexp` (not under src/) returns an error text or `NULL`. -/
def bad_regex (validate_regexp : String → Option String) (name : String) : Bool :=
  name ≠ "" && (validate_regexp name).isSome

/-- The loop `while (optind < argc)` of `cmdline_parse_dumpspecs` (cmdline.c
85-122) over the arguments not yet read; `none` is the jump to `error`. -/
def parse_loop (validate_regexp : String → Option String) :
    arg_state_t → List dumpspec_t → List String → Option (List dumpspec_t)
  | _, list, [] => some list
  | ARG_GET_HOST, list, name :: argv =>
    if bad_regex validate_regexp name then none
    else parse_loop validate_regexp ARG_GET_DISK
      (list ++ [dumpspec_new (some name) none none]) argv
  | ARG_GET_DISK, list, name :: argv =>
    if bad_regex validate_regexp name then none
    else parse_loop validate_regexp ARG_GET_DATE
      (update_last (fun d => { d with disk := some name }) list) argv
  | ARG_GET_DATE, list, name :: argv =>
    if bad_regex validate_regexp name then none
    else parse_loop validate_regexp ARG_GET_HOST
      (update_last (fun d => { d with datestamp := some name }) list) argv

/-- Source `cmdline_parse_dumpspecs` (cmdline.c 73-135).  `none` is the `NULL`
returned on error; `dumpspec == NULL` after the loop holds exactly when nothing
was appended to `list`. -/
def cmdline_parse_dumpspecs (validate_regexp : String → Option String)
    (argv : List String) : Option (List dumpspec_t) :=
  match parse_loop validate_regexp ARG_GET_HOST [] argv with
  | none => none
  | some [] => some [dumpspec_new (some "") (some "") (some "")]
  | some list => some list

/-- Source macro `cmdline_dumpspec_list_is_wildcard` (cmdline.h 116-124). -/
def cmdline_dumpspec_list_is_wildcard (list : List dumpspec_t) : Bool :=
  match list with
  | [d] => d.host = some "" && d.disk = some "" && d.datestamp = some ""
  | _ => false

/-- Specification-side reading of the argument syntax
`[ host [ disk [ datestamp [ host ... ] ] ] ]`: the arguments cut into
consecutive groups of three, the last group possibly shorter. -/
def dumpspec_groups : List String → List dumpspec_t
  | [] => []
  | [h] => [⟨some h, none, none⟩]
  | [h, d] => [⟨some h, some d, none⟩]
  | h :: d :: t :: argv => ⟨some h, some d, some t⟩ :: dumpspec_groups argv

/-- Specification-side reading of "a START line from taper that parses as
`datestamp <D> label <L>` with D and L the expected tape identity". -/
def names_tape (label datestamp : String) (ln : logline) : Prop :=
  ln.curlog = L_START ∧ ln.curprog = P_TAPER ∧
    parse_taper_datestamp_log ln.curstr = some (datestamp, label)

instance (label datestamp : String) (ln : logline) :
    Decidable (names_tape label datestamp ln) :=
  inferInstanceAs (Decidable (_ ∧ _ ∧ _))

/-- Specification-side reading of "terminator line": a taper line of kind
CHUNKSUCCESS, DONE, PARTIAL, FAIL or PARTPARTIAL. -/
def is_terminator (ln : logline) : Bool :=
  ln.curprog = P_TAPER &&
    (ln.curlog = L_CHUNKSUCCESS || ln.curlog = L_DONE || ln.curlog = L_PARTIAL ||
     ln.curlog = L_FAIL || ln.curlog = L_PARTPARTIAL)

/-- Specification-side reading of "well-formed quoted disk name": a token with
no white space outside double quotes and every double quote closed, a
backslash hiding the double quote that follows it; `iq` tells whether a
double quote is open. -/
def quoted_word (iq : Bool) : List Char → Bool
  | [] => !iq
  | c :: s =>
    if !iq && isspace c then false
    else if c = '"' then quoted_word (!iq) s
    else
      match s with
      | d :: t => if c = '\\' && d = '"' then quoted_word iq t else quoted_word iq (d :: t)
      | [] => !iq

/-- Specification-side reading of "the field is there": the text starts with a
character other than white space. -/
def starts_word (w : List Char) : Prop := ∃ c s, w = c :: s ∧ isspace c = false

instance (w : List Char) : Decidable (starts_word w) :=
  match w with
  | [] => isFalse (fun ⟨_, _, h, _⟩ => by cases h)
  | c :: s =>
    if h : isspace c = false then isTrue ⟨c, s, rfl, h⟩
    else isFalse (fun ⟨_, _, he, hc⟩ => by cases he; exact h hc)

/-- Specification-side reading of the fields written on a taper PART or DONE
line in the current log format: host, quoted disk, date, part number, level
and the rest of the line. -/
structure dump_tokens where
  host : List Char
  qdisk : List Char
  date : List Char
  partnum : List Char
  level : List Char
  rest : List Char
deriving DecidableEq, Repr

/-- The fields of a line written one after the other, one blank between them. -/
def dump_tokens.text (t : dump_tokens) : List Char :=
  t.host ++ ' ' :: (t.qdisk ++ ' ' :: (t.date ++ ' ' :: (t.partnum ++ ' ' ::
    (t.level ++ ' ' :: t.rest))))

/-- Specification-side reading of "well-formed": host, date and part number are
non-empty words without white space, the date has at least 3 characters, the
disk is a well-formed quoted name, the level is a decimal number and the rest
of the line is not empty. -/
def dump_tokens.well_formed (t : dump_tokens) : Prop :=
  (t.host ≠ [] ∧ ∀ c ∈ t.host, isspace c = false) ∧
  (t.qdisk ≠ [] ∧ quoted_word false t.qdisk = true) ∧
  (3 ≤ t.date.length ∧ ∀ c ∈ t.date, isspace c = false) ∧
  (t.partnum ≠ [] ∧ ∀ c ∈ t.partnum, isspace c = false) ∧
  (t.level ≠ [] ∧ ∀ c ∈ t.level, isdigit c = true) ∧
  (starts_word t.rest ∧ ∀ c ∈ t.rest, c ≠ '\n')

instance (t : dump_tokens) : Decidable t.well_formed :=
  inferInstanceAs (Decidable (_ ∧ _ ∧ _ ∧ _ ∧ _ ∧ _))

/-- The line `PART taper <label> <number> <fields>`. -/
def part_line (label : String) (number : List Char) (t : dump_tokens) : logline :=
  ⟨L_PART, P_TAPER, String.mk (label.data ++ ' ' :: (number ++ ' ' :: t.text))⟩

/-- The line `DONE taper <fields>`. -/
def done_line (t : dump_tokens) : logline := ⟨L_DONE, P_TAPER, String.mk t.text⟩

/-- The catalog record that carries what is written on a PART line: host,
unquoted disk, date, level, part number and tape file number of the line (the
two numbers by their decimal value), the tape label and status OK. -/
def part_record (E : externals) (label : String) (number : List Char)
    (t : dump_tokens) : find_result_t :=
  { timestamp := String.mk t.date, hostname := String.mk t.host,
    diskname := E.unquote_string (String.mk t.qdisk),
    level := (read_digits 0 t.level : Int), label := label,
    filenum := (read_digits 0 number : Int),
    status := "OK", partnum := String.mk t.partnum }

/-- A sample pattern validator used to evaluate the parser: it rejects the
single token `[` and accepts everything else. -/
def sample_validate (name : String) : Option String :=
  if name = "[" then some "brackets not balanced" else none

/-- A scanner state with its pending parts list emptied. -/
def without_parts (st : scan_state) : scan_state := { st with part_find := [] }

/-! ## Sample data used to evaluate the scanner on concrete logs -/

/-- An instance of the external collaborators: `unquote_string` drops the
double quotes (enough for disk names without escapes) and `program_str` gives
the program names. -/
def plain_externals : externals where
  unquote_string := fun q => String.mk (q.data.filter (fun c => c != '"'))
  program_str := fun p =>
    match p with
    | P_UNKNOWN => "UNKNOWN" | P_PLANNER => "planner" | P_DRIVER => "driver"
    | P_REPORTER => "amreport" | P_DUMPER => "dumper" | P_CHUNKER => "chunker"
    | P_TAPER => "taper" | P_AMFLUSH => "amflush"

/-- An inventory with one scheduled and one unscheduled disk. -/
def sample_inventory : disklist_t :=
  [⟨"host1", "/disk1", true⟩, ⟨"host2", "/disk2", false⟩]

/-- The line `START taper datestamp 20230101 label TAPE01`. -/
def start_tape01 : logline := ⟨L_START, P_TAPER, "datestamp 20230101 label TAPE01"⟩

/-- The line `START taper datestamp 20230101 label TAPE02`. -/
def start_tape02 : logline := ⟨L_START, P_TAPER, "datestamp 20230101 label TAPE02"⟩

/-- A taper SUCCESS line for the scheduled disk. -/
def success_disk1 : logline :=
  ⟨L_SUCCESS, P_TAPER, "host1 \"/disk1\" 20230101 0 [sec 1.0 kb 10 kps 10.0]"⟩

/-- First taper PART line of a dump of the scheduled disk, on tape file 1. -/
def part1_disk1 : logline :=
  ⟨L_PART, P_TAPER, "TAPE01 1 host1 /disk1 20230101 1/2 0 [sec 1.0 kb 10 kps 10.0]"⟩

/-- Second taper PART line of the same dump, on tape file 2. -/
def part2_disk1 : logline :=
  ⟨L_PART, P_TAPER, "TAPE01 2 host1 /disk1 20230101 2/2 0 [sec 1.0 kb 10 kps 10.0]"⟩

/-- The taper DONE line closing the two parts. -/
def done_disk1 : logline :=
  ⟨L_DONE, P_TAPER, "host1 /disk1 20230101 2 0 [sec 2.0 kb 20 kps 10.0]"⟩

/-- A taper FAIL line for the scheduled disk with the given reason text. -/
def fail_disk1 (reason : String) : logline :=
  ⟨L_FAIL, P_TAPER, "host1 /disk1 20230101 0 " ++ reason⟩

/-- A taper PARTIAL line for the scheduled disk. -/
def partial_disk1 : logline :=
  ⟨L_PARTIAL, P_TAPER, "host1 /disk1 20230101 0 [sec 2.0 kb 20 kps 10.0]"⟩

/-- The first part as it is recorded on the pending list. -/
def pending_part1 : find_result_t :=
  { timestamp := "20230101", hostname := "host1", diskname := "/disk1", level := 0,
    label := "TAPE01", filenum := 1, status := "OK", partnum := "1/2" }

/-- The second part as it is recorded on the pending list. -/
def pending_part2 : find_result_t :=
  { timestamp := "20230101", hostname := "host1", diskname := "/disk1", level := 0,
    label := "TAPE01", filenum := 2, status := "OK", partnum := "2/2" }

/-- The scanner state reached after the START line and the two PART lines. -/
def two_parts_pending : scan_state :=
  ⟨[], [pending_part2, pending_part1], 2, true, sample_inventory⟩

/-! ## Dumpspec formatting (cmdline.c 137-207) -/

/-- The C library `isalnum` in the C locale: the letters and digits of ASCII. -/
def isalnum (c : Char) : Bool :=
  ('0' ≤ c && c ≤ '9') || ('A' ≤ c && c ≤ 'Z') || ('a' ≤ c && c ≤ 'z')

/-- The test of cmdline.c 162, `!isalnum(*p) && *p != '.' && *p != '/'`: the
character forces single quotes. -/
def forces_quotes (c : Char) : Bool := !isalnum c && c != '.' && c != '/'

/-- The test of cmdline.c 163 and 171: the character gets a backslash. -/
def is_escaped (c : Char) : Bool := c = '\x27' || c = '\\'

/-- First loop of `quote_dumpspec_string` (cmdline.c 161-165): the value of
`len` and of `need_single_quotes` when the loop ends. -/
def quote_measure : List Char → Nat × Bool
  | [] => (0, false)
  | p :: str =>
    let r := quote_measure str
    ((if is_escaped p then 2 else 1) + r.1, forces_quotes p || r.2)

/-- The value of `len` when the buffer is allocated (cmdline.c 166-168). -/
def quote_len (str : List Char) : Nat :=
  let r := quote_measure str
  if r.2 then r.1 + 2 else r.1

/-- Second loop of `quote_dumpspec_string` (cmdline.c 170-173): the characters
written for the characters of `str`. -/
def quote_copy : List Char → List Char
  | [] => []
  | p :: str => if is_escaped p then '\\' :: p :: quote_copy str else p :: quote_copy str

/-- Source `quote_dumpspec_string` (cmdline.c 153-178): the characters written
to the buffer before the final `'\0'`. -/
def quote_dumpspec_string (str : String) : String :=
  let need_single_quotes := (quote_measure str.data).2
  String.mk ((if need_single_quotes then ['\x27'] else []) ++ quote_copy str.data ++
    (if need_single_quotes then ['\x27'] else []))

/-- Source `cmdline_format_dumpspec_components` (cmdline.c 180-207);
`newvstralloc(rv, rv, " ", x, NULL)` is the concatenation of its arguments. -/
def cmdline_format_dumpspec_components (host disk datestamp : Option String) :
    Option String :=
  let host := host.map quote_dumpspec_string
  let disk := disk.map quote_dumpspec_string
  let datestamp := datestamp.map quote_dumpspec_string
  match host with
  | none => none
  | some rv =>
    match disk with
    | none => some rv
    | some d =>
      let rv := rv ++ " " ++ d
      match datestamp with
      | none => some rv
      | some t => some (rv ++ " " ++ t)

/-- Source `cmdline_format_dumpspec` (cmdline.c 137-146); `none` is `NULL`. -/
def cmdline_format_dumpspec (dumpspec : Option dumpspec_t) : Option String :=
  match dumpspec with
  | none => none
  | some d => cmdline_format_dumpspec_components d.host d.disk d.datestamp

/-- Specification-side reading of "a backslash inserted before each single
quote and each backslash". -/
def with_backslashes (s : List Char) : List Char :=
  s.flatMap (fun c => if c = '\x27' ∨ c = '\\' then ['\\', c] else [c])

/-- Specification-side reading of the character class `[A-Za-z0-9./]`. -/
def plain_char (c : Char) : Bool := isalnum c || c = '.' || c = '/'

/-! ## Holding files matching a dumpspec list (cmdline.c 209-237) -/

/-- Modelled from the spec: the header types of `fileheader.h` (not under
src/); the sources name only `F_DUMPFILE`. -/
inductive filetype_t where
  | F_UNKNOWN | F_WEIRD | F_TAPESTART | F_TAPEEND | F_DUMPFILE | F_CONT_DUMPFILE
  | F_SPLIT_DUMPFILE | F_EMPTY
deriving DecidableEq, Repr

open filetype_t

/-- Modelled from the spec: the fields of the holding file header `dumpfile_t`
(`fileheader.h`, not under src/) that the sources read. -/
structure dumpfile_t where
  type : filetype_t
  datestamp : String
  dumplevel : Int
  name : String
  disk : String
deriving DecidableEq, Repr

/-- External collaborators of the holding disk code, taken as parameters:
the listing `holding_get_files(NULL, 1)`, the header reader
`holding_file_get_dumpfile` (`none` when it returns 0) and the pattern
matchers of the common library. -/
structure holding_externals where
  holding_get_files : List String
  holding_file_get_dumpfile : String → Option dumpfile_t
  match_host : String → String → Bool
  match_disk : String → String → Bool
  match_datestamp : String → String → Bool
  match_level : String → String → Bool

/-- The test `x && x[0]` on a `NULL`-able string. -/
def is_set (x : Option String) : Bool :=
  match x with
  | none => false
  | some s => s ≠ ""

/-- The loop over `dumpspec_list` for one holding file (cmdline.c 226-233):
`true` when a dumpspec passes the three tests, so that the name is appended
and the loop is left with `break`. -/
def match_dumpspecs (H : holding_externals) (file : dumpfile_t) : List dumpspec_t → Bool
  | [] => false
  | de :: li =>
    if is_set de.host && !H.match_host (de.host.getD "") file.name then match_dumpspecs H file li
    else if is_set de.disk && !H.match_disk (de.disk.getD "") file.disk then
      match_dumpspecs H file li
    else if is_set de.datestamp && !H.match_datestamp (de.datestamp.getD "") file.datestamp then
      match_dumpspecs H file li
    else true

/-- The loop over the holding files (cmdline.c 223-234) with the result list
`matching_files` built so far. -/
def match_holding_loop (H : holding_externals) (dumpspec_list : List dumpspec_t) :
    List String → List String → List String
  | [], matching_files => matching_files
  | name :: he, matching_files =>
    match H.holding_file_get_dumpfile name with
    | none => match_holding_loop H dumpspec_list he matching_files
    | some file =>
      if file.type ≠ F_DUMPFILE then match_holding_loop H dumpspec_list he matching_files
      else if match_dumpspecs H file dumpspec_list then
        match_holding_loop H dumpspec_list he (matching_files ++ [name])
      else match_holding_loop H dumpspec_list he matching_files

/-- Source `cmdline_match_holding` (cmdline.c 209-237). -/
def cmdline_match_holding (H : holding_externals) (dumpspec_list : List dumpspec_t) :
    List String :=
  match_holding_loop H dumpspec_list H.holding_get_files []

/-- Specification-side reading of "every present, non-empty field of the
dumpspec is accepted by the corresponding matcher against the file's field". -/
def dumpspec_accepts (H : holding_externals) (de : dumpspec_t) (file : dumpfile_t) : Bool :=
  (match de.host with
    | some h => h = "" || H.match_host h file.name
    | none => true) &&
  (match de.disk with
    | some d => d = "" || H.match_disk d file.disk
    | none => true) &&
  (match de.datestamp with
    | some t => t = "" || H.match_datestamp t file.datestamp
    | none => true)

/-- Specification-side reading of "the header is readable, the type is dump
file, and some dumpspec of the list accepts the file". -/
def holding_file_selected (H : holding_externals) (dumpspec_list : List dumpspec_t)
    (name : String) : Bool :=
  match H.holding_file_get_dumpfile name with
  | none => false
  | some file => file.type = F_DUMPFILE && dumpspec_list.any (fun de => dumpspec_accepts H de file)

/-! ## Sorting the catalog (find.c 250-353) -/

/-- The C library `strcmp`: the sign is the one the C standard fixes (the
first differing characters compared by code); the magnitude is their
difference, as in the usual implementations. -/
def strcmp : List Char → List Char → Int
  | [], [] => 0
  | [], b :: _ => - (b.toNat : Int)
  | a :: _, [] => (a.toNat : Int)
  | a :: s, b :: t => if a = b then strcmp s t else (a.toNat : Int) - (b.toNat : Int)

/-- The comparison of two part numbers under the keys `p` and `P` (find.c
291-295): by `atoi` when neither is `"--"`, by `strcmp` otherwise.  The `int`
difference of the two `atoi` values is reduced to 32 bits. -/
def compare_partnum (x y : String) : Int :=
  if strcmp x.data "--".data ≠ 0 ∧ strcmp y.data "--".data ≠ 0 then
    wrap_int (atoi x.data - atoi y.data)
  else strcmp x.data y.data

/-- The comparison of two file numbers under the keys `f` and `F` (find.c
278-279). -/
def compare_filenum (x y : Int) : Int := if x = y then 0 else if x < y then -1 else 1

/-- The `switch` of `find_compare` (find.c 263-304) for one character of the
sort order: the value of `compare` after it, `compare` being its value before
(a character that is no key leaves it as it is). -/
def compare_key (key : Char) (i j : find_result_t) (compare : Int) : Int :=
  if key = 'h' then strcmp i.hostname.data j.hostname.data
  else if key = 'H' then strcmp j.hostname.data i.hostname.data
  else if key = 'k' then strcmp i.diskname.data j.diskname.data
  else if key = 'K' then strcmp j.diskname.data i.diskname.data
  else if key = 'd' then strcmp i.timestamp.data j.timestamp.data
  else if key = 'D' then strcmp j.timestamp.data i.timestamp.data
  else if key = 'l' then wrap_int (j.level - i.level)
  else if key = 'f' then compare_filenum i.filenum j.filenum
  else if key = 'F' then compare_filenum j.filenum i.filenum
  else if key = 'L' then wrap_int (i.level - j.level)
  else if key = 'b' then strcmp i.label.data j.label.data
  else if key = 'B' then strcmp j.label.data i.label.data
  else if key = 'p' then compare_partnum i.partnum j.partnum
  else if key = 'P' then compare_partnum j.partnum i.partnum
  else compare

/-- The loop of `find_compare` (find.c 262-307) over the characters of the
sort order not yet used, `compare` being the current value of the variable. -/
def find_compare_loop (i j : find_result_t) : Int → List Char → Int
  | _, [] => 0
  | compare, key :: keys =>
    if compare_key key i j compare ≠ 0 then compare_key key i j compare
    else find_compare_loop i j (compare_key key i j compare) keys

/-- Source `find_compare` (find.c 250-309), the global `find_sort_order` passed
as an argument. -/
def find_compare (find_sort_order : String) (i j : find_result_t) : Int :=
  find_compare_loop i j 0 find_sort_order.data

/-- Specification-side reading of what the C standard asks of a comparison
function handed to `qsort`, on the elements of the array: the two orders of a
pair give opposite signs and "not greater" is transitive. -/
def consistent_on (cmp : find_result_t → find_result_t → Int) (l : List find_result_t) :
    Prop :=
  ∀ a ∈ l, ∀ b ∈ l, ∀ c ∈ l,
    (cmp a b < 0 ↔ 0 < cmp b a) ∧ (cmp a b ≤ 0 → cmp b c ≤ 0 → cmp a c ≤ 0)

/-- Specification-side reading of what the C standard promises of `qsort`
(not under src/), which is taken as a parameter: with a consistent comparison
function the array is a rearrangement of what it was, in ascending order. -/
structure qsort_sorts (qsort : (find_result_t → find_result_t → Int) →
    List find_result_t → List find_result_t) : Prop where
  perm : ∀ cmp l, consistent_on cmp l → (qsort cmp l).Perm l
  sorted : ∀ cmp l, consistent_on cmp l → (qsort cmp l).Pairwise (fun a b => cmp a b ≤ 0)

/-- Source `sort_find_result` (find.c 311-353): the catalog after the call.
The list is copied to an array, the array is sorted by `qsort` with
`find_compare`, and the records are linked again in array order. -/
def sort_find_result (qsort : (find_result_t → find_result_t → Int) →
    List find_result_t → List find_result_t) (sort_order : String)
    (output_find : List find_result_t) : List find_result_t :=
  match output_find with
  | [] => []
  | r :: rs => qsort (find_compare sort_order) (r :: rs)

/-- Insertion of one record into a list in ascending order of `cmp`. -/
def ordered_insert (cmp : find_result_t → find_result_t → Int) (x : find_result_t) :
    List find_result_t → List find_result_t
  | [] => [x]
  | y :: ys => if cmp x y ≤ 0 then x :: y :: ys else y :: ordered_insert cmp x ys

/-- A sample `qsort` used to evaluate `sort_find_result`: insertion sort. -/
def insertion_qsort (cmp : find_result_t → find_result_t → Int) :
    List find_result_t → List find_result_t
  | [] => []
  | x :: xs => ordered_insert cmp x (insertion_qsort cmp xs)

/-- Specification-side reading of "a part number of the catalog": the sentinel
`"--"` or a non-empty string of decimal digits whose value fits in an `int`. -/
def plain_partnum (p : String) : Prop :=
  p = "--" ∨ (p.data ≠ [] ∧ (∀ c ∈ p.data, isdigit c = true) ∧ read_digits 0 p.data < 2147483648)

instance (p : String) : Decidable (plain_partnum p) :=
  inferInstanceAs (Decidable (_ ∨ _))

/-- Specification-side reading of the place of a part number in the order:
the sentinel `"--"` comes first, the numbers follow by value. -/
def partnum_rank (p : String) : Int :=
  if p = "--" then -1 else (read_digits 0 p.data : Int)

/-- Specification-side reading of "the result of the leftmost key character
whose single-key comparison is non-zero, and 0 when every key compares
equal". -/
def leftmost_nonzero (results : List Int) : Int :=
  match results with
  | [] => 0
  | r :: rs => if r ≠ 0 then r else leftmost_nonzero rs

/-- A sample record with the given level and part number. -/
def sample_record (level : Int) (partnum : String) : find_result_t :=
  { timestamp := "20230101", hostname := "host1", diskname := "/disk1", level := level,
    label := "TAPE01", filenum := 1, status := "OK", partnum := partnum }

/-- A sample holding disk: a dump file, a file whose header is not a dump
file, a file without a readable header and a second dump file; the matchers
compare for equality. -/
def sample_holding : holding_externals where
  holding_get_files := ["/h/host1.disk1.0", "/h/notes", "/h/broken", "/h/host2.disk2.1"]
  holding_file_get_dumpfile := fun name =>
    if name = "/h/host1.disk1.0" then some ⟨F_DUMPFILE, "20230101", 0, "host1", "/disk1"⟩
    else if name = "/h/notes" then some ⟨F_WEIRD, "", 0, "", ""⟩
    else if name = "/h/host2.disk2.1" then some ⟨F_DUMPFILE, "20230102", 1, "host2", "/disk2"⟩
    else none
  match_host := fun pat x => pat = x
  match_disk := fun pat x => pat = x
  match_datestamp := fun pat x => pat = x
  match_level := fun pat x => pat = x

/-! ## Decimal output of `printf` -/

/-- The character of a decimal digit. -/
def digit_char (d : Nat) : Char := Char.ofNat (d + 48)

/-- The decimal digits of a number, most significant first; `fuel` bounds the
number of digits. -/
def dec_digits : Nat → Nat → List Char
  | 0, _ => []
  | fuel + 1, n =>
    if n < 10 then [digit_char n] else dec_digits fuel (n / 10) ++ [digit_char (n % 10)]

/-- The decimal digits of a natural number. -/
def render_nat (n : Nat) : List Char := dec_digits (n + 1) n

/-- The C library conversion `%<width>d` (`zero = false`, padded with blanks)
and `%0<width>d` (`zero = true`, padded with zeros after the sign); width 0 is
plain `%d`. -/
def printf_d (width : Nat) (zero : Bool) (n : Int) : List Char :=
  let digits := render_nat n.natAbs
  let sign : List Char := if n < 0 then ['-'] else []
  let pad := width - (sign.length + digits.length)
  if zero then sign ++ List.replicate pad '0' ++ digits
  else List.replicate pad ' ' ++ sign ++ digits

/-! ## `find_nicedate` (find.c 475-509) -/

/-- Source `find_nicedate` (find.c 475-509): the content of the static buffer
`nice` (20 bytes, so at most 19 characters) after the call. -/
def find_nicedate (datestamp : String) : String :=
  let date := datestamp.data.take 8
  let numdate := atoi date
  let year := numdate.tdiv 10000
  let month := (numdate.tdiv 100).tmod 100
  let day := numdate.tmod 100
  if datestamp.data.length ≤ 8 then
    String.mk ((printf_d 4 false year ++ '-' :: (printf_d 2 true month ++
      '-' :: printf_d 2 true day)).take 19)
  else
    let atime := (datestamp.data.drop 8).take 6
    let numtime := atoi atime
    let hours := numtime.tdiv 10000
    let minutes := (numtime.tdiv 100).tmod 100
    let seconds := numtime.tmod 100
    String.mk ((printf_d 4 false year ++ '-' :: (printf_d 2 true month ++
      '-' :: (printf_d 2 true day ++ ' ' :: (printf_d 2 true hours ++
      ':' :: (printf_d 2 true minutes ++ ':' :: printf_d 2 true seconds))))).take 19)

/-! ## `dumps_match` (find.c 849-894) -/

/-- The test `!pat || *pat == '\0' || match(pat, value)` of `dumps_match`. -/
def pattern_accepts (matcher : String → String → Bool) (pat : Option String)
    (value : String) : Bool :=
  match pat with
  | none => true
  | some p => p = "" || matcher p value

/-- The condition of find.c 871-875 for one record; `level_str` is the record's
level printed with `%d`, and `!strcmp(status, "OK")` is equality with `"OK"`. -/
def dump_matches (H : holding_externals) (hostname diskname datestamp level : Option String)
    (ok : Bool) (cur_result : find_result_t) : Bool :=
  pattern_accepts H.match_host hostname cur_result.hostname &&
  pattern_accepts H.match_disk diskname cur_result.diskname &&
  pattern_accepts H.match_datestamp datestamp cur_result.timestamp &&
  pattern_accepts H.match_level level (String.mk (printf_d 0 false cur_result.level)) &&
  (!ok || cur_result.status = "OK")

/-- The loop of `dumps_match` over the records not yet visited, `matched` being
the list `matches` built so far: a matching record is copied and put in front
of it. -/
def dumps_match_loop (H : holding_externals)
    (hostname diskname datestamp level : Option String) (ok : Bool) :
    List find_result_t → List find_result_t → List find_result_t
  | [], matched => matched
  | cur_result :: rest, matched =>
    if dump_matches H hostname diskname datestamp level ok cur_result then
      dumps_match_loop H hostname diskname datestamp level ok rest (cur_result :: matched)
    else dumps_match_loop H hostname diskname datestamp level ok rest matched

/-- Source `dumps_match` (find.c 854-894): the list `matches` it returns.  The
catalog `output_find` is only read. -/
def dumps_match (H : holding_externals) (output_find : List find_result_t)
    (hostname diskname datestamp level : Option String) (ok : Bool) : List find_result_t :=
  dumps_match_loop H hostname diskname datestamp level ok output_find []

/-! ## `search_holding_disk` (find.c 197-248) -/

/-- The statements `s = strrchr(file.name, '.')` and `*s = '\0'`: the name cut
at its last `.`, or `none` when it holds no `.`. -/
def cut_last_dot : List Char → Option (List Char)
  | [] => none
  | c :: s =>
    match cut_last_dot s with
    | some t => some (c :: t)
    | none => if c = '.' then some [] else none

/-- How the loop at find.c 219-226 ends. -/
inductive resolve_outcome where
  /-- The bound on the number of iterations was reached. -/
  | out_of_fuel
  /-- Left through `break` with `dp` set: the name that resolved. -/
  | resolved (name : List Char) (dp : disk_t)
  /-- Left through `break` with `dp == NULL`: no `.` is left in the name. -/
  | unresolved (name : List Char)
deriving DecidableEq, Repr

/-- The loop `for (;;)` at find.c 219-226 on the current content of
`file.name`, with a bound on the number of iterations. -/
def resolve_loop (diskq : disklist_t) (disk : String) : Nat → List Char → resolve_outcome
  | 0, _ => resolve_outcome.out_of_fuel
  | fuel + 1, name =>
    match lookup_disk diskq (String.mk name) disk with
    | some dp => resolve_outcome.resolved name dp
    | none =>
      match cut_last_dot name with
      | none => resolve_outcome.unresolved name
      | some shorter => resolve_loop diskq disk fuel shorter

/-- The body of the loop of `search_holding_disk` for one holding file (find.c
210-245): the catalog after it.  The resolution loop is run with a bound of
one more than the length of the header's host name. -/
def holding_file_step (H : holding_externals) (diskq : disklist_t)
    (output_find : List find_result_t) (holding_file : String) : List find_result_t :=
  match H.holding_file_get_dumpfile holding_file with
  | none => output_find
  | some file =>
    if file.dumplevel < 0 ∨ file.dumplevel > 9 then output_find
    else
      match resolve_loop diskq file.disk (file.name.data.length + 1) file.name.data with
      | resolve_outcome.resolved name _ =>
        if find_match diskq (String.mk name) file.disk then
          { timestamp := file.datestamp, hostname := String.mk name, diskname := file.disk,
            level := file.dumplevel, label := holding_file, partnum := "--", filenum := 0,
            status := "OK" } :: output_find
        else output_find
      | _ => output_find

/-- Source `search_holding_disk` (find.c 197-248): the catalog after the call. -/
def search_holding_disk (H : holding_externals) (diskq : disklist_t)
    (output_find : List find_result_t) : List find_result_t :=
  H.holding_get_files.foldl (holding_file_step H diskq) output_find

/-- Specification-side reading of "the header hostname, then the successively
shorter names obtained by cutting at the last `.`": the prefixes of the name
that end before a `.`, shortest first. -/
def dot_prefixes : List Char → List (List Char)
  | [] => []
  | c :: s => (if c = '.' then [[]] else []) ++ (dot_prefixes s).map (fun t => c :: t)

/-- The names the resolution loop may try, in the order it tries them. -/
def host_candidates (name : List Char) : List (List Char) :=
  name :: (dot_prefixes name).reverse

/-- Specification-side reading of "the first name that resolves with the
header's disk in the inventory", with the inventory entry found. -/
def first_resolving (diskq : disklist_t) (disk : String) :
    List (List Char) → Option (List Char × disk_t)
  | [] => none
  | name :: names =>
    match lookup_disk diskq (String.mk name) disk with
    | some dp => some (name, dp)
    | none => first_resolving diskq disk names

/-- A second sample holding disk: a dump file whose header names the host
`host1.example.com`, a continuation file of a dump (its header type is not
`F_DUMPFILE`) and a dump file of level 12. -/
def sample_holding_chunks : holding_externals where
  holding_get_files := ["/h/long", "/h/chunk.1", "/h/level12"]
  holding_file_get_dumpfile := fun name =>
    if name = "/h/long" then some ⟨F_DUMPFILE, "20230103", 3, "host1.example.com", "/disk1"⟩
    else if name = "/h/chunk.1" then some ⟨F_CONT_DUMPFILE, "20230101", 0, "host1", "/disk1"⟩
    else if name = "/h/level12" then some ⟨F_DUMPFILE, "20230104", 12, "host1", "/disk1"⟩
    else none
  match_host := fun pat x => pat = x
  match_disk := fun pat x => pat = x
  match_datestamp := fun pat x => pat = x
  match_level := fun pat x => pat = x

/-- Specification-side reading of a number printed in a blank padded field:
the digits with every leading zero, the last digit apart, replaced by a
blank. -/
def blank_leading_zeros : List Char → List Char
  | [] => []
  | [c] => [c]
  | c :: d :: s => if c = '0' then ' ' :: blank_leading_zeros (d :: s) else c :: d :: s

/-- Specification-side decoding, first step: when the first character is a
single quote, the surrounding pair of single quotes is removed. -/
def strip_quotes (q : List Char) : List Char :=
  match q with
  | [] => []
  | c :: t => if c = '\x27' then t.dropLast else c :: t

/-- Specification-side decoding, second step: each backslash that escapes a
following character is dropped and that character is kept. -/
def drop_backslashes : List Char → List Char
  | [] => []
  | c :: t =>
    if c = '\\' then
      match t with
      | [] => [c]
      | d :: u => d :: drop_backslashes u
    else c :: drop_backslashes t

/-- Specification-side decoding of a quoted dumpspec component. -/
def unquote_dumpspec_string (q : String) : String :=
  String.mk (drop_backslashes (strip_quotes q.data))

/-- Specification-side reading of the tape file number written on a PART or
PARTPARTIAL line: the integer value of the second token, when the first
token is the expected label. -/
def line_file_number (label curstr : String) : Option Int :=
  let c := skip_whitespace ⟨curstr.data, false⟩
  if c.p = [] then none else
  let thelabel := take_word c
  if String.mk thelabel.1 ≠ label then none else
  let c := skip_whitespace thelabel.2
  if c.p = [] then none else some (atoi (take_word c).1)

/-- Specification-side reading of "a taper line reporting success, chunk,
part or partial part". -/
def is_counted (ln : logline) : Bool :=
  (ln.curlog = L_SUCCESS || ln.curlog = L_CHUNK || ln.curlog = L_PART ||
    ln.curlog = L_PARTPARTIAL) && ln.curprog = P_TAPER

/-- A taper PART line of a one part dump of the scheduled disk that names the
tape file 5. -/
def part_file5_disk1 : logline :=
  ⟨L_PART, P_TAPER, "TAPE01 5 host1 /disk1 20230101 1/1 0 [sec 1.0 kb 10 kps 10.0]"⟩

/-- The taper DONE line closing the one part dump. -/
def done_one_part_disk1 : logline :=
  ⟨L_DONE, P_TAPER, "host1 /disk1 20230101 1 0 [sec 1.0 kb 10 kps 10.0]"⟩

/-- The cursor at the host field of a record line (find.c 647-687): after
the leading white space and, on PART and PARTPARTIAL lines, after the label
and the file number; `none` when the line is left before that. -/
def host_cursor (curlog : logtype_t) (label curstr : String) : Option cursor :=
  let c := skip_whitespace ⟨curstr.data, false⟩
  if c.p = [] then none else (part_header curlog label c).2

/-- A taper SUCCESS line of an old log, without the datestamp field. -/
def legacy_success_disk1 : logline :=
  ⟨L_SUCCESS, P_TAPER, "host1 /disk1 0 [sec 1.0 kb 10 kps 10.0]"⟩

/-- Specification-side reading of "a START taper line that names another
label": the line parses as a tape start and its label is not the expected one. -/
def names_other_label (label : String) (ln : logline) : Bool :=
  ln.curlog = L_START && ln.curprog = P_TAPER &&
  match parse_taper_datestamp_log ln.curstr with
  | some ck => ck.2 ≠ label
  | none => false

/-- A taper DONE line for the disk of the sample inventory that is not
scheduled. -/
def done_disk2 : logline :=
  ⟨L_DONE, P_TAPER, "host2 /disk2 20230101 2 0 [sec 2.0 kb 20 kps 10.0]"⟩

/-- Specification-side reading of "the record of the line": `r` is the record
that the line `ln`, read in the state `st`, has added when the scanner is in
the state `st2` after it.  A taper SUCCESS line and a FAIL line of another
program put their record at the head of the catalog, a taper PART or CHUNK
line at the head of the pending parts, a taper PARTPARTIAL line at the head
of the pending parts that it moves to the catalog. -/
def line_record_is (st st2 : scan_state) (ln : logline) (r : find_result_t) : Prop :=
  (ln.curprog = P_TAPER ∧ ln.curlog = L_SUCCESS ∧ st2.output_find = r :: st.output_find) ∨
  (ln.curprog = P_TAPER ∧ (ln.curlog = L_PART ∨ ln.curlog = L_CHUNK) ∧
    st2.part_find = r :: st.part_find) ∨
  (ln.curprog = P_TAPER ∧ ln.curlog = L_PARTPARTIAL ∧
    st2.output_find = r :: (st.part_find ++ st.output_find)) ∨
  (ln.curprog ≠ P_TAPER ∧ ln.curlog = L_FAIL ∧ st2.output_find = r :: st.output_find)

instance (st st2 : scan_state) (ln : logline) (r : find_result_t) :
    Decidable (line_record_is st st2 ln r) :=
  inferInstanceAs (Decidable (_ ∨ _ ∨ _ ∨ _))

/-- Specification-side reading of "the text starts with a decimal integer":
a digit, or a sign followed by a digit. -/
def starts_integer : List Char → Bool
  | [] => false
  | [c] => isdigit c
  | c :: d :: _ => isdigit c || ((c = '+' || c = '-') && isdigit d)

/-- Specification-side reading of "no integer follows": the line ends here, or
a blank follows and what comes after it does not start, white space apart,
with a decimal integer. -/
def no_integer_follows (after : List Char) : Prop :=
  after = [] ∨ ∃ t, after = ' ' :: t ∧ starts_integer (t.dropWhile isspace) = false

/-- Specification-side reading of what stands before the host field of a
record line: the tape label and the tape file number on a PART or
PARTPARTIAL line, nothing on the other lines. -/
def line_header (curlog : logtype_t) (label : String) (number : List Char) : List Char :=
  if curlog = L_PART ∨ curlog = L_PARTPARTIAL then label.data ++ ' ' :: (number ++ [' '])
  else []

/-- A taper SUCCESS line whose level position holds no integer. -/
def success_without_level : logline :=
  ⟨L_SUCCESS, P_TAPER, "host1 /disk1 20230101 [sec 1.0 kb 10 kps 10.0]"⟩

/-! ## The links of the catalog in `sort_find_result` (find.c 311-353) -/

/-- The memory that `sort_find_result` works on: the pointer `*output_find`
(`none` is `NULL`) and, for the node at each address, its `next` field and
its other fields. -/
structure catalog_memory where
  head : Option Nat
  next : Nat → Option Nat
  node : Nat → find_result_t

/-- The loops `for (r = *output_find; r; r = r->next)` of find.c 323-334, which
count the nodes and then copy their addresses to the array: the addresses
met, in link order; `none` when the walk has not reached `NULL` within the
fuel. -/
def walk_list (next : Nat → Option Nat) : Nat → Option Nat → Option (List Nat)
  | _, none => some []
  | 0, some _ => none
  | fuel + 1, some p => (walk_list next fuel (next p)).map (fun l => p :: l)

/-- The loop of find.c 341-345: `array[no]->next = array[no + 1]` for every
element but the last, then `array[nb_result - 1]->next = NULL`. -/
def relink (next : Nat → Option Nat) : List Nat → Nat → Option Nat
  | [] => next
  | [p] => fun q => if q = p then none else next q
  | p :: p2 :: rest => relink (fun q => if q = p then some p2 else next q) (p2 :: rest)

/-- Source `sort_find_result` (find.c 311-353) on the memory: early return on
the empty list, the array of node addresses filled in link order, `qsort` of
the array with `find_compare` on the nodes pointed to, the nodes linked again
in array order and `*output_find` set to the first element.  `qsort` (not
under src/) is a parameter. -/
def sort_find_result_links (qsort : (Nat → Nat → Int) → List Nat → List Nat)
    (sort_order : String) (fuel : Nat) (m : catalog_memory) : Option catalog_memory :=
  match m.head with
  | none => some m
  | some _ =>
    match walk_list m.next fuel m.head with
    | none => none
    | some array_find_result =>
      let sorted := qsort (fun i j => find_compare sort_order (m.node i) (m.node j))
        array_find_result
      some { m with next := relink m.next sorted, head := sorted.head? }

/-- Specification-side reading of "a properly terminated list": the addresses
`ptrs` are the nodes reached from `head` through the `next` fields, in link
order, each once, the last one with a `NULL` link. -/
def is_list (next : Nat → Option Nat) : Option Nat → List Nat → Bool
  | none, [] => true
  | some p, q :: ps => p = q && !decide (q ∈ ps) && is_list next (next q) ps
  | _, _ => false

/-- A sample `qsort` on an array of addresses: insertion into an ordered array. -/
def address_insert (cmp : Nat → Nat → Int) (x : Nat) : List Nat → List Nat
  | [] => [x]
  | y :: ys => if cmp x y ≤ 0 then x :: y :: ys else y :: address_insert cmp x ys

/-- A sample `qsort` on an array of addresses: insertion sort. -/
def address_qsort (cmp : Nat → Nat → Int) : List Nat → List Nat
  | [] => []
  | x :: xs => address_insert cmp x (address_qsort cmp xs)

/-- A sample memory: three nodes at the addresses 10, 20 and 30, linked in this
order, with the levels 1, 5 and 0. -/
def sample_memory : catalog_memory where
  head := some 10
  next := fun q => if q = 10 then some 20 else if q = 20 then some 30 else none
  node := fun q =>
    if q = 10 then sample_record 1 "--" else if q = 20 then sample_record 5 "--"
    else sample_record 0 "--"

/-! ## Lemmas on the dumpspec parser -/

theorem update_last_append_singleton (f : dumpspec_t → dumpspec_t)
    (l : List dumpspec_t) (d : dumpspec_t) :
    update_last f (l ++ [d]) = l ++ [f d] := by
  induction l with
  | nil => rfl
  | cons a l ih =>
    cases l with
    | nil => rfl
    | cons b l =>
      simp only [List.cons_append] at ih ⊢
      simp only [update_last, ih]

theorem parse_loop_groups (v : String → Option String) (argv : List String) :
    ∀ (list : List dumpspec_t), (∀ a ∈ argv, bad_regex v a = false) →
      parse_loop v ARG_GET_HOST list argv = some (list ++ dumpspec_groups argv) := by
  induction argv using dumpspec_groups.induct with
  | case1 => intro list _; simp [parse_loop, dumpspec_groups]
  | case2 h =>
    intro list hv
    simp [parse_loop, dumpspec_groups, dumpspec_new, hv]
  | case3 h d =>
    intro list hv
    have hh := hv h (by simp)
    have hd := hv d (by simp)
    simp [parse_loop, dumpspec_groups, dumpspec_new, hh, hd, update_last_append_singleton]
  | case4 h d t argv ih =>
    intro list hv
    have hh := hv h (by simp)
    have hd := hv d (by simp)
    have ht := hv t (by simp)
    have hrest : ∀ a ∈ argv, bad_regex v a = false := fun a ha => hv a (by simp [ha])
    simp [parse_loop, dumpspec_groups, dumpspec_new, hh, hd, ht,
      update_last_append_singleton, ih _ hrest]

theorem dumpspec_groups_length (argv : List String) :
    (dumpspec_groups argv).length = (argv.length + 2) / 3 := by
  induction argv using dumpspec_groups.induct with
  | case1 => simp [dumpspec_groups]
  | case2 h => simp [dumpspec_groups]
  | case3 h d => simp [dumpspec_groups]
  | case4 h d t argv ih =>
    simp only [dumpspec_groups, List.length_cons, ih]
    omega

theorem dumpspec_groups_getElem? (argv : List String) :
    ∀ i, 3 * i < argv.length →
      (dumpspec_groups argv)[i]? =
        some ⟨argv[3 * i]?, argv[3 * i + 1]?, argv[3 * i + 2]?⟩ := by
  induction argv using dumpspec_groups.induct with
  | case1 => intro i hi; simp at hi
  | case2 h =>
    intro i hi
    have : i = 0 := by simp at hi; omega
    subst this; simp [dumpspec_groups]
  | case3 h d =>
    intro i hi
    have : i = 0 := by simp at hi; omega
    subst this; simp [dumpspec_groups]
  | case4 h d t argv ih =>
    intro i hi
    cases i with
    | zero => simp [dumpspec_groups]
    | succ j =>
      have hj : 3 * j < argv.length := by simp at hi; omega
      have e0 : 3 * (j + 1) = 3 * j + 3 := by ring
      have e1 : 3 * (j + 1) + 1 = (3 * j + 1) + 3 := by ring
      have e2 : 3 * (j + 1) + 2 = (3 * j + 2) + 3 := by ring
      simp only [dumpspec_groups, List.getElem?_cons_succ, ih j hj, e0, e1, e2]

theorem bad_regex_of_valid (v : String → Option String) (argv : List String)
    (hv : ∀ a ∈ argv, a ≠ "" → v a = none) : ∀ a ∈ argv, bad_regex v a = false := by
  intro a ha
  by_cases h : a = ""
  · simp [bad_regex, h]
  · simp [bad_regex, hv a ha h]

theorem cmdline_parse_dumpspecs_eq (v : String → Option String) (argv : List String)
    (hv : ∀ a ∈ argv, a ≠ "" → v a = none) :
    cmdline_parse_dumpspecs v argv =
      some (if argv = [] then [dumpspec_new (some "") (some "") (some "")]
            else dumpspec_groups argv) := by
  unfold cmdline_parse_dumpspecs
  rw [parse_loop_groups v argv [] (bad_regex_of_valid v argv hv)]
  match argv with
  | [] => simp [dumpspec_groups]
  | [h] => simp [dumpspec_groups]
  | [h, d] => simp [dumpspec_groups]
  | h :: d :: t :: argv => simp [dumpspec_groups]

/-! ## Lemmas on the tokenizer -/

theorem takeWhile_word (p : Char → Bool) (w : List Char) (x : Char) (t : List Char)
    (hw : ∀ c ∈ w, p c = true) (hx : p x = false) :
    (w ++ x :: t).takeWhile p = w ∧ (w ++ x :: t).dropWhile p = x :: t := by
  induction w with
  | nil => simp [List.takeWhile, List.dropWhile, hx]
  | cons a w ih =>
    have ha : p a = true := hw a (by simp)
    have := ih (fun c hc => hw c (by simp [hc]))
    simp [List.takeWhile, List.dropWhile, ha, this]

theorem isspace_ne_quote (x : Char) (hx : isspace x = true) : x ≠ '"' := by
  intro h
  rw [h] at hx
  revert hx
  decide

theorem quoted_span_stop (c : Char) (s : List Char) (hc : isspace c = true) :
    quoted_span false (c :: s) = ([], c :: s) := by
  unfold quoted_span
  simp [hc]

theorem quoted_span_quote (iq : Bool) (s : List Char) :
    quoted_span iq ('"' :: s) =
      ('"' :: (quoted_span (!iq) s).1, (quoted_span (!iq) s).2) := by
  have : isspace '"' = false := by decide
  conv => lhs; unfold quoted_span
  simp [this]

theorem quoted_span_escape (iq : Bool) (t : List Char) :
    quoted_span iq ('\\' :: '"' :: t) =
      ('\\' :: '"' :: (quoted_span iq t).1, (quoted_span iq t).2) := by
  have : isspace '\\' = false := by decide
  conv => lhs; unfold quoted_span
  simp [this]

theorem quoted_span_other (iq : Bool) (c d : Char) (t : List Char)
    (hc : (!iq && isspace c) = false) (hq : c ≠ '"') (hesc : (c = '\\' && d = '"') = false) :
    quoted_span iq (c :: d :: t) =
      (c :: (quoted_span iq (d :: t)).1, (quoted_span iq (d :: t)).2) := by
  conv => lhs; unfold quoted_span
  simp only [hc, hq, if_false, Bool.false_eq_true]
  simp only [Bool.and_eq_false_imp, decide_eq_true_eq, decide_eq_false_iff_not] at hesc
  split
  · rename_i h; simp only [Bool.and_eq_true, decide_eq_true_eq] at h; exact absurd h.2 (hesc h.1)
  · rfl

theorem quoted_span_word : ∀ (iq : Bool) (q : List Char),
    quoted_word iq q = true → ∀ (x : Char) (t : List Char), isspace x = true →
      quoted_span iq (q ++ x :: t) = (q, x :: t)
  | iq, [], h, x, t, hx => by
    have hiq : iq = false := by simpa [quoted_word] using h
    subst hiq
    exact quoted_span_stop x t hx
  | iq, [c], h, x, t, hx => by
    have hxq := isspace_ne_quote x hx
    unfold quoted_word at h
    by_cases hc : (!iq && isspace c) = true
    · simp [hc] at h
    · have hc2 : (!iq && isspace c) = false := by simpa using hc
      simp only [hc2, Bool.false_eq_true, if_false] at h
      by_cases hq : c = '"'
      · subst hq
        simp only [if_true] at h
        have := quoted_span_word (!iq) [] h x t hx
        simp only [List.nil_append] at this
        simp [quoted_span_quote, this]
      · simp only [hq, if_false] at h
        have hiq : iq = false := by simpa using h
        have := quoted_span_word iq [] (by simp [quoted_word, hiq]) x t hx
        simp only [List.nil_append] at this
        have hesc : (c = '\\' && x = '"') = false := by simp [hxq]
        simp [quoted_span_other iq c x t hc2 hq hesc, this]
  | iq, c :: d :: s, h, x, t, hx => by
    unfold quoted_word at h
    by_cases hc : (!iq && isspace c) = true
    · simp [hc] at h
    · have hc2 : (!iq && isspace c) = false := by simpa using hc
      simp only [hc2, Bool.false_eq_true, if_false] at h
      by_cases hq : c = '"'
      · subst hq
        simp only [if_true] at h
        have := quoted_span_word (!iq) (d :: s) h x t hx
        simp only [List.cons_append] at this
        simp [quoted_span_quote, this]
      · simp only [hq, if_false] at h
        by_cases hesc : (c = '\\' && d = '"') = true
        · simp only [hesc, if_true] at h
          have := quoted_span_word iq s h x t hx
          simp only [Bool.and_eq_true, decide_eq_true_eq] at hesc
          obtain ⟨h1, h2⟩ := hesc
          subst h1; subst h2
          simp [quoted_span_escape, this]
        · have hesc2 : (c = '\\' && d = '"') = false := by simpa using hesc
          simp only [hesc2, Bool.false_eq_true, if_false] at h
          have := quoted_span_word iq (d :: s) h x t hx
          simp only [List.cons_append] at this
          simp [quoted_span_other iq c d _ hc2 hq hesc2, this]

theorem starts_word_of_nonspace (w : List Char) (hne : w ≠ [])
    (hw : ∀ c ∈ w, isspace c = false) : starts_word w := by
  cases w with
  | nil => exact absurd rfl hne
  | cons c s => exact ⟨c, s, rfl, hw c (by simp)⟩

theorem isdigit_not_space (c : Char) (h : isdigit c = true) :
    isspace c = false ∧ c ≠ '-' ∧ c ≠ '+' := by
  unfold isdigit at h
  simp only [Bool.or_eq_true, decide_eq_true_eq] at h
  rcases h with ((((((((h | h) | h) | h) | h) | h) | h) | h) | h) | h <;> subst h <;> decide

theorem starts_word_of_digits (w : List Char) (hne : w ≠ [])
    (hw : ∀ c ∈ w, isdigit c = true) : starts_word w :=
  starts_word_of_nonspace w hne (fun c hc => (isdigit_not_space c (hw c hc)).1)

theorem starts_word_of_quoted (q : List Char) (hne : q ≠ [])
    (hq : quoted_word false q = true) : starts_word q := by
  cases q with
  | nil => exact absurd rfl hne
  | cons c s =>
    refine ⟨c, s, rfl, ?_⟩
    unfold quoted_word at hq
    by_cases hc : isspace c = true
    · simp [hc] at hq
    · simpa using hc

theorem skip_whitespace_sep (w t : List Char) (z : Bool) (hw : starts_word w) :
    skip_whitespace ⟨' ' :: (w ++ t), z⟩ = ⟨w ++ t, false⟩ := by
  obtain ⟨c, s, rfl, hc⟩ := hw
  have h1 : is_skipped_space ' ' = true := by decide
  have h2 : is_skipped_space c = false := by simp [is_skipped_space, hc]
  simp [skip_whitespace, h1, List.dropWhile, h2]

theorem skip_whitespace_word (w : List Char) (hw : starts_word w) :
    skip_whitespace ⟨w, false⟩ = ⟨w, false⟩ := by
  obtain ⟨c, s, rfl, hc⟩ := hw
  have h2 : is_skipped_space c = false := by simp [is_skipped_space, hc]
  simp [skip_whitespace, h2]

theorem take_word_sep (w t : List Char) (hw : ∀ c ∈ w, isspace c = false) :
    take_word ⟨w ++ ' ' :: t, false⟩ = (w, ⟨' ' :: t, true⟩) := by
  have h := takeWhile_word (fun ch => !isspace ch) w ' ' t
    (fun c hc => by simp [hw c hc]) (by decide)
  simp [take_word, h.1, h.2]

theorem take_quoted_sep (q t : List Char) (hq : quoted_word false q = true) :
    take_quoted ⟨q ++ ' ' :: t, false⟩ = (q, ⟨' ' :: t, true⟩) := by
  simp [take_quoted, quoted_span_word false q hq ' ' t (by decide)]

theorem strtol_int_small (x : Int) (h1 : -2147483648 ≤ x) (h2 : x < 2147483648) :
    strtol_int x = x := by
  unfold strtol_int strtol_saturate wrap_int
  have e1 : ¬ x > 9223372036854775807 := by omega
  have e2 : ¬ x < -9223372036854775808 := by omega
  simp only [e1, e2, if_false]
  omega

theorem read_digits_word (w : List Char) (x : Char) (t : List Char)
    (hw : ∀ c ∈ w, isdigit c = true) (hx : isdigit x = false) :
    ∀ acc, read_digits acc (w ++ x :: t) = read_digits acc w := by
  induction w with
  | nil => intro acc; simp [read_digits, hx]
  | cons a w ih =>
    intro acc
    have ha : isdigit a = true := hw a (by simp)
    simp [read_digits, ha, ih (fun c hc => hw c (by simp [hc]))]

theorem read_signed_digits (w : List Char) (hne : w ≠ [])
    (hw : ∀ c ∈ w, isdigit c = true) (t : List Char) :
    read_signed (w ++ ' ' :: t) = (true, (read_digits 0 w : Int)) := by
  cases w with
  | nil => exact absurd rfl hne
  | cons a w =>
    have ha : isdigit a = true := hw a (by simp)
    obtain ⟨_, hm, hp⟩ := isdigit_not_space a ha
    have hr := read_digits_word (a :: w) ' ' t hw (by decide) 0
    simp only [List.cons_append] at hr ⊢
    unfold read_signed
    split
    · rename_i heq; simp at heq; exact absurd heq.1 hm
    · rename_i heq; simp at heq; exact absurd heq.1 hp
    · simp [ha, hr]

theorem sscanf_d_digits (w : List Char) (hne : w ≠ [])
    (hw : ∀ c ∈ w, isdigit c = true) (t : List Char) :
    sscanf_d (w ++ ' ' :: t) = some (strtol_int (read_digits 0 w)) := by
  obtain ⟨c, s, rfl, hc⟩ := starts_word_of_digits w hne hw
  have hd : ((c :: s) ++ ' ' :: t).dropWhile isspace = (c :: s) ++ ' ' :: t := by
    simp [List.dropWhile, hc]
  unfold sscanf_d
  rw [hd, read_signed_digits (c :: s) hne hw t]
  rfl

theorem atoi_digits (w : List Char) (hne : w ≠ []) (hw : ∀ c ∈ w, isdigit c = true) :
    atoi w = strtol_int (read_digits 0 w) := by
  cases w with
  | nil => exact absurd rfl hne
  | cons a w =>
    have ha : isdigit a = true := hw a (by simp)
    obtain ⟨hs, hm, hp⟩ := isdigit_not_space a ha
    have hd : (a :: w).dropWhile isspace = a :: w := by simp [List.dropWhile, hs]
    unfold atoi
    rw [hd]
    unfold read_signed
    split
    · rename_i heq; simp at heq; exact absurd heq.1 hm
    · rename_i heq; simp at heq; exact absurd heq.1 hp
    · rfl

theorem atoi_digits_small (w : List Char) (hne : w ≠ []) (hw : ∀ c ∈ w, isdigit c = true)
    (hr : read_digits 0 w < 2147483648) : atoi w = (read_digits 0 w : Int) := by
  rw [atoi_digits w hne hw, strtol_int_small _ (by omega) (by omega)]

theorem skip_integer_digits (w : List Char) (hne : w ≠ [])
    (hw : ∀ c ∈ w, isdigit c = true) (t : List Char) :
    skip_integer ⟨w ++ ' ' :: t, false⟩ = ⟨' ' :: t, false⟩ := by
  cases w with
  | nil => exact absurd rfl hne
  | cons a w =>
    have ha : isdigit a = true := hw a (by simp)
    have h := takeWhile_word isdigit w ' ' t (fun c hc => hw c (by simp [hc])) (by decide)
    simp [skip_integer, ha, h.2]

theorem rest_of_line (rest : List Char) (hn : ∀ c ∈ rest, c ≠ '\n') :
    rest_of ⟨rest, false⟩ = rest := by
  cases rest with
  | nil => rfl
  | cons c s =>
    have : s.takeWhile (fun x => x != '\n') = s := by
      rw [List.takeWhile_eq_self_iff]
      intro x hx
      simp [hn x (by simp [hx])]
    simp [rest_of, this]

theorem take_partnum_none (curlog : logtype_t) (c : cursor)
    (hk : ¬ (curlog = L_CHUNK ∨ curlog = L_PART ∨ curlog = L_PARTPARTIAL ∨ curlog = L_DONE)) :
    take_partnum curlog c = ("--", c) := by
  simp [take_partnum, hk]

theorem dump_fields_plain (E : externals) (curlog : logtype_t) (datestamp : String)
    (host qdisk date level rest : List Char)
    (hk : ¬ (curlog = L_CHUNK ∨ curlog = L_PART ∨ curlog = L_PARTPARTIAL ∨ curlog = L_DONE))
    (hhost : ∀ c ∈ host, isspace c = false)
    (hqdisk : qdisk ≠ [] ∧ quoted_word false qdisk = true)
    (hdate : 3 ≤ date.length ∧ ∀ c ∈ date, isspace c = false)
    (hlevel : level ≠ [] ∧ ∀ c ∈ level, isdigit c = true)
    (hrest : starts_word rest ∧ ∀ c ∈ rest, c ≠ '\n') :
    dump_fields E curlog datestamp
        ⟨host ++ ' ' :: (qdisk ++ ' ' :: (date ++ ' ' :: (level ++ ' ' :: rest))), false⟩ =
      some ⟨String.mk host, E.unquote_string (String.mk qdisk), String.mk date, "--",
        strtol_int (read_digits 0 level), String.mk rest⟩ := by
  have hdne : date ≠ [] := by
    intro h; rw [h] at hdate; simp at hdate
  have hsq := starts_word_of_quoted qdisk hqdisk.1 hqdisk.2
  have hsd := starts_word_of_nonspace date hdne hdate.2
  have hsl := starts_word_of_digits level hlevel.1 hlevel.2
  have hne : ∀ (w t : List Char), starts_word w → w ++ t ≠ [] := by
    intro w t hw
    obtain ⟨c, s, rfl, _⟩ := hw
    simp
  have hr := skip_whitespace_sep rest [] false hrest.1
  simp only [List.append_nil] at hr
  have hrne : rest ≠ [] := by
    have := hne rest [] hrest.1
    simpa using this
  have hlen : ¬ date.length < 3 := by omega
  unfold dump_fields
  simp only [take_word_sep host _ hhost, skip_whitespace_sep qdisk _ true hsq,
    hne qdisk _ hsq, if_false, take_quoted_sep qdisk _ hqdisk.2,
    skip_whitespace_sep date _ true hsd, hne date _ hsd, take_word_sep date _ hdate.2, hlen,
    take_partnum_none curlog _ hk, skip_whitespace_sep level _ true hsl, hne level _ hsl,
    cursor.cstr, Bool.false_eq_true, sscanf_d_digits level hlevel.1 hlevel.2,
    skip_integer_digits level hlevel.1 hlevel.2, hr, hrne, rest_of_line rest hrest.2]

theorem take_partnum_word (curlog : logtype_t) (w t : List Char)
    (hk : curlog = L_CHUNK ∨ curlog = L_PART ∨ curlog = L_PARTPARTIAL ∨ curlog = L_DONE)
    (hne : w ≠ []) (hw : ∀ c ∈ w, isspace c = false) :
    take_partnum curlog ⟨' ' :: (w ++ ' ' :: t), true⟩ = (String.mk w, ⟨' ' :: t, true⟩) := by
  simp [take_partnum, hk, skip_whitespace_sep w _ true (starts_word_of_nonspace w hne hw),
    take_word_sep w t hw]

theorem dump_fields_parts (E : externals) (curlog : logtype_t) (datestamp : String)
    (t : dump_tokens)
    (hk : curlog = L_CHUNK ∨ curlog = L_PART ∨ curlog = L_PARTPARTIAL ∨ curlog = L_DONE)
    (hw : t.well_formed) :
    dump_fields E curlog datestamp ⟨t.text, false⟩ =
      some ⟨String.mk t.host, E.unquote_string (String.mk t.qdisk), String.mk t.date,
        String.mk t.partnum, strtol_int (read_digits 0 t.level), String.mk t.rest⟩ := by
  obtain ⟨hhost, hqdisk, hdate, hpn, hlevel, hrest⟩ := hw
  have hdne : t.date ≠ [] := by
    intro h; rw [h] at hdate; simp at hdate
  have hsq := starts_word_of_quoted t.qdisk hqdisk.1 hqdisk.2
  have hsd := starts_word_of_nonspace t.date hdne hdate.2
  have hsl := starts_word_of_digits t.level hlevel.1 hlevel.2
  have hne : ∀ (w u : List Char), starts_word w → w ++ u ≠ [] := by
    intro w u hw
    obtain ⟨c, s, rfl, _⟩ := hw
    simp
  have hr := skip_whitespace_sep t.rest [] false hrest.1
  simp only [List.append_nil] at hr
  have hrne : t.rest ≠ [] := by
    have := hne t.rest [] hrest.1
    simpa using this
  have hlen : ¬ t.date.length < 3 := by omega
  unfold dump_fields dump_tokens.text
  simp only [take_word_sep t.host _ hhost.2, skip_whitespace_sep t.qdisk _ true hsq,
    hne t.qdisk _ hsq, if_false, take_quoted_sep t.qdisk _ hqdisk.2,
    skip_whitespace_sep t.date _ true hsd, hne t.date _ hsd, take_word_sep t.date _ hdate.2,
    hlen, take_partnum_word curlog t.partnum _ hk hpn.1 hpn.2,
    skip_whitespace_sep t.level _ true hsl, hne t.level _ hsl,
    cursor.cstr, Bool.false_eq_true, sscanf_d_digits t.level hlevel.1 hlevel.2,
    skip_integer_digits t.level hlevel.1 hlevel.2, hr, hrne, rest_of_line t.rest hrest.2]

theorem starts_word_append (w u : List Char) (h : starts_word w) : starts_word (w ++ u) := by
  obtain ⟨c, s, rfl, hc⟩ := h
  exact ⟨c, s ++ u, rfl, hc⟩

theorem text_starts_word (t : dump_tokens) (hw : t.well_formed) : starts_word t.text :=
  starts_word_append t.host _ (starts_word_of_nonspace t.host hw.1.1 hw.1.2)

theorem parse_record_done (E : externals) (label datestamp : String) (t : dump_tokens)
    (hw : t.well_formed) :
    parse_record E L_DONE label datestamp (String.mk t.text) =
      (none, some ⟨String.mk t.host, E.unquote_string (String.mk t.qdisk), String.mk t.date,
        String.mk t.partnum, strtol_int (read_digits 0 t.level), String.mk t.rest⟩) := by
  have hs := text_starts_word t hw
  have hne : t.text ≠ [] := by
    obtain ⟨c, s, h, _⟩ := hs
    simp [h]
  unfold parse_record
  simp only [skip_whitespace_word t.text hs, hne, if_false, part_header, reduceCtorEq,
    or_self, dump_fields_parts E L_DONE datestamp t (by simp) hw]

theorem parse_record_part (E : externals) (label datestamp : String) (number : List Char)
    (t : dump_tokens)
    (hlabel : label.data ≠ [] ∧ ∀ c ∈ label.data, isspace c = false)
    (hnumber : number ≠ [] ∧ ∀ c ∈ number, isspace c = false)
    (hw : t.well_formed) :
    parse_record E L_PART label datestamp
        (String.mk (label.data ++ ' ' :: (number ++ ' ' :: t.text))) =
      (some (atoi number),
        some ⟨String.mk t.host, E.unquote_string (String.mk t.qdisk), String.mk t.date,
          String.mk t.partnum, strtol_int (read_digits 0 t.level), String.mk t.rest⟩) := by
  have hs := text_starts_word t hw
  have hsl := starts_word_of_nonspace label.data hlabel.1 hlabel.2
  have hsn := starts_word_of_nonspace number hnumber.1 hnumber.2
  have hne : ∀ (w u : List Char), starts_word w → w ++ u ≠ [] := by
    intro w u hw
    obtain ⟨c, s, rfl, _⟩ := hw
    simp
  have hs0 : starts_word (label.data ++ ' ' :: (number ++ ' ' :: t.text)) :=
    starts_word_append label.data _ hsl
  have ht := skip_whitespace_sep t.text [] true hs
  simp only [List.append_nil] at ht
  have htne : t.text ≠ [] := by
    have := hne t.text [] hs
    simpa using this
  unfold parse_record
  simp only [skip_whitespace_word _ hs0, hne _ _ hsl, if_false, part_header, true_or, if_true,
    take_word_sep label.data _ hlabel.2, ne_eq, not_true_eq_false,
    skip_whitespace_sep number _ true hsn, hne _ _ hsn, take_word_sep number _ hnumber.2,
    ht, htne, dump_fields_parts E L_PART datestamp t (by simp) hw]

theorem parse_record_plain (E : externals) (curlog : logtype_t) (label datestamp : String)
    (host qdisk date level rest : List Char)
    (hk : ¬ (curlog = L_CHUNK ∨ curlog = L_PART ∨ curlog = L_PARTPARTIAL ∨ curlog = L_DONE))
    (hhost : host ≠ [] ∧ ∀ c ∈ host, isspace c = false)
    (hqdisk : qdisk ≠ [] ∧ quoted_word false qdisk = true)
    (hdate : 3 ≤ date.length ∧ ∀ c ∈ date, isspace c = false)
    (hlevel : level ≠ [] ∧ ∀ c ∈ level, isdigit c = true)
    (hrest : starts_word rest ∧ ∀ c ∈ rest, c ≠ '\n') :
    parse_record E curlog label datestamp
        (String.mk (host ++ ' ' :: (qdisk ++ ' ' :: (date ++ ' ' :: (level ++ ' ' :: rest))))) =
      (none, some ⟨String.mk host, E.unquote_string (String.mk qdisk), String.mk date, "--",
        strtol_int (read_digits 0 level), String.mk rest⟩) := by
  have hsh := starts_word_of_nonspace host hhost.1 hhost.2
  have hne : host ++ ' ' :: (qdisk ++ ' ' :: (date ++ ' ' :: (level ++ ' ' :: rest))) ≠ [] := by
    obtain ⟨c, s, rfl, _⟩ := hsh
    simp
  have hp : ¬ (curlog = L_PART ∨ curlog = L_PARTPARTIAL) := by
    intro h
    rcases h with h | h
    · exact hk (Or.inr (Or.inl h))
    · exact hk (Or.inr (Or.inr (Or.inl h)))
  have hw := skip_whitespace_word (host ++ ' ' :: (qdisk ++ ' ' :: (date ++ ' ' :: (level ++ ' ' :: rest))))
    (by obtain ⟨c, s, rfl, hc⟩ := hsh; exact ⟨c, _, rfl, hc⟩)
  unfold parse_record
  simp only [hw, hne, if_false, part_header, hp,
    dump_fields_plain E curlog datestamp host qdisk date level rest hk hhost.2 hqdisk hdate
      hlevel hrest]

/-! ## Lemmas on the log scanner -/

theorem is_tape_start_iff (label datestamp : String) (ln : logline) :
    is_tape_start label datestamp ln = true ↔ names_tape label datestamp ln := by
  unfold is_tape_start names_tape
  cases h : parse_taper_datestamp_log ln.curstr with
  | none => simp
  | some ck =>
    obtain ⟨d, l⟩ := ck
    simp [Prod.ext_iff, and_assoc]

theorem tape_loop_eq_none_iff (label datestamp : String) (logfile : List logline) :
    tape_loop label datestamp logfile = none ↔
      ∀ ln ∈ logfile, is_tape_start label datestamp ln = false := by
  induction logfile with
  | nil => simp [tape_loop]
  | cons ln lines ih =>
    by_cases h : is_tape_start label datestamp ln = true
    · simp [tape_loop, h]
    · simp [tape_loop, h, ih]

theorem tape_loop_isSome_iff (label datestamp : String) (logfile : List logline) :
    (tape_loop label datestamp logfile).isSome = true ↔
      ∃ ln ∈ logfile, names_tape label datestamp ln := by
  rw [← not_iff_not]
  simp only [Bool.not_eq_true, Option.not_isSome, Option.isNone_iff_eq_none,
    tape_loop_eq_none_iff, not_exists, not_and, ← is_tape_start_iff]

theorem check_label_of_record_kind (label : String) (st : scan_state) (ln : logline)
    (hk : is_record_kind ln.curlog = true) : check_label label st ln = st.passlabel := by
  unfold check_label
  have : ln.curlog ≠ L_START := by
    intro h; rw [h] at hk; simp [is_record_kind] at hk
  simp [this]

theorem resolve_disk_of_find_match (E : externals) (dyn : Bool) (label : String)
    (ln : logline) (f : record_fields) (st : scan_state)
    (hm : find_match st.diskq f.host f.disk = true) :
    resolve_disk E dyn label ln f st = add_record E label ln f st := by
  unfold resolve_disk
  unfold find_match at hm
  cases h : lookup_disk st.diskq f.host f.disk with
  | none => simp [h] at hm
  | some dp => rfl

theorem scan_line_of_fields (E : externals) (dyn : Bool) (label datestamp : String)
    (st : scan_state) (ln : logline) (fo : Option Int) (f : record_fields)
    (hk : is_record_kind ln.curlog = true)
    (hparse : parse_record E ln.curlog label datestamp ln.curstr = (fo, some f)) :
    scan_line E dyn label datestamp st ln =
      resolve_disk E dyn label ln f
        { st with filenum := fo.getD (count_filenum st ln) } := by
  simp [scan_line, hk, hparse, check_label_of_record_kind label st ln hk]

theorem scan_loop_append (E : externals) (dyn : Bool) (label datestamp : String)
    (lines tail : List logline) : ∀ st : scan_state,
    scan_loop E dyn label datestamp st (lines ++ tail) =
      scan_loop E dyn label datestamp (scan_loop E dyn label datestamp st lines) tail := by
  induction lines with
  | nil => intro st; rfl
  | cons ln lines ih =>
    intro st
    by_cases hp : st.passlabel = true
    · simp [scan_loop, hp, ih]
    · have hp2 : st.passlabel = false := by simpa using hp
      simp only [List.cons_append, scan_loop, hp2]
      cases tail with
      | nil => simp [scan_loop]
      | cons t ts => simp [scan_loop, hp2]

theorem add_record_terminator (E : externals) (label : String) (ln : logline)
    (f : record_fields) (st : scan_state) (hprog : ln.curprog = P_TAPER)
    (hkind : ln.curlog = L_CHUNKSUCCESS ∨ ln.curlog = L_DONE ∨ ln.curlog = L_PARTIAL ∨
      ln.curlog = L_FAIL)
    (hm : find_match st.diskq f.host f.disk = true) :
    add_record E label ln f st =
      { st with output_find := change_status ln.curlog f.rest st.part_find ++ st.output_find,
                part_find := [] } := by
  have hns : ln.curlog ≠ L_SUCCESS := by
    rcases hkind with h | h | h | h <;> simp [h]
  unfold add_record
  simp only [hm, hprog, hns, hkind, if_true, if_false]
  cases change_status ln.curlog f.rest st.part_find <;> simp

theorem add_record_part (E : externals) (label : String) (ln : logline)
    (f : record_fields) (st : scan_state) (hprog : ln.curprog = P_TAPER)
    (hkind : ln.curlog = L_PART ∨ ln.curlog = L_CHUNK)
    (hm : find_match st.diskq f.host f.disk = true) :
    add_record E label ln f st =
      { st with part_find := new_output_find label f st.filenum "OK" :: st.part_find } := by
  unfold add_record
  rcases hkind with h | h <;> simp [hm, hprog, h]

theorem add_record_success (E : externals) (label : String) (ln : logline)
    (f : record_fields) (st : scan_state) (hprog : ln.curprog = P_TAPER)
    (hkind : ln.curlog = L_SUCCESS)
    (hm : find_match st.diskq f.host f.disk = true) :
    add_record E label ln f st =
      { st with output_find := new_output_find label f st.filenum "OK" :: st.output_find } := by
  unfold add_record
  simp [hm, hprog, hkind]

theorem scan_line_terminator (E : externals) (dyn : Bool) (label datestamp : String)
    (st : scan_state) (ln : logline) (fo : Option Int) (f : record_fields)
    (hprog : ln.curprog = P_TAPER)
    (hkind : ln.curlog = L_CHUNKSUCCESS ∨ ln.curlog = L_DONE ∨ ln.curlog = L_PARTIAL ∨
      ln.curlog = L_FAIL)
    (hparse : parse_record E ln.curlog label datestamp ln.curstr = (fo, some f))
    (hm : find_match st.diskq f.host f.disk = true) :
    scan_line E dyn label datestamp st ln =
      { st with output_find := change_status ln.curlog f.rest st.part_find ++ st.output_find,
                part_find := [],
                filenum := fo.getD (count_filenum st ln) } := by
  have hk : is_record_kind ln.curlog = true := by
    rcases hkind with h | h | h | h <;> simp [is_record_kind, h]
  rw [scan_line_of_fields E dyn label datestamp st ln fo f hk hparse,
    resolve_disk_of_find_match E dyn label ln f
      { st with filenum := fo.getD (count_filenum st ln) } hm,
    add_record_terminator E label ln f
      { st with filenum := fo.getD (count_filenum st ln) } hprog hkind hm]

theorem scan_line_part (E : externals) (dyn : Bool) (label datestamp : String)
    (st : scan_state) (ln : logline) (fo : Option Int) (f : record_fields)
    (hprog : ln.curprog = P_TAPER)
    (hkind : ln.curlog = L_PART ∨ ln.curlog = L_CHUNK)
    (hparse : parse_record E ln.curlog label datestamp ln.curstr = (fo, some f))
    (hm : find_match st.diskq f.host f.disk = true) :
    scan_line E dyn label datestamp st ln =
      { st with part_find :=
                  new_output_find label f (fo.getD (count_filenum st ln)) "OK" :: st.part_find,
                filenum := fo.getD (count_filenum st ln) } := by
  have hk : is_record_kind ln.curlog = true := by
    rcases hkind with h | h <;> simp [is_record_kind, h]
  rw [scan_line_of_fields E dyn label datestamp st ln fo f hk hparse,
    resolve_disk_of_find_match E dyn label ln f
      { st with filenum := fo.getD (count_filenum st ln) } hm,
    add_record_part E label ln f
      { st with filenum := fo.getD (count_filenum st ln) } hprog hkind hm]

theorem scan_line_success (E : externals) (dyn : Bool) (label datestamp : String)
    (st : scan_state) (ln : logline) (fo : Option Int) (f : record_fields)
    (hprog : ln.curprog = P_TAPER) (hkind : ln.curlog = L_SUCCESS)
    (hparse : parse_record E ln.curlog label datestamp ln.curstr = (fo, some f))
    (hm : find_match st.diskq f.host f.disk = true) :
    scan_line E dyn label datestamp st ln =
      { st with output_find :=
                  new_output_find label f (fo.getD (count_filenum st ln)) "OK" :: st.output_find,
                filenum := fo.getD (count_filenum st ln) } := by
  have hk : is_record_kind ln.curlog = true := by simp [is_record_kind, hkind]
  rw [scan_line_of_fields E dyn label datestamp st ln fo f hk hparse,
    resolve_disk_of_find_match E dyn label ln f
      { st with filenum := fo.getD (count_filenum st ln) } hm,
    add_record_success E label ln f
      { st with filenum := fo.getD (count_filenum st ln) } hprog hkind hm]

theorem tape_loop_cons_of_names (label datestamp : String) (start : logline)
    (lines : List logline) (h : names_tape label datestamp start) :
    tape_loop label datestamp (start :: lines) = some lines := by
  simp [tape_loop, (is_tape_start_iff label datestamp start).mpr h]

/-! ## Part reconstruction -/

theorem terminator_overwrites_of_fields (E : externals) (dyn : Bool)
    (label datestamp : String) (st : scan_state) (ln : logline) (fo : Option Int)
    (f : record_fields)
    (hprog : ln.curprog = P_TAPER)
    (hkind : ln.curlog = L_FAIL ∨ ln.curlog = L_PARTIAL)
    (hparse : parse_record E ln.curlog label datestamp ln.curstr = (fo, some f))
    (hdisk : find_match st.diskq f.host f.disk = true) :
    (scan_line E dyn label datestamp st ln).part_find = [] ∧
    (ln.curlog = L_FAIL →
      (scan_line E dyn label datestamp st ln).output_find =
          st.part_find.map (fun a => { a with status := f.rest }) ++ st.output_find ∧
      (f.rest ≠ "OK" →
        ∀ r ∈ (scan_line E dyn label datestamp st ln).output_find.take st.part_find.length,
          r.status ≠ "OK")) ∧
    (ln.curlog = L_PARTIAL →
      (scan_line E dyn label datestamp st ln).output_find =
        st.part_find.map (fun a => { a with status := "PARTIAL" }) ++ st.output_find) := by
  have hk : is_record_kind ln.curlog = true := by
    rcases hkind with h | h <;> simp [is_record_kind, h]
  have hkind2 : ln.curlog = L_CHUNKSUCCESS ∨ ln.curlog = L_DONE ∨ ln.curlog = L_PARTIAL ∨
      ln.curlog = L_FAIL := by
    rcases hkind with h | h <;> simp [h]
  rw [scan_line_of_fields E dyn label datestamp st ln fo f hk hparse,
    resolve_disk_of_find_match E dyn label ln f
      { st with filenum := fo.getD (count_filenum st ln) } hdisk,
    add_record_terminator E label ln f
      { st with filenum := fo.getD (count_filenum st ln) } hprog hkind2 hdisk]
  refine ⟨rfl, ?_, ?_⟩
  · intro h
    have hout : change_status ln.curlog f.rest st.part_find =
        st.part_find.map (fun a => { a with status := f.rest }) := by
      simp [change_status, h]
    refine ⟨by simp [hout], ?_⟩
    intro hne r hr
    have hlen : st.part_find.length =
        (st.part_find.map (fun a : find_result_t => { a with status := f.rest })).length := by
      simp
    simp only [hout] at hr
    rw [hlen, List.take_left] at hr
    obtain ⟨a, _, rfl⟩ := List.mem_map.mp hr
    exact hne
  · intro h
    simp [change_status, h]

/-- C1 (as amended): when a well-formed taper FAIL line `host qdisk date level
rest` for a scheduled inventory disk is processed, the pending parts are
spliced onto the catalog head, each with its status replaced by the rest of
the line after the level, so a part is left with status OK only when that
reason text is itself OK; on a taper PARTIAL line each part gets status
PARTIAL; in both cases the pending list is empty afterwards. -/
theorem terminator_overwrites_pending_status (E : externals) (dyn : Bool)
    (label datestamp : String) (st : scan_state) (ln : logline)
    (host qdisk date level rest : List Char)
    (hprog : ln.curprog = P_TAPER)
    (hkind : ln.curlog = L_FAIL ∨ ln.curlog = L_PARTIAL)
    (hline : ln.curstr =
      String.mk (host ++ ' ' :: (qdisk ++ ' ' :: (date ++ ' ' :: (level ++ ' ' :: rest)))))
    (hhost : host ≠ [] ∧ ∀ c ∈ host, isspace c = false)
    (hqdisk : qdisk ≠ [] ∧ quoted_word false qdisk = true)
    (hdate : 3 ≤ date.length ∧ ∀ c ∈ date, isspace c = false)
    (hlevel : level ≠ [] ∧ ∀ c ∈ level, isdigit c = true)
    (hrest : starts_word rest ∧ ∀ c ∈ rest, c ≠ '\n')
    (hdisk : find_match st.diskq (String.mk host) (E.unquote_string (String.mk qdisk)) = true) :
    (scan_line E dyn label datestamp st ln).part_find = [] ∧
    (ln.curlog = L_FAIL →
      (scan_line E dyn label datestamp st ln).output_find =
          st.part_find.map (fun a => { a with status := String.mk rest }) ++ st.output_find ∧
      (String.mk rest ≠ "OK" →
        ∀ r ∈ (scan_line E dyn label datestamp st ln).output_find.take st.part_find.length,
          r.status ≠ "OK")) ∧
    (ln.curlog = L_PARTIAL →
      (scan_line E dyn label datestamp st ln).output_find =
        st.part_find.map (fun a => { a with status := "PARTIAL" }) ++ st.output_find) := by
  have hk : ¬ (ln.curlog = L_CHUNK ∨ ln.curlog = L_PART ∨ ln.curlog = L_PARTPARTIAL ∨
      ln.curlog = L_DONE) := by
    rcases hkind with h | h <;> simp [h]
  have hparse := parse_record_plain E ln.curlog label datestamp host qdisk date level rest hk
    hhost hqdisk hdate hlevel hrest
  rw [← hline] at hparse
  exact terminator_overwrites_of_fields E dyn label datestamp st ln none _ hprog hkind hparse
    hdisk

/-- Witness for C1: the two pending parts of the sample dump, closed by a taper
FAIL line with reason `[tape error]`, both reach the catalog with that text as
status and the pending list is empty. -/
theorem terminator_overwrites_pending_status_witness :
    (scan_line plain_externals false "TAPE01" "20230101" two_parts_pending
        (fail_disk1 "[tape error]")).part_find = [] ∧
    (scan_line plain_externals false "TAPE01" "20230101" two_parts_pending
        (fail_disk1 "[tape error]")).output_find =
      [{ pending_part2 with status := "[tape error]" },
       { pending_part1 with status := "[tape error]" }] :=
  have h := terminator_overwrites_pending_status plain_externals false "TAPE01" "20230101"
    two_parts_pending (fail_disk1 "[tape error]")
    "host1".data "/disk1".data "20230101".data "0".data "[tape error]".data
    (by decide) (by decide) (by decide) (by decide) (by decide) (by decide) (by decide)
    (by decide) (by decide)
  ⟨h.1, (h.2.1 (by decide)).1⟩

/-- Counterexample to C1 as stated: for the log START, PART, PART, FAIL whose FAIL
line is well formed, names the scheduled disk and carries the reason text `OK`,
both parts reach the catalog with status `OK`. -/
theorem fail_reason_ok_leaves_status_ok :
    parse_record plain_externals L_FAIL "TAPE01" "20230101" (fail_disk1 "OK").curstr =
      (none, some ⟨"host1", "/disk1", "20230101", "--", 0, "OK"⟩) ∧
    search_logfile plain_externals false sample_inventory (some []) "TAPE01" "20230101"
        [start_tape01, part1_disk1, part2_disk1, fail_disk1 "OK"] =
      ⟨1, some [pending_part2, pending_part1], sample_inventory⟩ ∧
    pending_part1.status = "OK" ∧ pending_part2.status = "OK" := by
  decide

theorem part_part_done_of_fields (E : externals) (dyn : Bool)
    (diskq : disklist_t) (catalog : List find_result_t) (label datestamp : String)
    (start p1 p2 d : logline) (n1 n2 : Int) (fo : Option Int) (f1 f2 fd : record_fields)
    (hstart : names_tape label datestamp start)
    (hp1 : p1.curlog = L_PART ∧ p1.curprog = P_TAPER)
    (hp2 : p2.curlog = L_PART ∧ p2.curprog = P_TAPER)
    (hd : d.curlog = L_DONE ∧ d.curprog = P_TAPER)
    (h1 : parse_record E L_PART label datestamp p1.curstr = (some n1, some f1))
    (h2 : parse_record E L_PART label datestamp p2.curstr = (some n2, some f2))
    (h3 : parse_record E L_DONE label datestamp d.curstr = (fo, some fd))
    (hm1 : find_match diskq f1.host f1.disk = true)
    (hm2 : find_match diskq f2.host f2.disk = true)
    (hm3 : find_match diskq fd.host fd.disk = true) :
    search_logfile E dyn diskq (some catalog) label datestamp [start, p1, p2, d] =
      ⟨1, some (
        { timestamp := f2.date, hostname := f2.host, diskname := f2.disk, level := f2.level,
          label := label, filenum := n2, status := "OK", partnum := f2.partnum } ::
        { timestamp := f1.date, hostname := f1.host, diskname := f1.disk, level := f1.level,
          label := label, filenum := n1, status := "OK", partnum := f1.partnum } ::
        catalog), diskq⟩ := by
  obtain ⟨hk1, hg1⟩ := hp1
  obtain ⟨hk2, hg2⟩ := hp2
  obtain ⟨hk3, hg3⟩ := hd
  rw [← hk1] at h1
  rw [← hk2] at h2
  rw [← hk3] at h3
  simp only [search_logfile, tape_loop_cons_of_names label datestamp start _ hstart, scan_loop,
    if_true]
  rw [scan_line_part E dyn label datestamp _ p1 (some n1) f1 hg1 (Or.inl hk1) h1 hm1]
  simp only [if_true]
  rw [scan_line_part E dyn label datestamp _ p2 (some n2) f2 hg2 (Or.inl hk2) h2 hm2]
  simp only [if_true]
  rw [scan_line_terminator E dyn label datestamp _ d fo fd hg3 (Or.inr (Or.inl hk3)) h3 hm3]
  simp [change_status, hk3, new_output_find]

/-- C2: a log made of the matching START taper line followed by two well-formed
taper PART lines that carry the expected label and a well-formed taper DONE
line, all for scheduled inventory disks, adds exactly two records to the
catalog (the later part first), both with status OK, each carrying the host,
disk, timestamp, level, part number and tape file number written on its own
PART line and the expected tape label.  The tape file numbers and the levels
of the PART lines are decimal numbers that fit an `int`. -/
theorem part_part_done_adds_two_ok_records (E : externals) (dyn : Bool)
    (diskq : disklist_t) (catalog : List find_result_t) (label datestamp : String)
    (start : logline) (number1 number2 : List Char) (t1 t2 td : dump_tokens)
    (hstart : names_tape label datestamp start)
    (hlabel : label.data ≠ [] ∧ ∀ c ∈ label.data, isspace c = false)
    (hn1 : number1 ≠ [] ∧ (∀ c ∈ number1, isdigit c = true) ∧
      read_digits 0 number1 < 2147483648)
    (hn2 : number2 ≠ [] ∧ (∀ c ∈ number2, isdigit c = true) ∧
      read_digits 0 number2 < 2147483648)
    (hw1 : t1.well_formed) (hw2 : t2.well_formed) (hwd : td.well_formed)
    (hl1 : read_digits 0 t1.level < 2147483648) (hl2 : read_digits 0 t2.level < 2147483648)
    (hm1 : find_match diskq (String.mk t1.host) (E.unquote_string (String.mk t1.qdisk)) = true)
    (hm2 : find_match diskq (String.mk t2.host) (E.unquote_string (String.mk t2.qdisk)) = true)
    (hmd : find_match diskq (String.mk td.host) (E.unquote_string (String.mk td.qdisk)) = true) :
    search_logfile E dyn diskq (some catalog) label datestamp
        [start, part_line label number1 t1, part_line label number2 t2, done_line td] =
      ⟨1, some (part_record E label number2 t2 :: part_record E label number1 t1 :: catalog),
        diskq⟩ := by
  have a1 := atoi_digits_small number1 hn1.1 hn1.2.1 hn1.2.2
  have a2 := atoi_digits_small number2 hn2.1 hn2.2.1 hn2.2.2
  have l1 : strtol_int (read_digits 0 t1.level) = (read_digits 0 t1.level : Int) :=
    strtol_int_small _ (by omega) (by omega)
  have l2 : strtol_int (read_digits 0 t2.level) = (read_digits 0 t2.level : Int) :=
    strtol_int_small _ (by omega) (by omega)
  have h := part_part_done_of_fields E dyn diskq catalog label datestamp start
    (part_line label number1 t1) (part_line label number2 t2) (done_line td)
    (atoi number1) (atoi number2) none _ _ _ hstart ⟨rfl, rfl⟩ ⟨rfl, rfl⟩ ⟨rfl, rfl⟩
    (parse_record_part E label datestamp number1 t1 hlabel
      ⟨hn1.1, fun c hc => (isdigit_not_space c (hn1.2.1 c hc)).1⟩ hw1)
    (parse_record_part E label datestamp number2 t2 hlabel
      ⟨hn2.1, fun c hc => (isdigit_not_space c (hn2.2.1 c hc)).1⟩ hw2)
    (parse_record_done E label datestamp td hwd) hm1 hm2 hmd
  simp only [a1, a2, l1, l2] at h
  exact h

/-- Witness for C2: the sample log START, PART (file 1, part 1/2), PART (file 2,
part 2/2), DONE yields the two part records with status OK. -/
theorem part_part_done_adds_two_ok_records_witness :
    search_logfile plain_externals false sample_inventory (some []) "TAPE01" "20230101"
        [start_tape01, part1_disk1, part2_disk1, done_disk1] =
      ⟨1, some [
        { timestamp := "20230101", hostname := "host1", diskname := "/disk1", level := 0,
          label := "TAPE01", filenum := 2, status := "OK", partnum := "2/2" },
        { timestamp := "20230101", hostname := "host1", diskname := "/disk1", level := 0,
          label := "TAPE01", filenum := 1, status := "OK", partnum := "1/2" }],
        sample_inventory⟩ :=
  part_part_done_adds_two_ok_records plain_externals false sample_inventory [] "TAPE01"
    "20230101" start_tape01 "1".data "2".data
    ⟨"host1".data, "/disk1".data, "20230101".data, "1/2".data, "0".data,
      "[sec 1.0 kb 10 kps 10.0]".data⟩
    ⟨"host1".data, "/disk1".data, "20230101".data, "2/2".data, "0".data,
      "[sec 1.0 kb 10 kps 10.0]".data⟩
    ⟨"host1".data, "/disk1".data, "20230101".data, "2".data, "0".data,
      "[sec 2.0 kb 20 kps 10.0]".data⟩
    (by decide) (by decide) (by decide) (by decide) (by decide) (by decide) (by decide)
    (by decide) (by decide) (by decide) (by decide) (by decide)

/-! ## Return value and tape identity -/

/-- C4 (evaluation at the failing input): on the log START, SUCCESS, SUCCESS for
the scheduled disk, `search_logfile` in collect mode adds two records to the
catalog and returns 1, not 2. -/
theorem search_logfile_returns_one_for_two_records :
    (search_logfile plain_externals false sample_inventory (some []) "TAPE01" "20230101"
        [start_tape01, success_disk1, success_disk1]).ret = 1 ∧
    (search_logfile plain_externals false sample_inventory (some []) "TAPE01" "20230101"
        [start_tape01, success_disk1, success_disk1]).output_find.map List.length = some 2 := by
  decide

/-- C5: `search_logfile` reports a tape match (returns 1, in probe mode and in
collect mode) exactly when the file holds a START line from taper that parses
as `datestamp <D> label <L>` with D the expected datestamp and L the expected
label; without such a line probe mode returns 0 and collect mode returns 0
with the catalog and the inventory unchanged; with one, probe mode returns 1
and produces no catalog. -/
theorem search_logfile_tape_match_iff (E : externals) (dyn : Bool) (diskq : disklist_t)
    (catalog : List find_result_t) (label datestamp : String) (logfile : List logline) :
    ((∃ ln ∈ logfile, names_tape label datestamp ln) ↔
      (search_logfile E dyn diskq none label datestamp logfile).ret = 1) ∧
    ((∃ ln ∈ logfile, names_tape label datestamp ln) ↔
      (search_logfile E dyn diskq (some catalog) label datestamp logfile).ret = 1) ∧
    ((¬ ∃ ln ∈ logfile, names_tape label datestamp ln) →
      search_logfile E dyn diskq none label datestamp logfile = ⟨0, none, diskq⟩ ∧
      search_logfile E dyn diskq (some catalog) label datestamp logfile =
        ⟨0, some catalog, diskq⟩) ∧
    ((∃ ln ∈ logfile, names_tape label datestamp ln) →
      search_logfile E dyn diskq none label datestamp logfile = ⟨1, none, diskq⟩) := by
  rw [← tape_loop_isSome_iff]
  cases h : tape_loop label datestamp logfile with
  | none => simp [search_logfile, h]
  | some lines => simp [search_logfile, h]

/-! ## Label changes inside a log -/

/-- C6 (as amended): once the tape identity is confirmed, a START taper line
that names another label ends the scan of the file: no line after it is
processed (also not after a later START taper line that names the original
label again), so the catalog, the pending parts, the file counter and the
inventory stay as they were before that line. -/
theorem start_of_other_label_ends_scan (E : externals) (dyn : Bool)
    (label datestamp : String) (st : scan_state) (ln : logline) (lines : List logline)
    (d l : String)
    (hpass : st.passlabel = true)
    (hkind : ln.curlog = L_START) (hprog : ln.curprog = P_TAPER)
    (hparse : parse_taper_datestamp_log ln.curstr = some (d, l))
    (hne : l ≠ label) :
    scan_loop E dyn label datestamp st (ln :: lines) = { st with passlabel := false } := by
  have hstep : scan_line E dyn label datestamp st ln = { st with passlabel := false } := by
    simp [scan_line, is_record_kind, count_filenum, check_label, hkind, hprog, hparse, hne,
      hpass]
  simp only [scan_loop, hpass, if_true, hstep]
  cases lines with
  | nil => simp [scan_loop]
  | cons t ts => simp [scan_loop]

/-- Witness for C6 as amended: after the START line of TAPE02 the recurrence of
TAPE01 and the SUCCESS line behind it are not processed. -/
theorem start_of_other_label_ends_scan_witness :
    scan_loop plain_externals false "TAPE01" "20230101" ⟨[], [], 0, true, sample_inventory⟩
        (start_tape02 :: [start_tape01, success_disk1]) =
      ⟨[], [], 0, false, sample_inventory⟩ :=
  start_of_other_label_ends_scan plain_externals false "TAPE01" "20230101"
    ⟨[], [], 0, true, sample_inventory⟩ start_tape02 [start_tape01, success_disk1]
    "20230101" "TAPE02" (by decide) (by decide) (by decide) (by decide) (by decide)

/-- Counterexample to C6 as stated: in the log START TAPE01, START TAPE02,
START TAPE01, SUCCESS the SUCCESS line for the scheduled disk follows the
recurrence of the original label and is not added to the catalog, although the
same line directly after the first START line is added. -/
theorem success_after_label_recurrence_not_added :
    search_logfile plain_externals false sample_inventory (some []) "TAPE01" "20230101"
        [start_tape01, start_tape02, start_tape01, success_disk1] =
      ⟨1, some [], sample_inventory⟩ ∧
    search_logfile plain_externals false sample_inventory (some []) "TAPE01" "20230101"
        [start_tape01, success_disk1] =
      ⟨1, some [{ timestamp := "20230101", hostname := "host1", diskname := "/disk1",
                  level := 0, label := "TAPE01", filenum := 1, status := "OK",
                  partnum := "--" }], sample_inventory⟩ := by
  decide

/-! ## Disk resolution -/

/-- C7: for a record line whose fields parse, when its (host, disk) is not in the
inventory and dynamic-disklist mode is off, or when the disk is in the
inventory but not marked scheduled, the catalog, the pending parts list and
the inventory are left unchanged: no record is added anywhere. -/
theorem unresolved_or_unscheduled_disk_adds_nothing (E : externals) (dyn : Bool)
    (label datestamp : String) (st : scan_state) (ln : logline) (fo : Option Int)
    (f : record_fields)
    (hk : is_record_kind ln.curlog = true)
    (hparse : parse_record E ln.curlog label datestamp ln.curstr = (fo, some f))
    (hdisk : (lookup_disk st.diskq f.host f.disk = none ∧ dyn = false) ∨
      (∃ dp, lookup_disk st.diskq f.host f.disk = some dp ∧ dp.todo = false)) :
    (scan_line E dyn label datestamp st ln).output_find = st.output_find ∧
    (scan_line E dyn label datestamp st ln).part_find = st.part_find ∧
    (scan_line E dyn label datestamp st ln).diskq = st.diskq := by
  rw [scan_line_of_fields E dyn label datestamp st ln fo f hk hparse]
  rcases hdisk with ⟨hnone, hdyn⟩ | ⟨dp, hsome, htodo⟩
  · simp [resolve_disk, hnone, hdyn]
  · simp [resolve_disk, add_record, find_match, hsome, htodo]

/-- Witness for C7: a taper SUCCESS line for a disk that is not in the sample
inventory (dynamic mode off), and one for the unscheduled disk of host2, leave
a state with one catalog record and one pending part as it was. -/
theorem unresolved_or_unscheduled_disk_adds_nothing_witness :
    ((scan_line plain_externals false "TAPE01" "20230101"
        ⟨[pending_part1], [pending_part2], 2, true, sample_inventory⟩
        ⟨L_SUCCESS, P_TAPER, "host3 /disk3 20230101 0 [sec 1.0]"⟩).output_find = [pending_part1] ∧
     (scan_line plain_externals false "TAPE01" "20230101"
        ⟨[pending_part1], [pending_part2], 2, true, sample_inventory⟩
        ⟨L_SUCCESS, P_TAPER, "host3 /disk3 20230101 0 [sec 1.0]"⟩).part_find = [pending_part2] ∧
     (scan_line plain_externals false "TAPE01" "20230101"
        ⟨[pending_part1], [pending_part2], 2, true, sample_inventory⟩
        ⟨L_SUCCESS, P_TAPER, "host3 /disk3 20230101 0 [sec 1.0]"⟩).diskq = sample_inventory) ∧
    ((scan_line plain_externals true "TAPE01" "20230101"
        ⟨[pending_part1], [pending_part2], 2, true, sample_inventory⟩
        ⟨L_CHUNK, P_TAPER, "host2 /disk2 20230101 1 0 [sec 1.0]"⟩).output_find = [pending_part1] ∧
     (scan_line plain_externals true "TAPE01" "20230101"
        ⟨[pending_part1], [pending_part2], 2, true, sample_inventory⟩
        ⟨L_CHUNK, P_TAPER, "host2 /disk2 20230101 1 0 [sec 1.0]"⟩).part_find = [pending_part2] ∧
     (scan_line plain_externals true "TAPE01" "20230101"
        ⟨[pending_part1], [pending_part2], 2, true, sample_inventory⟩
        ⟨L_CHUNK, P_TAPER, "host2 /disk2 20230101 1 0 [sec 1.0]"⟩).diskq = sample_inventory) :=
  ⟨unresolved_or_unscheduled_disk_adds_nothing plain_externals false "TAPE01" "20230101"
      ⟨[pending_part1], [pending_part2], 2, true, sample_inventory⟩
      ⟨L_SUCCESS, P_TAPER, "host3 /disk3 20230101 0 [sec 1.0]"⟩ none
      ⟨"host3", "/disk3", "20230101", "--", 0, "[sec 1.0]"⟩
      (by decide) (by decide) (Or.inl (by decide)),
   unresolved_or_unscheduled_disk_adds_nothing plain_externals true "TAPE01" "20230101"
      ⟨[pending_part1], [pending_part2], 2, true, sample_inventory⟩
      ⟨L_CHUNK, P_TAPER, "host2 /disk2 20230101 1 0 [sec 1.0]"⟩ none
      ⟨"host2", "/disk2", "20230101", "1", 0, "[sec 1.0]"⟩
      (by decide) (by decide) (Or.inr ⟨⟨"host2", "/disk2", false⟩, by decide⟩)⟩

/-! ## Parts left pending at the end of the log -/

theorem add_record_without_parts (E : externals) (label : String) (ln : logline)
    (f : record_fields) (st : scan_state) (hterm : is_terminator ln = false) :
    without_parts (add_record E label ln f st) =
      without_parts (add_record E label ln f (without_parts st)) := by
  unfold add_record
  by_cases hm : find_match st.diskq f.host f.disk = true
  · by_cases hp : ln.curprog = P_TAPER
    · have hk : ¬ (ln.curlog = L_CHUNKSUCCESS ∨ ln.curlog = L_DONE ∨ ln.curlog = L_PARTIAL ∨
          ln.curlog = L_FAIL) := by
        intro h
        rcases h with h | h | h | h <;> simp [is_terminator, hp, h] at hterm
      have hpp : ln.curlog ≠ L_PARTPARTIAL := by
        intro h; simp [is_terminator, hp, h] at hterm
      by_cases hs : ln.curlog = L_SUCCESS
      · simp [without_parts, hm, hp, hs]
      · simp [without_parts, hm, hp, hs, hk, hpp]
    · by_cases hf : ln.curlog = L_FAIL
      · simp [without_parts, hm, hp, hf]
      · simp [without_parts, hm, hp, hf]
  · simp [without_parts, hm]

theorem resolve_disk_without_parts (E : externals) (dyn : Bool) (label : String)
    (ln : logline) (f : record_fields) (st : scan_state) (hterm : is_terminator ln = false) :
    without_parts (resolve_disk E dyn label ln f st) =
      without_parts (resolve_disk E dyn label ln f (without_parts st)) := by
  unfold resolve_disk
  have hq : (without_parts st).diskq = st.diskq := rfl
  rw [hq]
  cases lookup_disk st.diskq f.host f.disk with
  | none =>
    cases dyn with
    | false => rfl
    | true =>
      simp only [Bool.true_eq_false, if_false]
      rw [add_record_without_parts E label ln f _ hterm]
      rfl
  | some dp =>
    simp only []
    rw [add_record_without_parts E label ln f _ hterm]

theorem scan_line_without_parts (E : externals) (dyn : Bool) (label datestamp : String)
    (st : scan_state) (ln : logline) (hterm : is_terminator ln = false) :
    without_parts (scan_line E dyn label datestamp st ln) =
      without_parts (scan_line E dyn label datestamp (without_parts st) ln) := by
  have hc : count_filenum (without_parts st) ln = count_filenum st ln := rfl
  have hl : check_label label (without_parts st) ln = check_label label st ln := rfl
  unfold scan_line
  simp only [hc, hl]
  by_cases hk : is_record_kind ln.curlog = true
  · simp only [hk, if_true]
    rcases parse_record E ln.curlog label datestamp ln.curstr with ⟨fo, _ | f⟩
    · rfl
    · simp only []
      rw [resolve_disk_without_parts E dyn label ln f _ hterm]
      rfl
  · simp only [hk]
    rfl

theorem scan_loop_without_parts (E : externals) (dyn : Bool) (label datestamp : String)
    (post : List logline) (hpost : ∀ ln ∈ post, is_terminator ln = false) :
    ∀ st : scan_state,
      without_parts (scan_loop E dyn label datestamp st post) =
        without_parts (scan_loop E dyn label datestamp (without_parts st) post) := by
  induction post with
  | nil => intro st; rfl
  | cons ln post ih =>
    intro st
    have hln : is_terminator ln = false := hpost ln (by simp)
    have ih2 := ih (fun l hl => hpost l (by simp [hl]))
    have hp : (without_parts st).passlabel = st.passlabel := rfl
    simp only [scan_loop, hp]
    by_cases hpass : st.passlabel = true
    · simp only [hpass, if_true]
      rw [ih2 (scan_line E dyn label datestamp st ln),
        ih2 (scan_line E dyn label datestamp (without_parts st) ln),
        scan_line_without_parts E dyn label datestamp st ln hln]
    · simp only [hpass]
      rfl

theorem scan_line_part_keeps_catalog (E : externals) (dyn : Bool) (label datestamp : String)
    (st : scan_state) (ln : logline) (hprog : ln.curprog = P_TAPER)
    (hkind : ln.curlog = L_PART ∨ ln.curlog = L_CHUNK) :
    (scan_line E dyn label datestamp st ln).output_find = st.output_find := by
  have hk : is_record_kind ln.curlog = true := by
    rcases hkind with h | h <;> simp [is_record_kind, h]
  unfold scan_line
  simp only [hk, if_true]
  rcases parse_record E ln.curlog label datestamp ln.curstr with ⟨fo, _ | f⟩
  · rfl
  · simp only []
    unfold resolve_disk add_record
    rcases hkind with h | h
    · cases lookup_disk st.diskq f.host f.disk <;> cases dyn <;> simp [hprog, h] <;>
        split <;> rfl
    · cases lookup_disk st.diskq f.host f.disk <;> cases dyn <;> simp [hprog, h] <;>
        split <;> rfl

theorem scan_loop_parts_keep_catalog (E : externals) (dyn : Bool) (label datestamp : String)
    (post : List logline)
    (hpost : ∀ ln ∈ post, ln.curprog = P_TAPER ∧ (ln.curlog = L_PART ∨ ln.curlog = L_CHUNK)) :
    ∀ st : scan_state,
      (scan_loop E dyn label datestamp st post).output_find = st.output_find := by
  induction post with
  | nil => intro st; rfl
  | cons ln post ih =>
    intro st
    have hln := hpost ln (by simp)
    simp only [scan_loop]
    by_cases hpass : st.passlabel = true
    · simp only [hpass, if_true]
      rw [ih (fun l hl => hpost l (by simp [hl])),
        scan_line_part_keeps_catalog E dyn label datestamp st ln hln.1 hln.2]
    · simp only [hpass]
      rfl

theorem add_record_catalog_cases (E : externals) (label : String) (ln : logline)
    (f : record_fields) (st : scan_state) :
    (add_record E label ln f st).output_find = st.output_find ∨
    (ln.curprog = P_TAPER ∧ ln.curlog = L_SUCCESS ∧
      ∃ r, r.status = "OK" ∧ (add_record E label ln f st).output_find = r :: st.output_find) ∨
    (is_terminator ln = true ∧
      ∃ added, (add_record E label ln f st).output_find = added ++ st.output_find) ∨
    (ln.curprog ≠ P_TAPER ∧ ln.curlog = L_FAIL ∧
      ∃ r, (add_record E label ln f st).output_find = r :: st.output_find) := by
  unfold add_record
  by_cases hm : find_match st.diskq f.host f.disk = true
  · by_cases hp : ln.curprog = P_TAPER
    · by_cases hs : ln.curlog = L_SUCCESS
      · right; left
        refine ⟨hp, hs, new_output_find label f st.filenum "OK", rfl, ?_⟩
        simp [hm, hp, hs]
      · by_cases hk : ln.curlog = L_CHUNKSUCCESS ∨ ln.curlog = L_DONE ∨
            ln.curlog = L_PARTIAL ∨ ln.curlog = L_FAIL
        · right; right; left
          refine ⟨?_, change_status ln.curlog f.rest st.part_find, ?_⟩
          · rcases hk with h | h | h | h <;> simp [is_terminator, hp, h]
          · simp only [hm, hp, hs, hk, if_true, if_false]
            cases change_status ln.curlog f.rest st.part_find <;> simp
        · by_cases hpp : ln.curlog = L_PARTPARTIAL
          · right; right; left
            refine ⟨by simp [is_terminator, hp, hpp],
              new_output_find label f st.filenum "PARTIAL" :: st.part_find, ?_⟩
            simp [hm, hp, hpp]
          · left
            simp [hm, hp, hs, hk, hpp]
    · by_cases hf : ln.curlog = L_FAIL
      · right; right; right
        refine ⟨hp, hf,
          { timestamp := f.date, hostname := f.host, diskname := f.disk, level := f.level,
            label := label, partnum := f.partnum, filenum := 0,
            status := "FAILED (" ++ E.program_str ln.curprog ++ ") " ++ f.rest }, ?_⟩
        simp [hm, hp, hf]
      · left
        simp [hm, hp, hf]
  · left
    simp [hm]

theorem scan_line_catalog_cases (E : externals) (dyn : Bool) (label datestamp : String)
    (st : scan_state) (ln : logline) :
    (scan_line E dyn label datestamp st ln).output_find = st.output_find ∨
    (ln.curprog = P_TAPER ∧ ln.curlog = L_SUCCESS ∧
      ∃ r, r.status = "OK" ∧
        (scan_line E dyn label datestamp st ln).output_find = r :: st.output_find) ∨
    (is_terminator ln = true ∧
      ∃ added, (scan_line E dyn label datestamp st ln).output_find = added ++ st.output_find) ∨
    (ln.curprog ≠ P_TAPER ∧ ln.curlog = L_FAIL ∧
      ∃ r, (scan_line E dyn label datestamp st ln).output_find = r :: st.output_find) := by
  unfold scan_line
  by_cases hk : is_record_kind ln.curlog = true
  · simp only [hk, if_true]
    rcases parse_record E ln.curlog label datestamp ln.curstr with ⟨fo, _ | f⟩
    · left; rfl
    · simp only []
      unfold resolve_disk
      cases lookup_disk st.diskq f.host f.disk with
      | none =>
        cases dyn with
        | false => left; rfl
        | true =>
          simp only [Bool.true_eq_false, if_false]
          exact add_record_catalog_cases E label ln f _
      | some dp =>
        simp only []
        exact add_record_catalog_cases E label ln f _
  · left
    simp only [hk]
    rfl

/-- C8: parts that are pending at some point of the log with no taper terminator
line (CHUNKSUCCESS, DONE, PARTIAL, FAIL, PARTPARTIAL) after it have no effect
on the catalog at return: the catalog is the one obtained with the pending
list emptied at that point, and a log that ends in taper PART or CHUNK lines
returns the catalog reached before them.  A line changes the catalog only by
prepending to it: one OK record for a taper SUCCESS line, a list for a taper
terminator line, one record for a FAIL line of another program; a taper PART
or CHUNK line never changes it. -/
theorem unterminated_parts_never_reach_catalog (E : externals) (dyn : Bool)
    (diskq : disklist_t) (catalog : List find_result_t) (label datestamp : String)
    (start : logline) (pre post : List logline)
    (hstart : names_tape label datestamp start)
    (hpost : ∀ ln ∈ post, is_terminator ln = false) :
    (search_logfile E dyn diskq (some catalog) label datestamp
        (start :: (pre ++ post))).output_find =
      some (scan_loop E dyn label datestamp
        (without_parts (scan_loop E dyn label datestamp ⟨catalog, [], 0, true, diskq⟩ pre))
        post).output_find ∧
    ((∀ ln ∈ post, ln.curprog = P_TAPER ∧ (ln.curlog = L_PART ∨ ln.curlog = L_CHUNK)) →
      (search_logfile E dyn diskq (some catalog) label datestamp
          (start :: (pre ++ post))).output_find =
        (search_logfile E dyn diskq (some catalog) label datestamp
          (start :: pre)).output_find) ∧
    (∀ (st : scan_state) (ln : logline), ln.curprog = P_TAPER →
      (ln.curlog = L_PART ∨ ln.curlog = L_CHUNK) →
      (scan_line E dyn label datestamp st ln).output_find = st.output_find) ∧
    (∀ (st : scan_state) (ln : logline),
      (scan_line E dyn label datestamp st ln).output_find = st.output_find ∨
      (ln.curprog = P_TAPER ∧ ln.curlog = L_SUCCESS ∧
        ∃ r, r.status = "OK" ∧
          (scan_line E dyn label datestamp st ln).output_find = r :: st.output_find) ∨
      (is_terminator ln = true ∧
        ∃ added,
          (scan_line E dyn label datestamp st ln).output_find = added ++ st.output_find) ∨
      (ln.curprog ≠ P_TAPER ∧ ln.curlog = L_FAIL ∧
        ∃ r, (scan_line E dyn label datestamp st ln).output_find = r :: st.output_find)) := by
  have hout : ∀ a b : scan_state, without_parts a = without_parts b →
      a.output_find = b.output_find := by
    intro a b h
    have := congrArg scan_state.output_find h
    simpa [without_parts] using this
  refine ⟨?_, ?_, ?_, ?_⟩
  · simp only [search_logfile, tape_loop_cons_of_names label datestamp start _ hstart,
      scan_loop_append, Option.some.injEq]
    exact hout _ _ (scan_loop_without_parts E dyn label datestamp post hpost _)
  · intro hparts
    simp only [search_logfile, tape_loop_cons_of_names label datestamp start _ hstart,
      scan_loop_append, Option.some.injEq]
    exact scan_loop_parts_keep_catalog E dyn label datestamp post hparts _
  · intro st ln hp hk
    exact scan_line_part_keeps_catalog E dyn label datestamp st ln hp hk
  · intro st ln
    exact scan_line_catalog_cases E dyn label datestamp st ln

/-- Witness for C8: in the log START, SUCCESS, PART, PART the two parts are never
terminated; the catalog at return holds the SUCCESS record only. -/
theorem unterminated_parts_never_reach_catalog_witness :
    (search_logfile plain_externals false sample_inventory (some []) "TAPE01" "20230101"
        (start_tape01 :: ([success_disk1] ++ [part1_disk1, part2_disk1]))).output_find =
      some [{ timestamp := "20230101", hostname := "host1", diskname := "/disk1",
              level := 0, label := "TAPE01", filenum := 1, status := "OK",
              partnum := "--" }] :=
  ((unterminated_parts_never_reach_catalog plain_externals false sample_inventory []
      "TAPE01" "20230101" start_tape01 [success_disk1] [part1_disk1, part2_disk1]
      (by decide) (by decide)).2.1 (by decide)).trans (by decide)

/-! ## Dumpspec parsing -/

/-- C9: for an argument sequence of length n whose non-empty tokens all pass
validation, `cmdline_parse_dumpspecs` succeeds with a list of exactly
max(1, ceil(n/3)) dumpspecs, never the empty list; for every i with 3i < n its
element i has host `args[3i]`, disk `args[3i+1]` when 3i+1 < n and datestamp
`args[3i+2]` when 3i+2 < n (a field whose argument is missing is `NULL`). -/
theorem cmdline_parse_dumpspecs_groups_of_three (v : String → Option String)
    (argv : List String) (hv : ∀ a ∈ argv, a ≠ "" → v a = none) :
    ∃ list, cmdline_parse_dumpspecs v argv = some list ∧
      list.length = max 1 ((argv.length + 2) / 3) ∧
      list ≠ [] ∧
      ∀ i, 3 * i < argv.length →
        list[i]? = some ⟨argv[3 * i]?, argv[3 * i + 1]?, argv[3 * i + 2]?⟩ := by
  refine ⟨_, cmdline_parse_dumpspecs_eq v argv hv, ?_, ?_, ?_⟩
  · cases argv with
    | nil => simp
    | cons a argv =>
      simp only [reduceCtorEq, if_false, dumpspec_groups_length, List.length_cons]
      omega
  · cases argv with
    | nil => simp
    | cons a argv =>
      intro h
      have := congrArg List.length h
      simp only [reduceCtorEq, if_false, dumpspec_groups_length, List.length_cons,
        List.length_nil] at this
      omega
  · intro i hi
    have hne : argv ≠ [] := by
      intro h; simp [h] at hi
    simp only [hne, if_false]
    exact dumpspec_groups_getElem? argv i hi

/-- Witness for C9: four arguments give two dumpspecs, the second with host only. -/
theorem cmdline_parse_dumpspecs_groups_of_three_witness :
    ∃ list, cmdline_parse_dumpspecs sample_validate ["h1", "", "2023", "h2"] = some list ∧
      list.length = max 1 ((4 + 2) / 3) ∧
      list ≠ [] ∧
      ∀ i, 3 * i < 4 →
        list[i]? = some ⟨["h1", "", "2023", "h2"][3 * i]?, ["h1", "", "2023", "h2"][3 * i + 1]?,
          ["h1", "", "2023", "h2"][3 * i + 2]?⟩ :=
  cmdline_parse_dumpspecs_groups_of_three sample_validate ["h1", "", "2023", "h2"]
    (by decide)

/-- C10: on an empty argument sequence `cmdline_parse_dumpspecs` returns the
one-element list whose dumpspec has host, disk and datestamp all equal to the
empty string, and `cmdline_dumpspec_list_is_wildcard` holds for it; for a
single valid non-empty token `a` it returns a one-element list (host `a`) for
which `cmdline_dumpspec_list_is_wildcard` is false. -/
theorem cmdline_parse_dumpspecs_wildcard (v : String → Option String) :
    cmdline_parse_dumpspecs v [] = some [⟨some "", some "", some ""⟩] ∧
    cmdline_dumpspec_list_is_wildcard [⟨some "", some "", some ""⟩] = true ∧
    ∀ a : String, a ≠ "" → v a = none →
      cmdline_parse_dumpspecs v [a] = some [⟨some a, none, none⟩] ∧
      cmdline_dumpspec_list_is_wildcard [⟨some a, none, none⟩] = false := by
  refine ⟨rfl, by decide, ?_⟩
  intro a hne hva
  constructor
  · simp [cmdline_parse_dumpspecs, parse_loop, bad_regex, hva, dumpspec_new]
  · simp [cmdline_dumpspec_list_is_wildcard]

/-- Witness for C10: the single token `a`. -/
theorem cmdline_parse_dumpspecs_wildcard_witness :
    cmdline_parse_dumpspecs sample_validate ["a"] = some [⟨some "a", none, none⟩] ∧
    cmdline_dumpspec_list_is_wildcard [⟨some "a", none, none⟩] = false :=
  (cmdline_parse_dumpspecs_wildcard sample_validate).2.2 "a" (by decide) (by decide)

/-! ## Fields and failure of the dumpspec parser -/

theorem parse_loop_eq_none_iff (v : String → Option String) (argv : List String) :
    ∀ (st : arg_state_t) (list : List dumpspec_t),
      parse_loop v st list argv = none ↔ ∃ a ∈ argv, bad_regex v a = true := by
  induction argv with
  | nil => intro st list; cases st <;> simp [parse_loop]
  | cons name argv ih =>
    intro st list
    by_cases hb : bad_regex v name = true
    · cases st <;> simp [parse_loop, hb]
    · cases st <;> simp [parse_loop, hb, ih]

theorem parse_loop_congr (v w : String → Option String)
    (hvw : ∀ a, bad_regex w a = bad_regex v a) (argv : List String) :
    ∀ (st : arg_state_t) (list : List dumpspec_t),
      parse_loop w st list argv = parse_loop v st list argv := by
  induction argv with
  | nil => intro st list; cases st <;> simp [parse_loop]
  | cons name argv ih =>
    intro st list
    cases st <;> simp [parse_loop, hvw, ih]

theorem cmdline_parse_dumpspecs_eq_none_iff (v : String → Option String)
    (argv : List String) :
    cmdline_parse_dumpspecs v argv = none ↔ ∃ a ∈ argv, bad_regex v a = true := by
  rw [← parse_loop_eq_none_iff v argv ARG_GET_HOST []]
  unfold cmdline_parse_dumpspecs
  cases parse_loop v ARG_GET_HOST [] argv with
  | none => simp
  | some l => cases l <;> simp

theorem valid_of_parsed (v : String → Option String) (argv : List String)
    (l : List dumpspec_t) (h : cmdline_parse_dumpspecs v argv = some l) :
    ∀ a ∈ argv, a ≠ "" → v a = none := by
  intro a ha hne
  have hnot : ¬ ∃ a ∈ argv, bad_regex v a = true := by
    rw [← cmdline_parse_dumpspecs_eq_none_iff, h]
    simp
  by_contra hv
  apply hnot
  refine ⟨a, ha, ?_⟩
  cases hva : v a with
  | none => exact absurd hva hv
  | some e => simp [bad_regex, hne, hva]

theorem dumpspec_groups_host (argv : List String) :
    ∀ d ∈ dumpspec_groups argv, d.host ≠ none := by
  induction argv using dumpspec_groups.induct with
  | case1 => simp [dumpspec_groups]
  | case2 h => simp [dumpspec_groups]
  | case3 h d => simp [dumpspec_groups]
  | case4 h d t argv ih =>
    intro x hx
    simp only [dumpspec_groups, List.mem_cons] at hx
    rcases hx with rfl | hx
    · simp
    · exact ih x hx

/-- C11 (as amended): every dumpspec of a list returned by a successful
`cmdline_parse_dumpspecs` has a non-null host; its disk and its datestamp are
the arguments supplied for them and are `NULL` (not the empty string) when no
argument was supplied; only the list returned for an empty argument sequence
is different, its single dumpspec having all three fields equal to the empty
string. -/
theorem parsed_dumpspec_fields (v : String → Option String) (argv : List String)
    (l : List dumpspec_t) (h : cmdline_parse_dumpspecs v argv = some l) :
    (∀ d ∈ l, d.host ≠ none) ∧
    (argv = [] → l = [⟨some "", some "", some ""⟩]) ∧
    (argv ≠ [] → ∀ i d, l[i]? = some d →
      d.host = argv[3 * i]? ∧ d.disk = argv[3 * i + 1]? ∧ d.datestamp = argv[3 * i + 2]?) := by
  have hv := valid_of_parsed v argv l h
  rw [cmdline_parse_dumpspecs_eq v argv hv] at h
  have hl := (Option.some.inj h).symm
  refine ⟨?_, ?_, ?_⟩
  · by_cases hne : argv = []
    · simp only [hne, if_true] at hl
      subst hl
      simp [dumpspec_new]
    · simp only [hne, if_false] at hl
      subst hl
      exact dumpspec_groups_host argv
  · intro hne
    simp only [hne, if_true] at hl
    simpa [dumpspec_new] using hl
  · intro hne i d hd
    simp only [hne, if_false] at hl
    subst hl
    have hi : i < (dumpspec_groups argv).length := by
      by_contra hcon
      rw [List.getElem?_eq_none (by omega)] at hd
      exact absurd hd (by simp)
    rw [dumpspec_groups_length] at hi
    have h3 : 3 * i < argv.length := by omega
    rw [dumpspec_groups_getElem? argv i h3] at hd
    have := Option.some.inj hd
    subst this
    exact ⟨rfl, rfl, rfl⟩

/-- Witness for C11 as amended: two arguments give one dumpspec with host and
disk and a `NULL` datestamp. -/
theorem parsed_dumpspec_fields_witness :
    (∀ d ∈ [(⟨some "h1", some "d1", none⟩ : dumpspec_t)], d.host ≠ none) ∧
    (["h1", "d1"] = [] → [(⟨some "h1", some "d1", none⟩ : dumpspec_t)] =
      [⟨some "", some "", some ""⟩]) ∧
    (["h1", "d1"] ≠ [] → ∀ i d, [(⟨some "h1", some "d1", none⟩ : dumpspec_t)][i]? = some d →
      d.host = ["h1", "d1"][3 * i]? ∧ d.disk = ["h1", "d1"][3 * i + 1]? ∧
      d.datestamp = ["h1", "d1"][3 * i + 2]?) :=
  parsed_dumpspec_fields sample_validate ["h1", "d1"] [⟨some "h1", some "d1", none⟩]
    (by decide)

/-- Counterexample to C11 as stated: the successful parse of the single argument
`a` returns a dumpspec whose disk and datestamp are `NULL`, not the empty
string. -/
theorem single_argument_leaves_null_fields :
    cmdline_parse_dumpspecs sample_validate ["a"] = some [⟨some "a", none, none⟩] ∧
    (⟨some "a", none, none⟩ : dumpspec_t).disk ≠ some "" ∧
    (⟨some "a", none, none⟩ : dumpspec_t).datestamp ≠ some "" := by
  decide

/-- C12: `cmdline_parse_dumpspecs` fails (returns `NULL`) exactly when some
non-empty token is rejected by the validator; what the validator would say of
the empty string has no effect on the result, and a sequence of empty tokens
never fails. -/
theorem cmdline_parse_dumpspecs_fails_iff (v : String → Option String)
    (argv : List String) :
    (cmdline_parse_dumpspecs v argv = none ↔ ∃ a ∈ argv, a ≠ "" ∧ v a ≠ none) ∧
    (∀ w : String → Option String, (∀ a, a ≠ "" → w a = v a) →
      cmdline_parse_dumpspecs w argv = cmdline_parse_dumpspecs v argv) ∧
    ((∀ a ∈ argv, a = "") → cmdline_parse_dumpspecs v argv ≠ none) := by
  have hiff : cmdline_parse_dumpspecs v argv = none ↔ ∃ a ∈ argv, a ≠ "" ∧ v a ≠ none := by
    rw [cmdline_parse_dumpspecs_eq_none_iff]
    constructor
    · rintro ⟨a, ha, hb⟩
      refine ⟨a, ha, ?_⟩
      simpa [bad_regex, Option.isSome_iff_ne_none] using hb
    · rintro ⟨a, ha, hne, hva⟩
      refine ⟨a, ha, ?_⟩
      simp [bad_regex, hne, Option.isSome_iff_ne_none, hva]
  refine ⟨hiff, ?_, ?_⟩
  · intro w hw
    have hb : ∀ a, bad_regex w a = bad_regex v a := by
      intro a
      by_cases hne : a = ""
      · simp [bad_regex, hne]
      · simp [bad_regex, hne, hw a hne]
    unfold cmdline_parse_dumpspecs
    rw [parse_loop_congr v w hb argv]
  · intro hall hnone
    obtain ⟨a, ha, hne, _⟩ := hiff.mp hnone
    exact hne (hall a ha)

/-! ## Quoting and formatting of dumpspecs -/

theorem forces_quotes_eq (c : Char) : forces_quotes c = !plain_char c := by
  unfold forces_quotes plain_char
  cases isalnum c <;> by_cases h1 : c = '.' <;> by_cases h2 : c = '/' <;> simp [h1, h2]

theorem is_escaped_forces_quotes (c : Char) (h : is_escaped c = true) :
    forces_quotes c = true := by
  unfold is_escaped at h
  simp only [Bool.or_eq_true, decide_eq_true_eq] at h
  rcases h with h | h <;> subst h <;> decide

theorem quote_measure_need (str : List Char) :
    (quote_measure str).2 = str.any forces_quotes := by
  induction str with
  | nil => rfl
  | cons p str ih => simp [quote_measure, ih]

theorem quote_copy_eq (str : List Char) : quote_copy str = with_backslashes str := by
  induction str with
  | nil => rfl
  | cons p str ih =>
    by_cases h : is_escaped p = true
    · have h2 : p = '\x27' ∨ p = '\\' := by simpa [is_escaped] using h
      simp only [with_backslashes] at ih ⊢
      simp [quote_copy, h, h2, ih]
    · have h2 : ¬ (p = '\x27' ∨ p = '\\') := by simpa [is_escaped] using h
      simp only [with_backslashes] at ih ⊢
      simp [quote_copy, h, h2, ih]

theorem quote_copy_plain (str : List Char) (h : ∀ c ∈ str, plain_char c = true) :
    quote_copy str = str := by
  induction str with
  | nil => rfl
  | cons p str ih =>
    have hp : is_escaped p = false := by
      by_contra hcon
      have hf := is_escaped_forces_quotes p (by simpa using hcon)
      rw [forces_quotes_eq, h p (by simp)] at hf
      exact absurd hf (by simp)
    simp [quote_copy, hp, ih (fun c hc => h c (by simp [hc]))]

theorem quote_dumpspec_string_plain (s : String) (h : ∀ c ∈ s.data, plain_char c = true) :
    quote_dumpspec_string s = s := by
  have hneed : (quote_measure s.data).2 = false := by
    rw [quote_measure_need]
    simp only [List.any_eq_false]
    intro c hc
    simp [forces_quotes_eq, h c hc]
  unfold quote_dumpspec_string
  simp [hneed, quote_copy_plain s.data h]

theorem quote_dumpspec_string_quoted (s : String) (h : ∃ c ∈ s.data, plain_char c = false) :
    quote_dumpspec_string s =
      String.mk ('\x27' :: (with_backslashes s.data ++ ['\x27'])) := by
  have hneed : (quote_measure s.data).2 = true := by
    rw [quote_measure_need]
    simp only [List.any_eq_true]
    obtain ⟨c, hc, hp⟩ := h
    exact ⟨c, hc, by simp [forces_quotes_eq, hp]⟩
  unfold quote_dumpspec_string
  simp [hneed, quote_copy_eq]

/-- C13: for valid pattern strings h, d, t, `cmdline_format_dumpspec` applied to
the first element of `cmdline_parse_dumpspecs([h, d, t])` is
`quote(h) ++ " " ++ quote(d) ++ " " ++ quote(t)` with quote being
`quote_dumpspec_string`; when the three strings hold only characters of
`[A-Za-z0-9./]` it is exactly `h ++ " " ++ d ++ " " ++ t`. -/
theorem format_of_parsed_triple (v : String → Option String) (h d t : String)
    (hv : ∀ a ∈ [h, d, t], a ≠ "" → v a = none) :
    (cmdline_parse_dumpspecs v [h, d, t]).bind (fun l => cmdline_format_dumpspec l.head?) =
      some (quote_dumpspec_string h ++ " " ++ quote_dumpspec_string d ++ " " ++
        quote_dumpspec_string t) ∧
    ((∀ c ∈ h.data ++ d.data ++ t.data, plain_char c = true) →
      (cmdline_parse_dumpspecs v [h, d, t]).bind (fun l => cmdline_format_dumpspec l.head?) =
        some (h ++ " " ++ d ++ " " ++ t)) := by
  have hp := cmdline_parse_dumpspecs_eq v [h, d, t] hv
  have hfmt : (cmdline_parse_dumpspecs v [h, d, t]).bind
      (fun l => cmdline_format_dumpspec l.head?) =
      some (quote_dumpspec_string h ++ " " ++ quote_dumpspec_string d ++ " " ++
        quote_dumpspec_string t) := by
    rw [hp]
    simp [dumpspec_groups, cmdline_format_dumpspec, cmdline_format_dumpspec_components]
  refine ⟨hfmt, ?_⟩
  intro hplain
  rw [hfmt, quote_dumpspec_string_plain h (fun c hc => hplain c (by simp [hc])),
    quote_dumpspec_string_plain d (fun c hc => hplain c (by simp [hc])),
    quote_dumpspec_string_plain t (fun c hc => hplain c (by simp [hc]))]

/-- Witness for C13: a plain triple comes back as it is, and a host with a
blank comes back in single quotes. -/
theorem format_of_parsed_triple_witness :
    (cmdline_parse_dumpspecs sample_validate ["host1", "/disk1", "2023"]).bind
        (fun l => cmdline_format_dumpspec l.head?) = some "host1 /disk1 2023" ∧
    (cmdline_parse_dumpspecs sample_validate ["my host", "/disk1", "2023"]).bind
        (fun l => cmdline_format_dumpspec l.head?) = some "\x27my host\x27 /disk1 2023" :=
  ⟨(format_of_parsed_triple sample_validate "host1" "/disk1" "2023" (by decide)).2 (by decide),
   (format_of_parsed_triple sample_validate "my host" "/disk1" "2023" (by decide)).1.trans
     (by decide)⟩

/-- C14: `quote_dumpspec_string(s)` is `s` with a backslash before each single
quote and each backslash, wrapped in one pair of single quotes exactly when
`s` holds a character outside `[A-Za-z0-9./]`; a string of plain characters
comes back unchanged.  A host with a blank is single-quoted, `a.b/c` is left
as it is, and a single quote appears as backslash, quote inside the quotes. -/
theorem quote_dumpspec_string_spec :
    (∀ s : String, (∀ c ∈ s.data, plain_char c = true) →
      quote_dumpspec_string s = String.mk (with_backslashes s.data) ∧
      with_backslashes s.data = s.data) ∧
    (∀ s : String, (∃ c ∈ s.data, plain_char c = false) →
      quote_dumpspec_string s =
        String.mk ('\x27' :: (with_backslashes s.data ++ ['\x27']))) ∧
    quote_dumpspec_string "my host" = "\x27my host\x27" ∧
    quote_dumpspec_string "a.b/c" = "a.b/c" ∧
    quote_dumpspec_string "it\x27s" = "\x27it\\\x27s\x27" := by
  refine ⟨?_, ?_, by decide, by decide, by decide⟩
  · intro s hs
    have h1 := quote_dumpspec_string_plain s hs
    have h2 : with_backslashes s.data = s.data := by
      rw [← quote_copy_eq, quote_copy_plain s.data hs]
    exact ⟨by rw [h1, h2], h2⟩
  · intro s hs
    exact quote_dumpspec_string_quoted s hs

/-- C15: `cmdline_format_dumpspec_components` with a `NULL` host returns `NULL`
whatever the disk and the datestamp are; with a host and a `NULL` disk it
returns the quoted host alone whatever the datestamp is; the datestamp is
emitted only when host and disk are both there. -/
theorem format_components_truncation :
    (∀ disk datestamp : Option String,
      cmdline_format_dumpspec_components none disk datestamp = none) ∧
    (∀ (host : String) (datestamp : Option String),
      cmdline_format_dumpspec_components (some host) none datestamp =
        some (quote_dumpspec_string host)) ∧
    (∀ host disk : String,
      cmdline_format_dumpspec_components (some host) (some disk) none =
        some (quote_dumpspec_string host ++ " " ++ quote_dumpspec_string disk)) ∧
    (∀ host disk datestamp : String,
      cmdline_format_dumpspec_components (some host) (some disk) (some datestamp) =
        some (quote_dumpspec_string host ++ " " ++ quote_dumpspec_string disk ++ " " ++
          quote_dumpspec_string datestamp)) := by
  refine ⟨?_, ?_, ?_, ?_⟩ <;> intros <;> rfl

/-! ## Holding files selected by a dumpspec list -/

theorem match_dumpspecs_eq_any (H : holding_externals) (file : dumpfile_t)
    (list : List dumpspec_t) :
    match_dumpspecs H file list = list.any (fun de => dumpspec_accepts H de file) := by
  induction list with
  | nil => rfl
  | cons de li ih =>
    obtain ⟨host, disk, datestamp⟩ := de
    simp only [match_dumpspecs, List.any_cons, ih, dumpspec_accepts]
    cases host with
    | none =>
      cases disk with
      | none =>
        cases datestamp with
        | none => simp [is_set]
        | some t =>
          by_cases ht : t = "" <;>
            cases hm : H.match_datestamp t file.datestamp <;> simp [is_set, ht, hm]
      | some d =>
        cases datestamp with
        | none =>
          by_cases hd : d = "" <;> cases hm : H.match_disk d file.disk <;> simp [is_set, hd, hm]
        | some t =>
          by_cases hd : d = "" <;> by_cases ht : t = "" <;>
            cases hm : H.match_disk d file.disk <;>
            cases hm2 : H.match_datestamp t file.datestamp <;> simp [is_set, hd, ht, hm, hm2]
    | some h =>
      cases disk with
      | none =>
        cases datestamp with
        | none =>
          by_cases hh : h = "" <;> cases hm : H.match_host h file.name <;> simp [is_set, hh, hm]
        | some t =>
          by_cases hh : h = "" <;> by_cases ht : t = "" <;>
            cases hm : H.match_host h file.name <;>
            cases hm2 : H.match_datestamp t file.datestamp <;> simp [is_set, hh, ht, hm, hm2]
      | some d =>
        cases datestamp with
        | none =>
          by_cases hh : h = "" <;> by_cases hd : d = "" <;>
            cases hm : H.match_host h file.name <;>
            cases hm2 : H.match_disk d file.disk <;> simp [is_set, hh, hd, hm, hm2]
        | some t =>
          by_cases hh : h = "" <;> by_cases hd : d = "" <;> by_cases ht : t = "" <;>
            cases hm : H.match_host h file.name <;>
            cases hm2 : H.match_disk d file.disk <;>
            cases hm3 : H.match_datestamp t file.datestamp <;>
            simp [is_set, hh, hd, ht, hm, hm2, hm3]

theorem match_holding_loop_eq (H : holding_externals) (list : List dumpspec_t)
    (files : List String) :
    ∀ acc, match_holding_loop H list files acc =
      acc ++ files.filter (holding_file_selected H list) := by
  induction files with
  | nil => intro acc; simp [match_holding_loop]
  | cons name he ih =>
    intro acc
    cases hg : H.holding_file_get_dumpfile name with
    | none =>
      have hs : holding_file_selected H list name = false := by
        simp [holding_file_selected, hg]
      simp [match_holding_loop, hg, List.filter_cons, hs, ih]
    | some file =>
      by_cases ht : file.type = F_DUMPFILE
      · by_cases hm : match_dumpspecs H file list = true
        · have hs : holding_file_selected H list name = true := by
            rw [match_dumpspecs_eq_any] at hm
            simp [holding_file_selected, hg, ht, hm]
          simp [match_holding_loop, hg, List.filter_cons, hs, ht, hm, ih]
        · have hm1 : match_dumpspecs H file list = false := by simpa using hm
          have hs : holding_file_selected H list name = false := by
            rw [match_dumpspecs_eq_any] at hm1
            simp [holding_file_selected, hg, ht, hm1]
          simp [match_holding_loop, hg, List.filter_cons, hs, ht, hm1, ih]
      · have hs : holding_file_selected H list name = false := by
          simp [holding_file_selected, hg, ht]
        simp [match_holding_loop, hg, List.filter_cons, hs, ht, ih]

theorem cmdline_match_holding_eq_filter (H : holding_externals) (list : List dumpspec_t) :
    cmdline_match_holding H list =
      H.holding_get_files.filter (holding_file_selected H list) := by
  simp [cmdline_match_holding, match_holding_loop_eq]

/-- C16: `cmdline_match_holding` returns, in file encounter order and once per
listed file, exactly the names of the holding files whose header is readable,
whose type is dump file and for which some dumpspec of the list has every
present, non-empty field accepted by its matcher; a dumpspec whose fields are
all absent or empty accepts every file, and an empty dumpspec list gives an
empty result. -/
theorem cmdline_match_holding_selects (H : holding_externals) (list : List dumpspec_t) :
    cmdline_match_holding H list =
      H.holding_get_files.filter (holding_file_selected H list) ∧
    (∀ name, name ∈ cmdline_match_holding H list ↔
      name ∈ H.holding_get_files ∧
      ∃ file, H.holding_file_get_dumpfile name = some file ∧ file.type = F_DUMPFILE ∧
        ∃ de ∈ list, dumpspec_accepts H de file = true) ∧
    (cmdline_match_holding H list).Sublist H.holding_get_files ∧
    (H.holding_get_files.Nodup → (cmdline_match_holding H list).Nodup) ∧
    (∀ (de : dumpspec_t) (file : dumpfile_t),
      (de.host = none ∨ de.host = some "") → (de.disk = none ∨ de.disk = some "") →
      (de.datestamp = none ∨ de.datestamp = some "") → dumpspec_accepts H de file = true) ∧
    cmdline_match_holding H [] = [] := by
  have heq := cmdline_match_holding_eq_filter H list
  refine ⟨heq, ?_, ?_, ?_, ?_, ?_⟩
  · intro name
    rw [heq, List.mem_filter]
    constructor
    · rintro ⟨hmem, hsel⟩
      refine ⟨hmem, ?_⟩
      unfold holding_file_selected at hsel
      cases hg : H.holding_file_get_dumpfile name with
      | none => simp [hg] at hsel
      | some file =>
        simp only [hg, Bool.and_eq_true, decide_eq_true_eq, List.any_eq_true] at hsel
        exact ⟨file, rfl, hsel.1, hsel.2⟩
    · rintro ⟨hmem, file, hg, ht, hde⟩
      refine ⟨hmem, ?_⟩
      unfold holding_file_selected
      simp only [hg, Bool.and_eq_true, decide_eq_true_eq, List.any_eq_true]
      exact ⟨ht, hde⟩
  · rw [heq]
    exact List.filter_sublist _
  · intro hnd
    rw [heq]
    exact hnd.filter _
  · intro de file hh hd ht
    unfold dumpspec_accepts
    rcases hh with hh | hh <;> rcases hd with hd | hd <;> rcases ht with ht | ht <;>
      simp [hh, hd, ht]
  · rw [cmdline_match_holding_eq_filter]
    have : ∀ name, holding_file_selected H [] name = false := by
      intro name
      unfold holding_file_selected
      cases H.holding_file_get_dumpfile name <;> simp
    simp [this]

/-- C17 (counterexample): with the wildcard dumpspec list the sample holding
disk, which lists four files, gives back only its two dump files; the file
whose header is not a dump file and the file without a readable header are
listed and are not returned. -/
theorem wildcard_skips_files_that_are_not_dumps :
    sample_holding.holding_get_files =
      ["/h/host1.disk1.0", "/h/notes", "/h/broken", "/h/host2.disk2.1"] ∧
    cmdline_match_holding sample_holding [⟨some "", some "", some ""⟩] =
      ["/h/host1.disk1.0", "/h/host2.disk2.1"] ∧
    "/h/notes" ∉ cmdline_match_holding sample_holding [⟨some "", some "", some ""⟩] ∧
    "/h/broken" ∉ cmdline_match_holding sample_holding [⟨some "", some "", some ""⟩] := by
  decide

/-- C17 (as amended): for every dumpspec list that contains a dumpspec whose
entries are all blank (absent or empty), `cmdline_match_holding` returns all
holding files that are dump files: every name of the holding file listing
whose header can be read and has the type `F_DUMPFILE` appears in the result,
and the result is the listing restricted to these names. -/
theorem wildcard_returns_every_dump_file (H : holding_externals) (list : List dumpspec_t)
    (de : dumpspec_t) (hde : de ∈ list)
    (hhost : de.host = none ∨ de.host = some "")
    (hdisk : de.disk = none ∨ de.disk = some "")
    (hdate : de.datestamp = none ∨ de.datestamp = some "") :
    (∀ name ∈ H.holding_get_files, ∀ file,
      H.holding_file_get_dumpfile name = some file → file.type = F_DUMPFILE →
      name ∈ cmdline_match_holding H list) ∧
    cmdline_match_holding H list =
      H.holding_get_files.filter (fun name =>
        match H.holding_file_get_dumpfile name with
        | some file => file.type = F_DUMPFILE
        | none => false) := by
  have hacc : ∀ file, dumpspec_accepts H de file = true := by
    intro file
    unfold dumpspec_accepts
    rcases hhost with hh | hh <;> rcases hdisk with hd | hd <;> rcases hdate with ht | ht <;>
      simp [hh, hd, ht]
  have hsel : ∀ name, holding_file_selected H list name =
      (match H.holding_file_get_dumpfile name with
        | some file => decide (file.type = F_DUMPFILE)
        | none => false) := by
    intro name
    unfold holding_file_selected
    cases hg : H.holding_file_get_dumpfile name with
    | none => rfl
    | some file =>
      have hany : list.any (fun d => dumpspec_accepts H d file) = true :=
        List.any_eq_true.mpr ⟨de, hde, hacc file⟩
      simp [hany]
  have heq := cmdline_match_holding_eq_filter H list
  constructor
  · intro name hname file hg ht
    rw [heq, List.mem_filter]
    refine ⟨hname, ?_⟩
    rw [hsel, hg]
    simpa using ht
  · rw [heq]
    congr 1
    funext name
    exact hsel name

/-- Witness for C17 as amended: the wildcard list on the sample holding disk
returns the dump file `/h/host2.disk2.1`. -/
theorem wildcard_returns_every_dump_file_witness :
    "/h/host2.disk2.1" ∈ cmdline_match_holding sample_holding [⟨some "", some "", some ""⟩] :=
  (wildcard_returns_every_dump_file sample_holding [⟨some "", some "", some ""⟩]
    ⟨some "", some "", some ""⟩ (by decide) (by decide) (by decide) (by decide)).1
    "/h/host2.disk2.1" (by decide) ⟨F_DUMPFILE, "20230102", 1, "host2", "/disk2"⟩
    (by decide) (by decide)

/-! ## The comparison function of the sort -/

theorem find_compare_loop_eq (a b : find_result_t) (keys : List Char) :
    find_compare_loop a b 0 keys =
      leftmost_nonzero (keys.map (fun key => compare_key key a b 0)) := by
  induction keys with
  | nil => rfl
  | cons key keys ih =>
    by_cases h : compare_key key a b 0 = 0
    · simp [find_compare_loop, leftmost_nonzero, h, ih]
    · simp [find_compare_loop, leftmost_nonzero, h]

theorem find_compare_single (key : Char) (a b : find_result_t) :
    find_compare (String.mk [key]) a b = compare_key key a b 0 := by
  unfold find_compare
  rw [find_compare_loop_eq]
  by_cases h : compare_key key a b 0 = 0
  · simp [leftmost_nonzero, h]
  · simp [leftmost_nonzero, h]

/-- C19: for every order string and every pair of records, `find_compare` returns
the result of the leftmost key character whose single-key comparison of the
two records is non-zero, and 0 when every key compares equal (a character
that is no key compares equal); for each key the upper-case letter applied to
(a, b) gives what the lower-case letter gives applied to (b, a). -/
theorem find_compare_leftmost_key (order : String) (a b : find_result_t) :
    find_compare order a b =
      leftmost_nonzero (order.data.map (fun key => compare_key key a b 0)) ∧
    compare_key 'H' a b 0 = compare_key 'h' b a 0 ∧
    compare_key 'K' a b 0 = compare_key 'k' b a 0 ∧
    compare_key 'D' a b 0 = compare_key 'd' b a 0 ∧
    compare_key 'L' a b 0 = compare_key 'l' b a 0 ∧
    compare_key 'F' a b 0 = compare_key 'f' b a 0 ∧
    compare_key 'B' a b 0 = compare_key 'b' b a 0 ∧
    compare_key 'P' a b 0 = compare_key 'p' b a 0 :=
  ⟨find_compare_loop_eq a b order.data, rfl, rfl, rfl, rfl, rfl, rfl, rfl⟩

/-! ## The sample `qsort` keeps the promise of the C standard -/

theorem ordered_insert_perm (cmp : find_result_t → find_result_t → Int) (x : find_result_t)
    (l : List find_result_t) : (ordered_insert cmp x l).Perm (x :: l) := by
  induction l with
  | nil => exact List.Perm.refl _
  | cons y ys ih =>
    by_cases h : cmp x y ≤ 0
    · simp [ordered_insert, h]
    · simp only [ordered_insert, h, if_false]
      exact (List.Perm.cons y ih).trans (List.Perm.swap x y ys)

theorem insertion_qsort_perm (cmp : find_result_t → find_result_t → Int)
    (l : List find_result_t) : (insertion_qsort cmp l).Perm l := by
  induction l with
  | nil => exact List.Perm.refl _
  | cons x xs ih =>
    exact (ordered_insert_perm cmp x _).trans (List.Perm.cons x ih)

theorem ordered_insert_pairwise (cmp : find_result_t → find_result_t → Int)
    (x : find_result_t) (l : List find_result_t)
    (htot : ∀ y ∈ l, cmp x y ≤ 0 ∨ cmp y x ≤ 0)
    (htrans : ∀ y ∈ l, ∀ z ∈ l, cmp x y ≤ 0 → cmp y z ≤ 0 → cmp x z ≤ 0)
    (hl : l.Pairwise (fun a b => cmp a b ≤ 0)) :
    (ordered_insert cmp x l).Pairwise (fun a b => cmp a b ≤ 0) := by
  induction l with
  | nil => simp [ordered_insert]
  | cons y ys ih =>
    obtain ⟨hy, hys⟩ := List.pairwise_cons.mp hl
    by_cases h : cmp x y ≤ 0
    · simp only [ordered_insert, h, if_true]
      refine List.pairwise_cons.mpr ⟨?_, hl⟩
      intro z hz
      rcases List.mem_cons.mp hz with rfl | hz
      · exact h
      · exact htrans y (by simp) z (by simp [hz]) h (hy z hz)
    · simp only [ordered_insert, h, if_false]
      refine List.pairwise_cons.mpr ⟨?_, ?_⟩
      · intro z hz
        have hz2 := (ordered_insert_perm cmp x ys).subset hz
        rcases List.mem_cons.mp hz2 with rfl | hz3
        · rcases htot y (by simp) with h1 | h1
          · exact absurd h1 h
          · exact h1
        · exact hy z hz3
      · exact ih (fun z hz => htot z (by simp [hz]))
          (fun u hu z hz => htrans u (by simp [hu]) z (by simp [hz])) hys

theorem insertion_qsort_sorted (cmp : find_result_t → find_result_t → Int)
    (l : List find_result_t) (hc : consistent_on cmp l) :
    (insertion_qsort cmp l).Pairwise (fun a b => cmp a b ≤ 0) := by
  induction l with
  | nil => simp [insertion_qsort]
  | cons x xs ih =>
    have hsub : ∀ y ∈ insertion_qsort cmp xs, y ∈ x :: xs := fun y hy =>
      List.mem_cons_of_mem x ((insertion_qsort_perm cmp xs).subset hy)
    have hxs : consistent_on cmp xs := fun a ha b hb c hc2 =>
      hc a (List.mem_cons_of_mem x ha) b (List.mem_cons_of_mem x hb) c
        (List.mem_cons_of_mem x hc2)
    refine ordered_insert_pairwise cmp x _ ?_ ?_ (ih hxs)
    · intro y hy
      have h1 := (hc y (hsub y hy) x (by simp) x (by simp)).1
      by_cases h : cmp x y ≤ 0
      · exact Or.inl h
      · exact Or.inr (le_of_lt (h1.mpr (not_le.mp h)))
    · intro y hy z hz h1 h2
      exact (hc x (by simp) y (hsub y hy) z (hsub z hz)).2 h1 h2

theorem insertion_qsort_sorts : qsort_sorts insertion_qsort :=
  ⟨fun cmp l _ => insertion_qsort_perm cmp l, insertion_qsort_sorted⟩

/-! ## Sorting by level -/

theorem wrap_int_small (x : Int) (h1 : -2147483648 ≤ x) (h2 : x < 2147483648) :
    wrap_int x = x := by
  unfold wrap_int
  omega

theorem consistent_on_level_desc (l : List find_result_t)
    (hlev : ∀ r ∈ l, 0 ≤ r.level ∧ r.level ≤ 9) :
    consistent_on (find_compare "l") l ∧
    ∀ a ∈ l, ∀ b ∈ l, find_compare "l" a b = b.level - a.level := by
  have hval : ∀ a ∈ l, ∀ b ∈ l, find_compare "l" a b = b.level - a.level := by
    intro a ha b hb
    have h := find_compare_single 'l' a b
    have hk : compare_key 'l' a b 0 = wrap_int (b.level - a.level) := rfl
    have ha2 := hlev a ha
    have hb2 := hlev b hb
    rw [hk, wrap_int_small _ (by omega) (by omega)] at h
    exact h
  refine ⟨?_, hval⟩
  intro a ha b hb c hc
  rw [hval a ha b hb, hval b hb a ha, hval b hb c hc, hval a ha c hc]
  constructor
  · constructor <;> intro h <;> omega
  · intro h1 h2; omega

theorem consistent_on_level_asc (l : List find_result_t)
    (hlev : ∀ r ∈ l, 0 ≤ r.level ∧ r.level ≤ 9) :
    consistent_on (find_compare "L") l ∧
    ∀ a ∈ l, ∀ b ∈ l, find_compare "L" a b = a.level - b.level := by
  have hval : ∀ a ∈ l, ∀ b ∈ l, find_compare "L" a b = a.level - b.level := by
    intro a ha b hb
    have h := find_compare_single 'L' a b
    have hk : compare_key 'L' a b 0 = wrap_int (a.level - b.level) := rfl
    have ha2 := hlev a ha
    have hb2 := hlev b hb
    rw [hk, wrap_int_small _ (by omega) (by omega)] at h
    exact h
  refine ⟨?_, hval⟩
  intro a ha b hb c hc
  rw [hval a ha b hb, hval b hb a ha, hval b hb c hc, hval a ha c hc]
  constructor
  · constructor <;> intro h <;> omega
  · intro h1 h2; omega

/-- C18: for a non-empty catalog whose levels lie between 0 and 9, and a `qsort`
that keeps the promise of the C standard, the catalog after
`sort_find_result` with order string `l` is a rearrangement of the catalog
whose levels are non-increasing along the list, and with order string `L` a
rearrangement whose levels are non-decreasing. -/
theorem sort_find_result_by_level
    (qsort : (find_result_t → find_result_t → Int) → List find_result_t → List find_result_t)
    (hq : qsort_sorts qsort) (catalog : List find_result_t) (hne : catalog ≠ [])
    (hlev : ∀ r ∈ catalog, 0 ≤ r.level ∧ r.level ≤ 9) :
    ((sort_find_result qsort "l" catalog).Perm catalog ∧
      (sort_find_result qsort "l" catalog).Pairwise (fun a b => b.level ≤ a.level)) ∧
    ((sort_find_result qsort "L" catalog).Perm catalog ∧
      (sort_find_result qsort "L" catalog).Pairwise (fun a b => a.level ≤ b.level)) := by
  cases catalog with
  | nil => exact absurd rfl hne
  | cons r rs =>
    simp only [sort_find_result]
    obtain ⟨hc1, hv1⟩ := consistent_on_level_desc (r :: rs) hlev
    obtain ⟨hc2, hv2⟩ := consistent_on_level_asc (r :: rs) hlev
    have hp1 := hq.perm (find_compare "l") (r :: rs) hc1
    have hp2 := hq.perm (find_compare "L") (r :: rs) hc2
    refine ⟨⟨hp1, ?_⟩, ⟨hp2, ?_⟩⟩
    · refine List.Pairwise.imp_of_mem ?_ (hq.sorted (find_compare "l") (r :: rs) hc1)
      intro a b ha hb hab
      rw [hv1 a (hp1.subset ha) b (hp1.subset hb)] at hab
      omega
    · refine List.Pairwise.imp_of_mem ?_ (hq.sorted (find_compare "L") (r :: rs) hc2)
      intro a b ha hb hab
      rw [hv2 a (hp2.subset ha) b (hp2.subset hb)] at hab
      omega

/-- Witness for C18: the levels 1, 5, 0, 5 sorted with the sample `qsort`. -/
theorem sort_find_result_by_level_witness :
    ((sort_find_result insertion_qsort "l"
        [sample_record 1 "--", sample_record 5 "--", sample_record 0 "--",
          sample_record 5 "1"]).Perm
        [sample_record 1 "--", sample_record 5 "--", sample_record 0 "--",
          sample_record 5 "1"] ∧
      (sort_find_result insertion_qsort "l"
        [sample_record 1 "--", sample_record 5 "--", sample_record 0 "--",
          sample_record 5 "1"]).Pairwise (fun a b => b.level ≤ a.level)) ∧
    ((sort_find_result insertion_qsort "L"
        [sample_record 1 "--", sample_record 5 "--", sample_record 0 "--",
          sample_record 5 "1"]).Perm
        [sample_record 1 "--", sample_record 5 "--", sample_record 0 "--",
          sample_record 5 "1"] ∧
      (sort_find_result insertion_qsort "L"
        [sample_record 1 "--", sample_record 5 "--", sample_record 0 "--",
          sample_record 5 "1"]).Pairwise (fun a b => a.level ≤ b.level)) :=
  sort_find_result_by_level insertion_qsort insertion_qsort_sorts
    [sample_record 1 "--", sample_record 5 "--", sample_record 0 "--", sample_record 5 "1"]
    (by decide) (by decide)

/-! ## The order of part numbers -/

theorem isdigit_toNat (c : Char) (h : isdigit c = true) : 48 ≤ c.toNat ∧ c.toNat ≤ 57 := by
  unfold isdigit at h
  simp only [Bool.or_eq_true, decide_eq_true_eq] at h
  rcases h with ((((((((h | h) | h) | h) | h) | h) | h) | h) | h) | h <;> subst h <;> decide

theorem strcmp_sentinel_digits (d : Char) (t : List Char) (hd : isdigit d = true) :
    strcmp "--".data (d :: t) < 0 ∧ 0 < strcmp (d :: t) "--".data := by
  obtain ⟨h1, h2⟩ := isdigit_toNat d hd
  have hne : ('-' : Char) ≠ d := by
    intro h; rw [← h] at h1; revert h1; decide
  have hm : ('-' : Char).toNat = 45 := by decide
  have e1 : strcmp "--".data (d :: t) = (('-' : Char).toNat : Int) - (d.toNat : Int) := by
    show strcmp ('-' :: ['-']) (d :: t) = _
    simp [strcmp, hne]
  have e2 : strcmp (d :: t) "--".data = (d.toNat : Int) - (('-' : Char).toNat : Int) := by
    show strcmp (d :: t) ('-' :: ['-']) = _
    simp [strcmp, Ne.symm hne]
  rw [e1, e2, hm]
  constructor <;> omega

theorem plain_partnum_cases (p : String) (h : plain_partnum p) :
    (p = "--" ∧ partnum_rank p = -1) ∨
    (p ≠ "--" ∧ strcmp p.data "--".data ≠ 0 ∧ (∃ d t, p.data = d :: t ∧ isdigit d = true) ∧
      atoi p.data = partnum_rank p ∧ 0 ≤ partnum_rank p ∧ partnum_rank p < 2147483648) := by
  rcases h with h | ⟨hne, hdig, hlt⟩
  · left
    exact ⟨h, by simp [partnum_rank, h]⟩
  · right
    obtain ⟨d, t, hp⟩ : ∃ d t, p.data = d :: t := by
      cases hpd : p.data with
      | nil => exact absurd hpd hne
      | cons d t => exact ⟨d, t, rfl⟩
    have hd : isdigit d = true := hdig d (by simp [hp])
    have hps : p ≠ "--" := by
      intro h
      have : p.data = "--".data := by rw [h]
      rw [hp] at this
      have h45 : d = '-' := by
        have := List.head_eq_of_cons_eq this
        exact this
      rw [h45] at hd
      revert hd
      decide
    have hrank : partnum_rank p = (read_digits 0 p.data : Int) := by simp [partnum_rank, hps]
    refine ⟨hps, ?_, ⟨d, t, hp, hd⟩, ?_, ?_, ?_⟩
    · rw [hp]
      exact ne_of_gt (strcmp_sentinel_digits d t hd).2
    · rw [hrank, atoi_digits_small p.data hne hdig hlt]
    · rw [hrank]; exact Int.natCast_nonneg _
    · rw [hrank]; exact_mod_cast hlt

theorem compare_partnum_rank (x y : String) (hx : plain_partnum x) (hy : plain_partnum y) :
    (compare_partnum x y < 0 ↔ partnum_rank x < partnum_rank y) ∧
    (0 < compare_partnum x y ↔ partnum_rank y < partnum_rank x) := by
  have h00 : strcmp "--".data "--".data = 0 := by decide
  rcases plain_partnum_cases x hx with ⟨hx1, hx2⟩ | ⟨hx1, hx2, ⟨d, t, hxd, hd⟩, hx4, hx5, hx6⟩
  · rcases plain_partnum_cases y hy with ⟨hy1, hy2⟩ | ⟨hy1, hy2, ⟨e, u, hyd, he⟩, hy4, hy5, hy6⟩
    · subst hx1; subst hy1
      simp [compare_partnum, h00]
    · subst hx1
      have hs := (strcmp_sentinel_digits e u he).1
      rw [← hyd] at hs
      have hs2 : strcmp ['-', '-'] y.data < 0 := hs
      simp only [compare_partnum, h00, ne_eq, not_true_eq_false, false_and, if_false, hx2]
      constructor
      · constructor <;> intro _ <;> omega
      · constructor <;> intro _ <;> omega
  · rcases plain_partnum_cases y hy with ⟨hy1, hy2⟩ | ⟨hy1, hy2, ⟨e, u, hyd, he⟩, hy4, hy5, hy6⟩
    · subst hy1
      have hs := (strcmp_sentinel_digits d t hd).2
      rw [← hxd] at hs
      have hs2 : 0 < strcmp x.data ['-', '-'] := hs
      simp only [compare_partnum, h00, ne_eq, not_true_eq_false, and_false, if_false, hy2]
      constructor
      · constructor <;> intro _ <;> omega
      · constructor <;> intro _ <;> omega
    · have hw : wrap_int (atoi x.data - atoi y.data) = partnum_rank x - partnum_rank y := by
        rw [hx4, hy4]
        exact wrap_int_small _ (by omega) (by omega)
      simp only [compare_partnum, ne_eq, hx2, hy2, not_false_eq_true, and_self, if_true, hw]
      constructor
      · constructor <;> intro _ <;> omega
      · constructor <;> intro _ <;> omega

theorem find_compare_partnum_eq (a b : find_result_t) :
    find_compare "p" a b = compare_partnum a.partnum b.partnum :=
  find_compare_single 'p' a b

/-- C20 (as amended): under the order key `p`, for part numbers that are the
sentinel `"--"` or non-empty strings of decimal digits whose value fits in an
`int` (below 2^31), `find_compare` compares by the integer values when neither
part number is the sentinel and by `strcmp` otherwise; the two orders of a
pair give opposite signs, equality is symmetric, "not greater" is transitive,
and the sentinel sorts before every numeric part number. -/
theorem find_compare_partnum_order (a b c : find_result_t)
    (ha : plain_partnum a.partnum) (hb : plain_partnum b.partnum)
    (hc : plain_partnum c.partnum) :
    (a.partnum ≠ "--" → b.partnum ≠ "--" →
      find_compare "p" a b = atoi a.partnum.data - atoi b.partnum.data) ∧
    ((a.partnum = "--" ∨ b.partnum = "--") →
      find_compare "p" a b = strcmp a.partnum.data b.partnum.data) ∧
    (find_compare "p" a b < 0 ↔ 0 < find_compare "p" b a) ∧
    (find_compare "p" a b = 0 ↔ find_compare "p" b a = 0) ∧
    (find_compare "p" a b ≤ 0 → find_compare "p" b c ≤ 0 → find_compare "p" a c ≤ 0) ∧
    (a.partnum = "--" → b.partnum ≠ "--" → find_compare "p" a b < 0) := by
  have h00 : strcmp "--".data "--".data = 0 := by decide
  have hab := compare_partnum_rank a.partnum b.partnum ha hb
  have hba := compare_partnum_rank b.partnum a.partnum hb ha
  have hbc := compare_partnum_rank b.partnum c.partnum hb hc
  have hac := compare_partnum_rank a.partnum c.partnum ha hc
  simp only [find_compare_partnum_eq]
  refine ⟨?_, ?_, ?_, ?_, ?_, ?_⟩
  · intro hna hnb
    rcases plain_partnum_cases a.partnum ha with ⟨h, _⟩ | ⟨_, ha2, _, ha4, ha5, ha6⟩
    · exact absurd h hna
    · rcases plain_partnum_cases b.partnum hb with ⟨h, _⟩ | ⟨_, hb2, _, hb4, hb5, hb6⟩
      · exact absurd h hnb
      · simp only [compare_partnum, ne_eq, ha2, hb2, not_false_eq_true, and_self, if_true]
        rw [ha4, hb4]
        exact wrap_int_small _ (by omega) (by omega)
  · intro h
    rcases h with h | h
    · simp [compare_partnum, h, h00]
    · simp [compare_partnum, h, h00]
  · rw [hab.1, hba.2]
  · constructor
    · intro h
      have h1 : ¬ compare_partnum a.partnum b.partnum < 0 := by omega
      have h2 : ¬ 0 < compare_partnum a.partnum b.partnum := by omega
      rw [hab.1] at h1
      rw [hab.2] at h2
      have h3 : ¬ compare_partnum b.partnum a.partnum < 0 := by rw [hba.1]; omega
      have h4 : ¬ 0 < compare_partnum b.partnum a.partnum := by rw [hba.2]; omega
      omega
    · intro h
      have h1 : ¬ compare_partnum b.partnum a.partnum < 0 := by omega
      have h2 : ¬ 0 < compare_partnum b.partnum a.partnum := by omega
      rw [hba.1] at h1
      rw [hba.2] at h2
      have h3 : ¬ compare_partnum a.partnum b.partnum < 0 := by rw [hab.1]; omega
      have h4 : ¬ 0 < compare_partnum a.partnum b.partnum := by rw [hab.2]; omega
      omega
  · intro h1 h2
    have h3 : ¬ 0 < compare_partnum a.partnum b.partnum := by omega
    have h4 : ¬ 0 < compare_partnum b.partnum c.partnum := by omega
    rw [hab.2] at h3
    rw [hbc.2] at h4
    have h5 : ¬ 0 < compare_partnum a.partnum c.partnum := by rw [hac.2]; omega
    omega
  · intro hsa hnb
    rw [hab.1]
    rcases plain_partnum_cases a.partnum ha with ⟨_, hr⟩ | ⟨h, _⟩
    · rcases plain_partnum_cases b.partnum hb with ⟨h, _⟩ | ⟨_, _, _, _, hb5, _⟩
      · exact absurd h hnb
      · omega
    · exact absurd hsa h

/-- Witness for C20 as amended: the part numbers `--`, `2` and `10`. -/
theorem find_compare_partnum_order_witness :
    find_compare "p" (sample_record 0 "--") (sample_record 0 "2") < 0 ∧
    find_compare "p" (sample_record 0 "2") (sample_record 0 "10") = -8 ∧
    (find_compare "p" (sample_record 0 "--") (sample_record 0 "2") ≤ 0 →
      find_compare "p" (sample_record 0 "2") (sample_record 0 "10") ≤ 0 →
      find_compare "p" (sample_record 0 "--") (sample_record 0 "10") ≤ 0) :=
  have h := find_compare_partnum_order (sample_record 0 "--") (sample_record 0 "2")
    (sample_record 0 "10") (by decide) (by decide) (by decide)
  ⟨h.2.2.2.2.2 (by decide) (by decide), by decide, h.2.2.2.2.1⟩

/-- Counterexample to C20 as stated: the part numbers `2147483648` and `0` are
non-empty strings of decimal digits, and `find_compare` under the key `p`
gives a negative result for the pair in both orders (the value 2147483648
and the difference of the two values do not fit in an `int`), so the signs
are not opposite. -/
theorem partnum_difference_overflows :
    (∀ c ∈ "2147483648".data, isdigit c = true) ∧
    find_compare "p" (sample_record 0 "2147483648") (sample_record 0 "0") < 0 ∧
    find_compare "p" (sample_record 0 "0") (sample_record 0 "2147483648") < 0 := by
  decide

/-! ## Selecting dumps from the catalog -/

theorem dumps_match_loop_eq (H : holding_externals)
    (hostname diskname datestamp level : Option String) (ok : Bool)
    (catalog : List find_result_t) :
    ∀ matched, dumps_match_loop H hostname diskname datestamp level ok catalog matched =
      (catalog.filter (dump_matches H hostname diskname datestamp level ok)).reverse ++
        matched := by
  induction catalog with
  | nil => intro matched; simp [dumps_match_loop]
  | cons r rs ih =>
    intro matched
    by_cases h : dump_matches H hostname diskname datestamp level ok r = true
    · simp [dumps_match_loop, h, ih]
    · simp [dumps_match_loop, h, ih]

theorem pattern_accepts_iff (matcher : String → String → Bool) (pat : Option String)
    (value : String) :
    pattern_accepts matcher pat value = true ↔
      ∀ p, pat = some p → p ≠ "" → matcher p value = true := by
  cases pat with
  | none => simp [pattern_accepts]
  | some q =>
    by_cases hq : q = ""
    · simp [pattern_accepts, hq]
    · simp [pattern_accepts, hq]

/-- C21: `dumps_match` returns the catalog records for which every present,
non-empty pattern is accepted by its matcher against the record's field (the
level pattern against the level printed with `%d`) and, when `ok` is set,
whose status is `"OK"`: the result is these records in reverse catalog order,
its length is their number, and with absent or empty patterns and `ok` unset
every record is returned.  The catalog is an argument that is only read. -/
theorem dumps_match_selects (H : holding_externals) (catalog : List find_result_t)
    (hostname diskname datestamp level : Option String) (ok : Bool) :
    dumps_match H catalog hostname diskname datestamp level ok =
      (catalog.filter (dump_matches H hostname diskname datestamp level ok)).reverse ∧
    (∀ r, r ∈ dumps_match H catalog hostname diskname datestamp level ok ↔
      r ∈ catalog ∧
      (∀ p, hostname = some p → p ≠ "" → H.match_host p r.hostname = true) ∧
      (∀ p, diskname = some p → p ≠ "" → H.match_disk p r.diskname = true) ∧
      (∀ p, datestamp = some p → p ≠ "" → H.match_datestamp p r.timestamp = true) ∧
      (∀ p, level = some p → p ≠ "" →
        H.match_level p (String.mk (printf_d 0 false r.level)) = true) ∧
      (ok = true → r.status = "OK")) ∧
    (dumps_match H catalog hostname diskname datestamp level ok).length =
      catalog.countP (dump_matches H hostname diskname datestamp level ok) ∧
    ((hostname = none ∨ hostname = some "") → (diskname = none ∨ diskname = some "") →
      (datestamp = none ∨ datestamp = some "") → (level = none ∨ level = some "") →
      ok = false →
      dumps_match H catalog hostname diskname datestamp level ok = catalog.reverse) := by
  have heq : dumps_match H catalog hostname diskname datestamp level ok =
      (catalog.filter (dump_matches H hostname diskname datestamp level ok)).reverse := by
    simp [dumps_match, dumps_match_loop_eq]
  refine ⟨heq, ?_, ?_, ?_⟩
  · intro r
    rw [heq, List.mem_reverse, List.mem_filter]
    simp only [dump_matches, Bool.and_eq_true, pattern_accepts_iff, Bool.or_eq_true,
      Bool.not_eq_true', decide_eq_true_eq]
    constructor
    · rintro ⟨hmem, ⟨⟨⟨⟨h1, h2⟩, h3⟩, h4⟩, h5⟩⟩
      refine ⟨hmem, h1, h2, h3, h4, ?_⟩
      intro hok
      rcases h5 with h5 | h5
      · rw [hok] at h5; exact absurd h5 (by simp)
      · exact h5
    · rintro ⟨hmem, h1, h2, h3, h4, h5⟩
      refine ⟨hmem, ⟨⟨⟨⟨h1, h2⟩, h3⟩, h4⟩, ?_⟩⟩
      cases ok with
      | false => exact Or.inl rfl
      | true => exact Or.inr (h5 rfl)
  · rw [heq, List.length_reverse, List.countP_eq_length_filter]
  · intro hh hd ht hl hok
    rw [heq]
    have hall : ∀ r, dump_matches H hostname diskname datestamp level ok r = true := by
      intro r
      rcases hh with hh | hh <;> rcases hd with hd | hd <;> rcases ht with ht | ht <;>
        rcases hl with hl | hl <;> simp [dump_matches, pattern_accepts, hh, hd, ht, hl, hok]
    rw [List.filter_eq_self.mpr (fun r _ => hall r)]

/-! ## Dumps on the holding disk -/

theorem cut_last_dot_none (name : List Char) (h : cut_last_dot name = none) :
    dot_prefixes name = [] := by
  induction name with
  | nil => rfl
  | cons c s ih =>
    unfold cut_last_dot at h
    cases hs : cut_last_dot s with
    | some t => simp [hs] at h
    | none =>
      simp only [hs] at h
      by_cases hc : c = '.'
      · simp [hc] at h
      · simp [dot_prefixes, hc, ih hs]

theorem cut_last_dot_some (name : List Char) :
    ∀ t, cut_last_dot name = some t →
      dot_prefixes name = dot_prefixes t ++ [t] ∧ t.length < name.length := by
  induction name with
  | nil => intro t h; simp [cut_last_dot] at h
  | cons c s ih =>
    intro t h
    unfold cut_last_dot at h
    cases hs : cut_last_dot s with
    | some u =>
      simp only [hs, Option.some.injEq] at h
      subst h
      obtain ⟨h1, h2⟩ := ih u hs
      refine ⟨?_, by simp only [List.length_cons]; omega⟩
      simp [dot_prefixes, h1]
    | none =>
      simp only [hs] at h
      by_cases hc : c = '.'
      · simp only [hc, if_true, Option.some.injEq] at h
        subst h
        refine ⟨?_, by simp⟩
        simp [dot_prefixes, hc, cut_last_dot_none s hs]
      · simp [hc] at h

theorem host_candidates_cut (name t : List Char) (h : cut_last_dot name = some t) :
    host_candidates name = name :: host_candidates t := by
  unfold host_candidates
  rw [(cut_last_dot_some name t h).1]
  simp

theorem host_candidates_no_dot (name : List Char) (h : cut_last_dot name = none) :
    host_candidates name = [name] := by
  unfold host_candidates
  rw [cut_last_dot_none name h]
  rfl

theorem resolve_loop_eq (diskq : disklist_t) (disk : String) :
    ∀ (fuel : Nat) (name : List Char), name.length < fuel →
      (∃ n dp, first_resolving diskq disk (host_candidates name) = some (n, dp) ∧
        resolve_loop diskq disk fuel name = resolve_outcome.resolved n dp) ∨
      (first_resolving diskq disk (host_candidates name) = none ∧
        ∃ n, resolve_loop diskq disk fuel name = resolve_outcome.unresolved n) := by
  intro fuel
  induction fuel with
  | zero => intro name h; exact absurd h (by omega)
  | succ fuel ih =>
    intro name hlen
    cases hl : lookup_disk diskq (String.mk name) disk with
    | some dp =>
      left
      refine ⟨name, dp, ?_, ?_⟩
      · simp [host_candidates, first_resolving, hl]
      · simp [resolve_loop, hl]
    | none =>
      cases hc : cut_last_dot name with
      | none =>
        right
        refine ⟨?_, name, ?_⟩
        · rw [host_candidates_no_dot name hc]
          simp [first_resolving, hl]
        · simp [resolve_loop, hl, hc]
      | some t =>
        have hlt := (cut_last_dot_some name t hc).2
        have hrec := ih t (by omega)
        rw [host_candidates_cut name t hc]
        simp only [first_resolving, hl, resolve_loop, hc]
        exact hrec

theorem resolve_loop_fuel (diskq : disklist_t) (disk : String) :
    ∀ (fuel1 fuel2 : Nat) (name : List Char), name.length < fuel1 → name.length < fuel2 →
      resolve_loop diskq disk fuel1 name = resolve_loop diskq disk fuel2 name := by
  intro fuel1
  induction fuel1 with
  | zero => intro fuel2 name h; exact absurd h (by omega)
  | succ fuel1 ih =>
    intro fuel2 name h1 h2
    cases fuel2 with
    | zero => exact absurd h2 (by omega)
    | succ fuel2 =>
      unfold resolve_loop
      cases hl : lookup_disk diskq (String.mk name) disk with
      | some dp => rfl
      | none =>
        cases hc : cut_last_dot name with
        | none => rfl
        | some t =>
          have hlt := (cut_last_dot_some name t hc).2
          exact ih fuel2 t (by omega) (by omega)

theorem find_match_of_lookup (diskq : disklist_t) (host disk : String) (dp : disk_t)
    (h : lookup_disk diskq host disk = some dp) : find_match diskq host disk = dp.todo := by
  simp [find_match, h]

theorem first_resolving_lookup (diskq : disklist_t) (disk : String)
    (names : List (List Char)) (n : List Char) (dp : disk_t)
    (h : first_resolving diskq disk names = some (n, dp)) :
    lookup_disk diskq (String.mk n) disk = some dp := by
  induction names with
  | nil => simp [first_resolving] at h
  | cons m ms ih =>
    unfold first_resolving at h
    cases hl : lookup_disk diskq (String.mk m) disk with
    | some d =>
      simp only [hl, Option.some.injEq, Prod.mk.injEq] at h
      obtain ⟨h1, h2⟩ := h
      subst h1; subst h2
      exact hl
    | none =>
      simp only [hl] at h
      exact ih h

theorem dot_prefixes_shorter (name : List Char) :
    (∀ t ∈ dot_prefixes name, t.length < name.length) ∧
    (dot_prefixes name).Pairwise (fun a b => a.length < b.length) := by
  induction name with
  | nil => simp [dot_prefixes]
  | cons c s ih =>
    obtain ⟨h1, h2⟩ := ih
    have hmap : ((dot_prefixes s).map (fun t => c :: t)).Pairwise
        (fun a b => a.length < b.length) := by
      rw [List.pairwise_map]
      exact h2.imp (by intro a b hab; simpa using hab)
    constructor
    · intro t ht
      simp only [dot_prefixes, List.mem_append, List.mem_map] at ht
      rcases ht with ht | ⟨u, hu, rfl⟩
      · by_cases hc : c = '.'
        · simp only [hc, if_true, List.mem_singleton] at ht
          subst ht; simp
        · simp [hc] at ht
      · simp only [List.length_cons]
        have := h1 u hu
        omega
    · unfold dot_prefixes
      by_cases hc : c = '.'
      · simp only [hc, if_true, List.singleton_append]
        refine List.pairwise_cons.mpr ⟨?_, by simpa [hc] using hmap⟩
        intro b hb
        obtain ⟨u, _, rfl⟩ := List.mem_map.mp hb
        simp
      · simpa [hc] using hmap

theorem host_candidates_shorter (name : List Char) :
    (host_candidates name).Pairwise (fun a b => b.length < a.length) := by
  obtain ⟨h1, h2⟩ := dot_prefixes_shorter name
  unfold host_candidates
  refine List.pairwise_cons.mpr ⟨?_, ?_⟩
  · intro b hb
    exact h1 b (List.mem_reverse.mp hb)
  · rw [List.pairwise_reverse]
    exact h2

theorem holding_file_step_unreadable (H : holding_externals) (diskq : disklist_t)
    (output_find : List find_result_t) (holding_file : String)
    (h : H.holding_file_get_dumpfile holding_file = none) :
    holding_file_step H diskq output_find holding_file = output_find := by
  simp [holding_file_step, h]

theorem holding_file_step_level_range (H : holding_externals) (diskq : disklist_t)
    (output_find : List find_result_t) (holding_file : String) (file : dumpfile_t)
    (h : H.holding_file_get_dumpfile holding_file = some file)
    (hl : file.dumplevel < 0 ∨ 9 < file.dumplevel) :
    holding_file_step H diskq output_find holding_file = output_find := by
  have hl2 : file.dumplevel < 0 ∨ file.dumplevel > 9 := hl
  simp [holding_file_step, h, hl2]

theorem holding_file_step_in_range (H : holding_externals) (diskq : disklist_t)
    (output_find : List find_result_t) (holding_file : String) (file : dumpfile_t)
    (h : H.holding_file_get_dumpfile holding_file = some file)
    (hlo : 0 ≤ file.dumplevel) (hhi : file.dumplevel ≤ 9) :
    holding_file_step H diskq output_find holding_file =
      match resolve_loop diskq file.disk (file.name.data.length + 1) file.name.data with
      | resolve_outcome.resolved name _ =>
        if find_match diskq (String.mk name) file.disk then
          { timestamp := file.datestamp, hostname := String.mk name, diskname := file.disk,
            level := file.dumplevel, label := holding_file, partnum := "--", filenum := 0,
            status := "OK" } :: output_find
        else output_find
      | _ => output_find := by
  have hl2 : ¬ (file.dumplevel < 0 ∨ file.dumplevel > 9) := by omega
  simp only [holding_file_step, h, hl2, if_false]

/-- C22 (evaluation): the header of the sample holding file `/h/chunk.1` is
readable, has level 0 and the type `F_CONT_DUMPFILE`, which is not a dump
file; `search_holding_disk` adds a record for it all the same, while the
file `/h/level12`, whose level is outside 0..9, adds none. -/
theorem search_holding_disk_adds_continuation_file :
    sample_holding_chunks.holding_file_get_dumpfile "/h/chunk.1" =
      some ⟨F_CONT_DUMPFILE, "20230101", 0, "host1", "/disk1"⟩ ∧
    F_CONT_DUMPFILE ≠ F_DUMPFILE ∧
    holding_file_step sample_holding_chunks sample_inventory [] "/h/chunk.1" =
      [{ timestamp := "20230101", hostname := "host1", diskname := "/disk1", level := 0,
         label := "/h/chunk.1", partnum := "--", filenum := 0, status := "OK" }] ∧
    holding_file_step sample_holding_chunks sample_inventory [] "/h/level12" = [] ∧
    search_holding_disk sample_holding_chunks sample_inventory [] =
      [{ timestamp := "20230101", hostname := "host1", diskname := "/disk1", level := 0,
         label := "/h/chunk.1", partnum := "--", filenum := 0, status := "OK" },
       { timestamp := "20230103", hostname := "host1", diskname := "/disk1", level := 3,
         label := "/h/long", partnum := "--", filenum := 0, status := "OK" }] := by
  decide

/-- C26: for a holding file with a readable header and a level in 0..9, the
disk resolution loop of `search_holding_disk` ends for every host name (a
fuel above the length of the name is never used up, and more fuel changes
nothing); the names it tries are the header host name followed by the ever
shorter names cut at the last dot, and it stops at the first of them that
`lookup_disk` resolves with the header's disk.  When that disk is scheduled
one record is prepended, with the resolved name as host name, status `OK`,
file number 0, part number `--`, the holding file name as label and the
time stamp, disk name and level of the header; when the disk is not
scheduled, or no name resolves, the catalog is unchanged. -/
theorem holding_file_resolution (H : holding_externals) (diskq : disklist_t)
    (output_find : List find_result_t) (holding_file : String) (file : dumpfile_t)
    (hfile : H.holding_file_get_dumpfile holding_file = some file)
    (hlo : 0 ≤ file.dumplevel) (hhi : file.dumplevel ≤ 9) :
    (∀ fuel, file.name.data.length < fuel →
      resolve_loop diskq file.disk fuel file.name.data ≠ resolve_outcome.out_of_fuel ∧
      resolve_loop diskq file.disk fuel file.name.data =
        resolve_loop diskq file.disk (file.name.data.length + 1) file.name.data) ∧
    ((host_candidates file.name.data).head? = some file.name.data ∧
      (host_candidates file.name.data).Pairwise (fun a b => b.length < a.length) ∧
      (∀ n t, cut_last_dot n = some t → host_candidates n = n :: host_candidates t) ∧
      (∀ n, cut_last_dot n = none → host_candidates n = [n])) ∧
    (∀ n dp, first_resolving diskq file.disk (host_candidates file.name.data) = some (n, dp) →
      lookup_disk diskq (String.mk n) file.disk = some dp ∧
      (dp.todo = true →
        holding_file_step H diskq output_find holding_file =
          { timestamp := file.datestamp, hostname := String.mk n, diskname := file.disk,
            level := file.dumplevel, label := holding_file, partnum := "--", filenum := 0,
            status := "OK" } :: output_find) ∧
      (dp.todo = false →
        holding_file_step H diskq output_find holding_file = output_find)) ∧
    (first_resolving diskq file.disk (host_candidates file.name.data) = none →
      holding_file_step H diskq output_find holding_file = output_find) := by
  have hstep := holding_file_step_in_range H diskq output_find holding_file file hfile hlo hhi
  have hres := resolve_loop_eq diskq file.disk
  refine ⟨?_, ⟨rfl, host_candidates_shorter _, host_candidates_cut, host_candidates_no_dot⟩,
    ?_, ?_⟩
  · intro fuel hfuel
    rcases hres fuel file.name.data hfuel with ⟨n, dp, h1, h2⟩ | ⟨h1, n, h2⟩ <;>
      rcases hres (file.name.data.length + 1) file.name.data (by omega) with
        ⟨m, dq, h3, h4⟩ | ⟨h3, m, h4⟩
    · rw [h1, Option.some.injEq, Prod.mk.injEq] at h3
      obtain ⟨rfl, rfl⟩ := h3
      rw [h2, h4]
      simp
    · rw [h1] at h3; cases h3
    · rw [h1] at h3; cases h3
    · rw [h2]
      refine ⟨by simp, ?_⟩
      rw [← h2]
      exact resolve_loop_fuel diskq file.disk fuel _ _ hfuel (by omega)
  · intro n dp hfirst
    have hlook := first_resolving_lookup diskq file.disk _ n dp hfirst
    rcases hres (file.name.data.length + 1) file.name.data (by omega) with
      ⟨m, dq, h3, h4⟩ | ⟨h3, m, h4⟩
    · rw [hfirst, Option.some.injEq, Prod.mk.injEq] at h3
      obtain ⟨rfl, rfl⟩ := h3
      refine ⟨hlook, ?_, ?_⟩
      · intro htodo
        rw [hstep, h4]
        simp [find_match_of_lookup diskq _ _ _ hlook, htodo]
      · intro htodo
        rw [hstep, h4]
        simp [find_match_of_lookup diskq _ _ _ hlook, htodo]
    · rw [hfirst] at h3; cases h3
  · intro hnone
    rcases hres (file.name.data.length + 1) file.name.data (by omega) with
      ⟨m, dq, h3, h4⟩ | ⟨h3, m, h4⟩
    · rw [hnone] at h3; cases h3
    · rw [hstep, h4]

/-- Witness for C26: the header of the sample holding file `/h/long` names the
host `host1.example.com`; the first name that resolves is `host1`. -/
theorem holding_file_resolution_witness :
    first_resolving sample_inventory "/disk1" (host_candidates "host1.example.com".data) =
      some ("host1".data, ⟨"host1", "/disk1", true⟩) ∧
    holding_file_step sample_holding_chunks sample_inventory [] "/h/long" =
      [{ timestamp := "20230103", hostname := "host1", diskname := "/disk1", level := 3,
         label := "/h/long", partnum := "--", filenum := 0, status := "OK" }] :=
  ⟨by decide,
    ((holding_file_resolution sample_holding_chunks sample_inventory [] "/h/long"
      ⟨F_DUMPFILE, "20230103", 3, "host1.example.com", "/disk1"⟩
      (by decide) (by decide) (by decide)).2.2.1 "host1".data ⟨"host1", "/disk1", true⟩
      (by decide)).2.1 rfl⟩

/-! ## The printed form of a datestamp -/

theorem dec_digits_fuel :
    ∀ (fuel1 fuel2 n : Nat), n < fuel1 → n < fuel2 →
      dec_digits fuel1 n = dec_digits fuel2 n := by
  intro fuel1
  induction fuel1 with
  | zero => intro fuel2 n h; exact absurd h (by omega)
  | succ fuel1 ih =>
    intro fuel2 n h1 h2
    cases fuel2 with
    | zero => exact absurd h2 (by omega)
    | succ fuel2 =>
      unfold dec_digits
      by_cases hn : n < 10
      · simp [hn]
      · simp only [hn, if_false]
        rw [ih fuel2 (n / 10) (by omega) (by omega)]

theorem render_nat_small (n : Nat) (h : n < 10) : render_nat n = [digit_char n] := by
  simp [render_nat, dec_digits, h]

theorem render_nat_step (n : Nat) (h : 10 ≤ n) :
    render_nat n = render_nat (n / 10) ++ [digit_char (n % 10)] := by
  have hn : ¬ n < 10 := by omega
  unfold render_nat
  conv => lhs; unfold dec_digits
  simp only [hn, if_false]
  rw [dec_digits_fuel n (n / 10 + 1) (n / 10) (by omega) (by omega)]

theorem digit_char_value (c : Char) (h : isdigit c = true) :
    digit_char (digit_value c) = c ∧ digit_value c < 10 ∧ (c = '0' ↔ digit_value c = 0) := by
  unfold isdigit at h
  simp only [Bool.or_eq_true, decide_eq_true_eq] at h
  rcases h with ((((((((h | h) | h) | h) | h) | h) | h) | h) | h) | h <;> subst h <;> decide

theorem printf_d_two (a b : Nat) (ha : a < 10) (hb : b < 10) :
    printf_d 2 true ((10 * a + b : Nat) : Int) = [digit_char a, digit_char b] := by
  have hneg : ¬ (((10 * a + b : Nat) : Int) < 0) := by omega
  unfold printf_d
  simp only [Int.natAbs_ofNat, hneg, if_false, if_true, List.length_nil, Nat.zero_add,
    List.nil_append]
  by_cases h0 : a = 0
  · subst h0
    rw [render_nat_small (10 * 0 + b) (by omega)]
    simp only [Nat.mul_zero, Nat.zero_add, List.length_singleton]
    rfl
  · rw [render_nat_step (10 * a + b) (by omega)]
    have e1 : (10 * a + b) / 10 = a := by omega
    have e2 : (10 * a + b) % 10 = b := by omega
    rw [e1, e2, render_nat_small a ha]
    rfl

theorem printf_d_four (a b c d : Nat) (ha : a < 10) (hb : b < 10) (hc : c < 10)
    (hd : d < 10) :
    printf_d 4 false ((1000 * a + 100 * b + 10 * c + d : Nat) : Int) =
      (if a = 0 then ' ' :: (if b = 0 then ' ' :: (if c = 0 then [' ', digit_char d]
          else [digit_char c, digit_char d])
        else [digit_char b, digit_char c, digit_char d])
      else [digit_char a, digit_char b, digit_char c, digit_char d]) := by
  have hneg : ¬ (((1000 * a + 100 * b + 10 * c + d : Nat) : Int) < 0) := by omega
  unfold printf_d
  simp only [Int.natAbs_ofNat, hneg, if_false, List.length_nil, Nat.zero_add,
    List.append_nil, Bool.false_eq_true]
  by_cases h0 : a = 0
  · subst h0
    by_cases h1 : b = 0
    · subst h1
      by_cases h2 : c = 0
      · subst h2
        rw [render_nat_small _ (by omega)]
        simp
      · rw [render_nat_step _ (by omega)]
        have e1 : (1000 * 0 + 100 * 0 + 10 * c + d) / 10 = c := by omega
        have e2 : (1000 * 0 + 100 * 0 + 10 * c + d) % 10 = d := by omega
        rw [e1, e2, render_nat_small c hc]
        simp [h2]
    · rw [render_nat_step _ (by omega)]
      have e1 : (1000 * 0 + 100 * b + 10 * c + d) / 10 = 10 * b + c := by omega
      have e2 : (1000 * 0 + 100 * b + 10 * c + d) % 10 = d := by omega
      rw [e1, e2, render_nat_step _ (by omega)]
      have e3 : (10 * b + c) / 10 = b := by omega
      have e4 : (10 * b + c) % 10 = c := by omega
      rw [e3, e4, render_nat_small b hb]
      simp [h1]
  · rw [render_nat_step _ (by omega)]
    have e1 : (1000 * a + 100 * b + 10 * c + d) / 10 = 100 * a + 10 * b + c := by omega
    have e2 : (1000 * a + 100 * b + 10 * c + d) % 10 = d := by omega
    rw [e1, e2, render_nat_step _ (by omega)]
    have e3 : (100 * a + 10 * b + c) / 10 = 10 * a + b := by omega
    have e4 : (100 * a + 10 * b + c) % 10 = c := by omega
    rw [e3, e4, render_nat_step _ (by omega)]
    have e5 : (10 * a + b) / 10 = a := by omega
    have e6 : (10 * a + b) % 10 = b := by omega
    rw [e5, e6, render_nat_small a ha]
    simp [h0]

theorem int_parts (r : Nat) :
    (r : Int).tdiv 10000 = ((r / 10000 : Nat) : Int) ∧
    ((r : Int).tdiv 100).tmod 100 = ((r / 100 % 100 : Nat) : Int) ∧
    (r : Int).tmod 100 = ((r % 100 : Nat) : Int) := ⟨rfl, rfl, rfl⟩

theorem date_numbers (c1 c2 c3 c4 p1 p2 q1 q2 : Char)
    (h : ∀ c ∈ [c1, c2, c3, c4, p1, p2, q1, q2], isdigit c = true) :
    (atoi [c1, c2, c3, c4, p1, p2, q1, q2]).tdiv 10000 =
      ((1000 * digit_value c1 + 100 * digit_value c2 + 10 * digit_value c3 +
        digit_value c4 : Nat) : Int) ∧
    ((atoi [c1, c2, c3, c4, p1, p2, q1, q2]).tdiv 100).tmod 100 =
      ((10 * digit_value p1 + digit_value p2 : Nat) : Int) ∧
    (atoi [c1, c2, c3, c4, p1, p2, q1, q2]).tmod 100 =
      ((10 * digit_value q1 + digit_value q2 : Nat) : Int) := by
  have k1 := h c1 (by simp)
  have k2 := h c2 (by simp)
  have k3 := h c3 (by simp)
  have k4 := h c4 (by simp)
  have k5 := h p1 (by simp)
  have k6 := h p2 (by simp)
  have k7 := h q1 (by simp)
  have k8 := h q2 (by simp)
  have b1 := (digit_char_value c1 k1).2.1
  have b2 := (digit_char_value c2 k2).2.1
  have b3 := (digit_char_value c3 k3).2.1
  have b4 := (digit_char_value c4 k4).2.1
  have b5 := (digit_char_value p1 k5).2.1
  have b6 := (digit_char_value p2 k6).2.1
  have b7 := (digit_char_value q1 k7).2.1
  have b8 := (digit_char_value q2 k8).2.1
  have hr : read_digits 0 [c1, c2, c3, c4, p1, p2, q1, q2] =
      (((((((0 * 10 + digit_value c1) * 10 + digit_value c2) * 10 + digit_value c3) * 10 +
        digit_value c4) * 10 + digit_value p1) * 10 + digit_value p2) * 10 +
        digit_value q1) * 10 + digit_value q2 := by
    simp [read_digits, k1, k2, k3, k4, k5, k6, k7, k8]
  rw [atoi_digits_small _ (by simp) h (by rw [hr]; omega), hr]
  obtain ⟨e1, e2, e3⟩ := int_parts ((((((((0 * 10 + digit_value c1) * 10 + digit_value c2) * 10 +
    digit_value c3) * 10 + digit_value c4) * 10 + digit_value p1) * 10 + digit_value p2) * 10 +
    digit_value q1) * 10 + digit_value q2)
  rw [e1, e2, e3]
  refine ⟨?_, ?_, ?_⟩ <;> congr 1 <;> omega

theorem time_numbers (p1 p2 q1 q2 r1 r2 : Char)
    (h : ∀ c ∈ [p1, p2, q1, q2, r1, r2], isdigit c = true) :
    (atoi [p1, p2, q1, q2, r1, r2]).tdiv 10000 =
      ((10 * digit_value p1 + digit_value p2 : Nat) : Int) ∧
    ((atoi [p1, p2, q1, q2, r1, r2]).tdiv 100).tmod 100 =
      ((10 * digit_value q1 + digit_value q2 : Nat) : Int) ∧
    (atoi [p1, p2, q1, q2, r1, r2]).tmod 100 =
      ((10 * digit_value r1 + digit_value r2 : Nat) : Int) := by
  have k1 := h p1 (by simp)
  have k2 := h p2 (by simp)
  have k3 := h q1 (by simp)
  have k4 := h q2 (by simp)
  have k5 := h r1 (by simp)
  have k6 := h r2 (by simp)
  have b1 := (digit_char_value p1 k1).2.1
  have b2 := (digit_char_value p2 k2).2.1
  have b3 := (digit_char_value q1 k3).2.1
  have b4 := (digit_char_value q2 k4).2.1
  have b5 := (digit_char_value r1 k5).2.1
  have b6 := (digit_char_value r2 k6).2.1
  have hr : read_digits 0 [p1, p2, q1, q2, r1, r2] =
      (((((0 * 10 + digit_value p1) * 10 + digit_value p2) * 10 + digit_value q1) * 10 +
        digit_value q2) * 10 + digit_value r1) * 10 + digit_value r2 := by
    simp [read_digits, k1, k2, k3, k4, k5, k6]
  rw [atoi_digits_small _ (by simp) h (by rw [hr]; omega), hr]
  obtain ⟨e1, e2, e3⟩ := int_parts ((((((0 * 10 + digit_value p1) * 10 + digit_value p2) * 10 +
    digit_value q1) * 10 + digit_value q2) * 10 + digit_value r1) * 10 + digit_value r2)
  rw [e1, e2, e3]
  refine ⟨?_, ?_, ?_⟩ <;> congr 1 <;> omega

theorem printf_d_two_chars (c1 c2 : Char) (h1 : isdigit c1 = true) (h2 : isdigit c2 = true) :
    printf_d 2 true ((10 * digit_value c1 + digit_value c2 : Nat) : Int) = [c1, c2] := by
  obtain ⟨a1, a2, _⟩ := digit_char_value c1 h1
  obtain ⟨b1, b2, _⟩ := digit_char_value c2 h2
  rw [printf_d_two _ _ a2 b2, a1, b1]

theorem printf_d_four_chars (c1 c2 c3 c4 : Char) (h1 : isdigit c1 = true)
    (h2 : isdigit c2 = true) (h3 : isdigit c3 = true) (h4 : isdigit c4 = true) :
    printf_d 4 false ((1000 * digit_value c1 + 100 * digit_value c2 + 10 * digit_value c3 +
      digit_value c4 : Nat) : Int) = blank_leading_zeros [c1, c2, c3, c4] := by
  obtain ⟨a1, a2, a3⟩ := digit_char_value c1 h1
  obtain ⟨b1, b2, b3⟩ := digit_char_value c2 h2
  obtain ⟨d1, d2, d3⟩ := digit_char_value c3 h3
  obtain ⟨e1, e2, _⟩ := digit_char_value c4 h4
  rw [printf_d_four _ _ _ _ a2 b2 d2 e2, a1, b1, d1, e1]
  simp only [blank_leading_zeros, a3, b3, d3]

theorem blank_leading_zeros_length : ∀ l : List Char, (blank_leading_zeros l).length = l.length
  | [] => rfl
  | [_] => rfl
  | c :: d :: s => by
    unfold blank_leading_zeros
    by_cases h : c = '0'
    · simp [h, blank_leading_zeros_length (d :: s)]
    · simp [h]

/-- C23 (counterexample): the eight digit datestamp `00010101` is printed as
`   1-01-01`, the year padded with blanks, not as `0001-01-01`. -/
theorem find_nicedate_blank_padded_year :
    find_nicedate "00010101" = "   1-01-01" ∧ find_nicedate "00010101" ≠ "0001-01-01" ∧
    find_nicedate "00010101123456" = "   1-01-01 12:34:56" ∧
    find_nicedate "00010101123456" ≠ "0001-01-01 12:34:56" := by
  decide

/-- C23 (amended): for a datestamp of exactly 8 decimal digits YYYYMMDD,
`find_nicedate` returns the 10 character string YYYY-MM-DD in which the
leading zeros of the year, its last digit apart, are replaced by blanks; for
a datestamp of exactly 14 decimal digits YYYYMMDDHHMMSS it returns the 19
character string YYYY-MM-DD HH:MM:SS with the year printed the same way.
When the first digit of the year is not 0 these are literally YYYY-MM-DD
and YYYY-MM-DD HH:MM:SS. -/
theorem find_nicedate_digits (y1 y2 y3 y4 m1 m2 d1 d2 h1 h2 n1 n2 s1 s2 : Char)
    (hdate : ∀ c ∈ [y1, y2, y3, y4, m1, m2, d1, d2], isdigit c = true)
    (htime : ∀ c ∈ [h1, h2, n1, n2, s1, s2], isdigit c = true) :
    (find_nicedate (String.mk [y1, y2, y3, y4, m1, m2, d1, d2]) =
        String.mk (blank_leading_zeros [y1, y2, y3, y4] ++ ['-', m1, m2, '-', d1, d2]) ∧
      (find_nicedate (String.mk [y1, y2, y3, y4, m1, m2, d1, d2])).data.length = 10 ∧
      (y1 ≠ '0' → find_nicedate (String.mk [y1, y2, y3, y4, m1, m2, d1, d2]) =
        String.mk [y1, y2, y3, y4, '-', m1, m2, '-', d1, d2])) ∧
    (find_nicedate (String.mk [y1, y2, y3, y4, m1, m2, d1, d2, h1, h2, n1, n2, s1, s2]) =
        String.mk (blank_leading_zeros [y1, y2, y3, y4] ++
          ['-', m1, m2, '-', d1, d2, ' ', h1, h2, ':', n1, n2, ':', s1, s2]) ∧
      (find_nicedate
        (String.mk [y1, y2, y3, y4, m1, m2, d1, d2, h1, h2, n1, n2, s1, s2])).data.length = 19 ∧
      (y1 ≠ '0' →
        find_nicedate (String.mk [y1, y2, y3, y4, m1, m2, d1, d2, h1, h2, n1, n2, s1, s2]) =
          String.mk [y1, y2, y3, y4, '-', m1, m2, '-', d1, d2, ' ', h1, h2, ':', n1, n2, ':',
            s1, s2])) := by
  obtain ⟨e1, e2, e3⟩ := date_numbers y1 y2 y3 y4 m1 m2 d1 d2 hdate
  obtain ⟨t1, t2, t3⟩ := time_numbers h1 h2 n1 n2 s1 s2 htime
  have py := printf_d_four_chars y1 y2 y3 y4 (hdate y1 (by simp)) (hdate y2 (by simp))
    (hdate y3 (by simp)) (hdate y4 (by simp))
  have pm := printf_d_two_chars m1 m2 (hdate m1 (by simp)) (hdate m2 (by simp))
  have pd := printf_d_two_chars d1 d2 (hdate d1 (by simp)) (hdate d2 (by simp))
  have ph := printf_d_two_chars h1 h2 (htime h1 (by simp)) (htime h2 (by simp))
  have pn := printf_d_two_chars n1 n2 (htime n1 (by simp)) (htime n2 (by simp))
  have ps := printf_d_two_chars s1 s2 (htime s1 (by simp)) (htime s2 (by simp))
  have hlen := blank_leading_zeros_length [y1, y2, y3, y4]
  have hshort : find_nicedate (String.mk [y1, y2, y3, y4, m1, m2, d1, d2]) =
      String.mk (blank_leading_zeros [y1, y2, y3, y4] ++ ['-', m1, m2, '-', d1, d2]) := by
    unfold find_nicedate
    simp only [List.take, List.length_cons, List.length_nil, Nat.reduceAdd, Nat.reduceLeDiff,
      le_refl, if_true, e1, e2, e3, py, pm, pd]
    rw [List.take_of_length_le (by simp [hlen])]
    simp
  have hlong : find_nicedate
      (String.mk [y1, y2, y3, y4, m1, m2, d1, d2, h1, h2, n1, n2, s1, s2]) =
      String.mk (blank_leading_zeros [y1, y2, y3, y4] ++
        ['-', m1, m2, '-', d1, d2, ' ', h1, h2, ':', n1, n2, ':', s1, s2]) := by
    unfold find_nicedate
    simp only [List.take, List.drop, List.length_cons, List.length_nil, Nat.reduceAdd,
      Nat.reduceLeDiff, if_false, e1, e2, e3, t1, t2, t3, py, pm, pd, ph, pn, ps]
    rw [List.take_of_length_le (by simp [hlen])]
    simp
  refine ⟨⟨hshort, ?_, ?_⟩, hlong, ?_, ?_⟩
  · rw [hshort]; simp [hlen]
  · intro hy; rw [hshort]; simp [blank_leading_zeros, hy]
  · rw [hlong]; simp [hlen]
  · intro hy; rw [hlong]; simp [blank_leading_zeros, hy]

/-- Witness for C23: the datestamps `20230105` and `20230105123456`. -/
theorem find_nicedate_digits_witness :
    find_nicedate "20230105" = "2023-01-05" ∧
    find_nicedate "20230105123456" = "2023-01-05 12:34:56" :=
  ⟨(find_nicedate_digits '2' '0' '2' '3' '0' '1' '0' '5' '1' '2' '3' '4' '5' '6'
      (by decide) (by decide)).1.2.2 (by decide),
    (find_nicedate_digits '2' '0' '2' '3' '0' '1' '0' '5' '1' '2' '3' '4' '5' '6'
      (by decide) (by decide)).2.2.2 (by decide)⟩

/-! ## Decoding a quoted dumpspec component -/

theorem drop_backslashes_quote_copy (str : List Char) :
    drop_backslashes (quote_copy str) = str := by
  induction str with
  | nil => rfl
  | cons p str ih =>
    by_cases h : is_escaped p = true
    · simp [quote_copy, h, drop_backslashes, ih]
    · have h2 : ¬ (p = '\x27' ∨ p = '\\') := by simpa [is_escaped] using h
      have h3 : p ≠ '\\' := fun hp => h2 (Or.inr hp)
      simp only [quote_copy, h, if_false]
      conv => lhs; unfold drop_backslashes
      simp [h3, ih]

theorem quote_copy_length (str : List Char) :
    (quote_copy str).length = (quote_measure str).1 ∧
    (quote_measure str).1 = str.length + str.countP is_escaped := by
  induction str with
  | nil => exact ⟨rfl, rfl⟩
  | cons p str ih =>
    obtain ⟨h1, h2⟩ := ih
    by_cases h : is_escaped p = true
    · simp only [quote_copy, h, if_true, List.length_cons, quote_measure, h1, List.countP_cons]
      constructor <;> omega
    · simp only [quote_copy, h, if_false, List.length_cons, quote_measure, h1, List.countP_cons,
        Bool.false_eq_true]
      constructor <;> omega

theorem quote_copy_head (str : List Char) (h : (quote_measure str).2 = false) :
    strip_quotes (quote_copy str) = quote_copy str := by
  cases str with
  | nil => rfl
  | cons p str =>
    have hf : forces_quotes p = false := by
      simp only [quote_measure, Bool.or_eq_false_iff] at h
      exact h.1
    have he : is_escaped p = false := by
      by_contra hcon
      have := is_escaped_forces_quotes p (by simpa using hcon)
      rw [hf] at this
      cases this
    have hq : p ≠ '\x27' := by
      intro hp
      rw [hp] at he
      revert he
      decide
    simp [quote_copy, he, strip_quotes, hq]

theorem unquote_quote_dumpspec_string (s : String) :
    unquote_dumpspec_string (quote_dumpspec_string s) = s := by
  unfold unquote_dumpspec_string
  cases hneed : (quote_measure s.data).2 with
  | false =>
    have e : (quote_dumpspec_string s).data = quote_copy s.data := by
      simp [quote_dumpspec_string, hneed]
    rw [e, quote_copy_head s.data hneed, drop_backslashes_quote_copy]
  | true =>
    have e : (quote_dumpspec_string s).data = '\x27' :: (quote_copy s.data ++ ['\x27']) := by
      simp [quote_dumpspec_string, hneed]
    rw [e]
    simp [strip_quotes, drop_backslashes_quote_copy]

/-- C28: `quote_dumpspec_string` can be decoded and is injective: removing the
surrounding pair of single quotes of its result when the first character is
a single quote, and then dropping each backslash that escapes the character
after it, gives back the argument; and the number of characters written is
the length computed by the first loop, which is the length of the argument,
plus the number of its single quotes and backslashes, plus 2 when it is
quoted, so that with the final NUL the buffer of that length plus one is
filled exactly. -/
theorem quote_dumpspec_string_decodable :
    (∀ s : String, unquote_dumpspec_string (quote_dumpspec_string s) = s) ∧
    (∀ s t : String, quote_dumpspec_string s = quote_dumpspec_string t → s = t) ∧
    (∀ s : String, (quote_dumpspec_string s).data.length = quote_len s.data ∧
      quote_len s.data = s.data.length + s.data.countP (fun c => c = '\x27' || c = '\\') +
        (if s.data.any forces_quotes then 2 else 0) ∧
      (quote_dumpspec_string s).data.length + 1 = quote_len s.data + 1) := by
  refine ⟨unquote_quote_dumpspec_string, ?_, ?_⟩
  · intro s t h
    have := congrArg unquote_dumpspec_string h
    rwa [unquote_quote_dumpspec_string, unquote_quote_dumpspec_string] at this
  · intro s
    obtain ⟨h1, h2⟩ := quote_copy_length s.data
    have hc : s.data.countP is_escaped = s.data.countP (fun c => c = '\x27' || c = '\\') := by
      congr 1
    have hneed := quote_measure_need s.data
    have hq : quote_len s.data =
        (quote_measure s.data).1 + (if (quote_measure s.data).2 then 2 else 0) := by
      cases hn : (quote_measure s.data).2 <;> simp [quote_len, hn]
    have hlen : (quote_dumpspec_string s).data.length = quote_len s.data := by
      rw [hq]
      cases hn : (quote_measure s.data).2 <;> simp [quote_dumpspec_string, hn, h1]
    refine ⟨hlen, ?_, by rw [hlen]⟩
    rw [hq, h2, hc, hneed]

/-! ## What a terminator line adds to the catalog -/

theorem change_status_frame (curlog : logtype_t) (rest : String)
    (part_find : List find_result_t) :
    (change_status curlog rest part_find).length = part_find.length ∧
    (change_status curlog rest part_find).map (fun r => { r with status := "" }) =
      part_find.map (fun r => { r with status := "" }) := by
  unfold change_status
  by_cases h : curlog = L_PARTIAL ∨ curlog = L_FAIL
  · simp only [h, if_true, List.length_map, List.map_map, true_and]
    rfl
  · simp [h]

theorem add_record_other_program (E : externals) (label : String) (ln : logline)
    (f : record_fields) (st : scan_state) (hprog : ln.curprog ≠ P_TAPER)
    (hm : find_match st.diskq f.host f.disk = true) :
    add_record E label ln f st =
      if ln.curlog = L_FAIL then
        { st with output_find :=
            { timestamp := f.date, hostname := f.host, diskname := f.disk, level := f.level,
              label := label, partnum := f.partnum, filenum := 0,
              status := "FAILED (" ++ E.program_str ln.curprog ++ ") " ++ f.rest }
            :: st.output_find }
      else st := by
  unfold add_record
  simp only [hm, hprog, if_true, if_false]

/-- C29 (counterexample): with two parts pending, the well formed taper DONE
line for the disk host2:/disk2, which is in the inventory and not scheduled,
leaves the catalog empty and the two parts pending: the catalog does not grow
by the number of pending parts. -/
theorem terminator_of_unscheduled_disk_splices_nothing :
    two_parts_pending.part_find.length = 2 ∧
    parse_record plain_externals L_DONE "TAPE01" "20230101" done_disk2.curstr =
      (none, some ⟨"host2", "/disk2", "20230101", "2", 0, "[sec 2.0 kb 20 kps 10.0]"⟩) ∧
    find_match sample_inventory "host2" "/disk2" = false ∧
    (scan_line plain_externals false "TAPE01" "20230101" two_parts_pending
      done_disk2).output_find = [] ∧
    (scan_line plain_externals false "TAPE01" "20230101" two_parts_pending
      done_disk2).part_find = [pending_part2, pending_part1] ∧
    search_logfile plain_externals false sample_inventory (some []) "TAPE01" "20230101"
        [start_tape01, part1_disk1, part2_disk1, done_disk2] =
      ⟨1, some [], sample_inventory⟩ := by
  decide

/-- C29 (as amended): in the record handling of `search_logfile`, reached by a
line whose fields parse and whose disk is in the inventory and scheduled, a
taper CHUNKSUCCESS, DONE, PARTIAL or FAIL line adds no record of its own: the catalog becomes the pending parts (with
at most their status changed) followed by the catalog as it was, so it grows
by the number of pending parts and is unchanged when none is pending, and
the pending list is emptied.  A FAIL line of another program adds one record
with file number 0 and the status `FAILED (<program>) <reason>`; any other
line of another program adds nothing. -/
theorem terminator_line_splices_pending_parts (E : externals) (dyn : Bool)
    (label datestamp : String) (st : scan_state) (ln : logline) (fo : Option Int)
    (f : record_fields)
    (hparse : parse_record E ln.curlog label datestamp ln.curstr = (fo, some f))
    (hm : find_match st.diskq f.host f.disk = true) :
    (ln.curprog = P_TAPER →
      (ln.curlog = L_CHUNKSUCCESS ∨ ln.curlog = L_DONE ∨ ln.curlog = L_PARTIAL ∨
        ln.curlog = L_FAIL) →
      (scan_line E dyn label datestamp st ln).output_find =
        change_status ln.curlog f.rest st.part_find ++ st.output_find ∧
      (change_status ln.curlog f.rest st.part_find).map (fun r => { r with status := "" }) =
        st.part_find.map (fun r => { r with status := "" }) ∧
      (scan_line E dyn label datestamp st ln).output_find.length =
        st.output_find.length + st.part_find.length ∧
      (scan_line E dyn label datestamp st ln).output_find.drop st.part_find.length =
        st.output_find ∧
      (scan_line E dyn label datestamp st ln).part_find = [] ∧
      (st.part_find = [] →
        (scan_line E dyn label datestamp st ln).output_find = st.output_find)) ∧
    (ln.curprog ≠ P_TAPER → ln.curlog = L_FAIL →
      (scan_line E dyn label datestamp st ln).output_find =
        { timestamp := f.date, hostname := f.host, diskname := f.disk, level := f.level,
          label := label, partnum := f.partnum, filenum := 0,
          status := "FAILED (" ++ E.program_str ln.curprog ++ ") " ++ f.rest }
          :: st.output_find ∧
      (scan_line E dyn label datestamp st ln).part_find = st.part_find) ∧
    (ln.curprog ≠ P_TAPER → ln.curlog ≠ L_FAIL →
      (scan_line E dyn label datestamp st ln).output_find = st.output_find ∧
      (scan_line E dyn label datestamp st ln).part_find = st.part_find) := by
  refine ⟨?_, ?_, ?_⟩
  · intro hprog hkind
    obtain ⟨hl, hmap⟩ := change_status_frame ln.curlog f.rest st.part_find
    rw [scan_line_terminator E dyn label datestamp st ln fo f hprog hkind hparse hm]
    refine ⟨rfl, hmap, ?_, ?_, rfl, ?_⟩
    · simp only [List.length_append, hl]
      omega
    · rw [← hl]
      simp
    · intro hempty
      simp [hempty, change_status]
  · intro hprog hkind
    have hk : is_record_kind ln.curlog = true := by simp [is_record_kind, hkind]
    rw [scan_line_of_fields E dyn label datestamp st ln fo f hk hparse,
      resolve_disk_of_find_match E dyn label ln f
        { st with filenum := fo.getD (count_filenum st ln) } hm,
      add_record_other_program E label ln f
        { st with filenum := fo.getD (count_filenum st ln) } hprog hm]
    simp [hkind]
  · intro hprog hkind
    by_cases hk : is_record_kind ln.curlog = true
    · rw [scan_line_of_fields E dyn label datestamp st ln fo f hk hparse,
        resolve_disk_of_find_match E dyn label ln f
          { st with filenum := fo.getD (count_filenum st ln) } hm,
        add_record_other_program E label ln f
          { st with filenum := fo.getD (count_filenum st ln) } hprog hm]
      simp [hkind]
    · simp [scan_line, hk]

/-- Witness for C29 as amended: the taper DONE line of the sample dump after its two
parts: the two pending parts reach the catalog and no other record. -/
theorem terminator_line_splices_pending_parts_witness :
    (scan_line plain_externals false "TAPE01" "20230101" two_parts_pending
        done_disk1).output_find = [pending_part2, pending_part1] ∧
    (scan_line plain_externals false "TAPE01" "20230101" two_parts_pending
        done_disk1).part_find = [] :=
  have h := (terminator_line_splices_pending_parts plain_externals false "TAPE01" "20230101"
    two_parts_pending done_disk1 none
    ⟨"host1", "/disk1", "20230101", "2", 0, "[sec 2.0 kb 20 kps 10.0]"⟩
    (by decide) (by decide)).1 (by decide) (by decide)
  ⟨h.1, h.2.2.2.2.1⟩

/-! ## The running tape file counter -/

theorem add_record_filenum (E : externals) (label : String) (ln : logline)
    (f : record_fields) (st : scan_state) :
    (add_record E label ln f st).filenum = st.filenum ∧
    (add_record E label ln f st).passlabel = st.passlabel := by
  unfold add_record
  split_ifs
  all_goals first
    | exact ⟨rfl, rfl⟩
    | (cases change_status ln.curlog f.rest st.part_find <;> exact ⟨rfl, rfl⟩)

theorem resolve_disk_filenum (E : externals) (dyn : Bool) (label : String) (ln : logline)
    (f : record_fields) (st : scan_state) :
    (resolve_disk E dyn label ln f st).filenum = st.filenum ∧
    (resolve_disk E dyn label ln f st).passlabel = st.passlabel := by
  unfold resolve_disk
  cases lookup_disk st.diskq f.host f.disk with
  | none =>
    cases dyn with
    | false => exact ⟨rfl, rfl⟩
    | true => exact add_record_filenum E label ln f _
  | some dp => exact add_record_filenum E label ln f st

theorem scan_line_filenum (E : externals) (dyn : Bool) (label datestamp : String)
    (st : scan_state) (ln : logline) :
    (scan_line E dyn label datestamp st ln).filenum =
      (if is_record_kind ln.curlog then
        (parse_record E ln.curlog label datestamp ln.curstr).1.getD (count_filenum st ln)
       else count_filenum st ln) ∧
    (scan_line E dyn label datestamp st ln).passlabel = check_label label st ln := by
  unfold scan_line
  by_cases hk : is_record_kind ln.curlog = true
  · simp only [hk, if_true]
    rcases parse_record E ln.curlog label datestamp ln.curstr with ⟨fo, _ | f⟩
    · exact ⟨rfl, rfl⟩
    · exact resolve_disk_filenum E dyn label ln f _
  · simp only [hk]
    exact ⟨rfl, rfl⟩

theorem parse_record_fileno (E : externals) (curlog : logtype_t)
    (label datestamp curstr : String) :
    (parse_record E curlog label datestamp curstr).1 =
      if curlog = L_PART ∨ curlog = L_PARTPARTIAL then line_file_number label curstr
      else none := by
  unfold parse_record line_file_number part_header
  by_cases h0 : (skip_whitespace ⟨curstr.data, false⟩).p = []
  · simp [h0]
  · by_cases hk : curlog = L_PART ∨ curlog = L_PARTPARTIAL
    · by_cases hl : String.mk (take_word (skip_whitespace ⟨curstr.data, false⟩)).1 = label
      · by_cases h1 : (skip_whitespace
            (take_word (skip_whitespace ⟨curstr.data, false⟩)).2).p = []
        · simp [h0, hk, hl, h1]
        · by_cases h2 : (skip_whitespace (take_word (skip_whitespace
            (take_word (skip_whitespace ⟨curstr.data, false⟩)).2)).2).p = []
          · simp [h0, hk, hl, h1, h2]
          · simp [h0, hk, hl, h1, h2]
      · simp [h0, hk, hl]
    · simp [h0, hk]

theorem add_record_partial_part (E : externals) (label : String) (ln : logline)
    (f : record_fields) (st : scan_state) (hprog : ln.curprog = P_TAPER)
    (hkind : ln.curlog = L_PARTPARTIAL)
    (hm : find_match st.diskq f.host f.disk = true) :
    add_record E label ln f st =
      { st with output_find :=
                  new_output_find label f st.filenum "PARTIAL" :: st.part_find ++
                    st.output_find,
                part_find := [] } := by
  unfold add_record
  simp [hm, hprog, hkind]

theorem count_filenum_eq (st : scan_state) (ln : logline) (hpass : st.passlabel = true) :
    count_filenum st ln = st.filenum + (if is_counted ln = true then 1 else 0) := by
  unfold count_filenum is_counted
  by_cases hp : ln.curprog = P_TAPER
  · by_cases hk : ln.curlog = L_SUCCESS ∨ ln.curlog = L_CHUNK ∨ ln.curlog = L_PART ∨
        ln.curlog = L_PARTPARTIAL
    · have hk2 : (ln.curlog = L_SUCCESS ∨ ln.curlog = L_CHUNK) ∨ ln.curlog = L_PART ∨
          ln.curlog = L_PARTPARTIAL := by
        rcases hk with h | h | h | h <;> simp [h]
      simp [hp, hk, hpass, or_assoc]
    · simp [hp, hk, hpass, or_assoc]
  · simp [hp]

theorem check_label_of_not_start (label : String) (st : scan_state) (ln : logline)
    (hk : ln.curlog ≠ L_START) : check_label label st ln = st.passlabel := by
  unfold check_label
  simp [hk]

theorem scan_line_filenum_plain (E : externals) (dyn : Bool) (label datestamp : String)
    (st : scan_state) (ln : logline) (hpass : st.passlabel = true)
    (hk : ln.curlog ≠ L_PART ∧ ln.curlog ≠ L_PARTPARTIAL) :
    (scan_line E dyn label datestamp st ln).filenum =
      st.filenum + (if is_counted ln = true then 1 else 0) := by
  have hno : ¬ (ln.curlog = L_PART ∨ ln.curlog = L_PARTPARTIAL) := by
    intro h; rcases h with h | h
    · exact hk.1 h
    · exact hk.2 h
  rw [(scan_line_filenum E dyn label datestamp st ln).1, parse_record_fileno,
    count_filenum_eq st ln hpass]
  simp [hno]

theorem scan_loop_filenum (E : externals) (dyn : Bool) (label datestamp : String)
    (lines : List logline) :
    ∀ st : scan_state, st.passlabel = true →
      (∀ l ∈ lines, l.curlog ≠ L_PART ∧ l.curlog ≠ L_PARTPARTIAL ∧ l.curlog ≠ L_START) →
      (scan_loop E dyn label datestamp st lines).filenum =
        st.filenum + (lines.countP is_counted : Nat) := by
  induction lines with
  | nil => intro st _ _; simp [scan_loop]
  | cons ln lines ih =>
    intro st hpass hlines
    obtain ⟨h1, h2, h3⟩ := hlines ln (by simp)
    have hp : (scan_line E dyn label datestamp st ln).passlabel = true := by
      rw [(scan_line_filenum E dyn label datestamp st ln).2,
        check_label_of_not_start label st ln h3, hpass]
    have hf := scan_line_filenum_plain E dyn label datestamp st ln hpass ⟨h1, h2⟩
    simp only [scan_loop, hpass, if_true]
    rw [ih _ hp (fun l hl => hlines l (by simp [hl])), hf, List.countP_cons]
    by_cases hc : is_counted ln = true
    · simp [hc]; omega
    · simp [hc]

theorem line_file_number_layout (label : String) (number rest : List Char)
    (hlabel : label.data ≠ [] ∧ ∀ c ∈ label.data, isspace c = false)
    (hnumber : number ≠ [] ∧ ∀ c ∈ number, isspace c = false) :
    line_file_number label (String.mk (label.data ++ ' ' :: (number ++ ' ' :: rest))) =
      some (atoi number) := by
  have hsl := starts_word_of_nonspace label.data hlabel.1 hlabel.2
  have hsn := starts_word_of_nonspace number hnumber.1 hnumber.2
  have hne : ∀ (w u : List Char), starts_word w → w ++ u ≠ [] := by
    intro w u hw
    obtain ⟨c, s, rfl, _⟩ := hw
    simp
  have hs0 : starts_word (label.data ++ ' ' :: (number ++ ' ' :: rest)) :=
    starts_word_append label.data _ hsl
  unfold line_file_number
  simp only [skip_whitespace_word _ hs0, hne _ _ hsl, if_false,
    take_word_sep label.data _ hlabel.2, ne_eq, not_true_eq_false,
    skip_whitespace_sep number _ true hsn, hne _ _ hsn, take_word_sep number _ hnumber.2]

/-- C25 (counterexample): the first counted line of the log is a taper PART
line that names the tape file 5; the counter is 5 after it, not 1, and the
record of the part reaches the catalog with file number 5. -/
theorem part_line_sets_counter_to_its_number :
    (scan_line plain_externals false "TAPE01" "20230101"
      ⟨[], [], 0, true, sample_inventory⟩ part_file5_disk1).filenum = 5 ∧
    search_logfile plain_externals false sample_inventory (some []) "TAPE01" "20230101"
        [start_tape01, part_file5_disk1, done_one_part_disk1] =
      ⟨1, some [{ timestamp := "20230101", hostname := "host1", diskname := "/disk1",
                  level := 0, label := "TAPE01", filenum := 5, status := "OK",
                  partnum := "1/1" }], sample_inventory⟩ := by
  decide

/-- C25 (amended): in the scanning loop of `search_logfile`, entered with the
counter at 0, every taper SUCCESS, CHUNK, PART or PARTPARTIAL line read
while the tape identity holds first makes the counter one more than before,
also when the line is then skipped as malformed or unresolvable; after a
SUCCESS or CHUNK line the counter is exactly one more than before, while a
PART or PARTPARTIAL line that starts with the expected label and carries a
second token then sets the counter to the `int` that `atoi` reads from that
token, which is its decimal value when the token is a decimal number that
fits an `int`.  The file number stored in the record of the line is the
counter after these updates, so in a log without PART, PARTPARTIAL and
further START lines the counter after the lines is the number of taper
SUCCESS and CHUNK lines. -/
theorem tape_file_counter (E : externals) (dyn : Bool) (label datestamp : String)
    (st : scan_state) (ln : logline) (hpass : st.passlabel = true)
    (hprog : ln.curprog = P_TAPER)
    (hkind : ln.curlog = L_SUCCESS ∨ ln.curlog = L_CHUNK ∨ ln.curlog = L_PART ∨
      ln.curlog = L_PARTPARTIAL) :
    count_filenum st ln = st.filenum + 1 ∧
    (ln.curlog = L_SUCCESS ∨ ln.curlog = L_CHUNK →
      (scan_line E dyn label datestamp st ln).filenum = st.filenum + 1) ∧
    (ln.curlog = L_PART ∨ ln.curlog = L_PARTPARTIAL →
      (scan_line E dyn label datestamp st ln).filenum =
        (line_file_number label ln.curstr).getD (st.filenum + 1)) ∧
    (∀ number rest : List Char, ln.curlog = L_PART ∨ ln.curlog = L_PARTPARTIAL →
      (label.data ≠ [] ∧ ∀ c ∈ label.data, isspace c = false) →
      (number ≠ [] ∧ ∀ c ∈ number, isdigit c = true) →
      ln.curstr = String.mk (label.data ++ ' ' :: (number ++ ' ' :: rest)) →
      (scan_line E dyn label datestamp st ln).filenum = atoi number ∧
      (read_digits 0 number < 2147483648 →
        (scan_line E dyn label datestamp st ln).filenum = (read_digits 0 number : Int))) ∧
    (∀ fo f, parse_record E ln.curlog label datestamp ln.curstr = (fo, some f) →
      find_match st.diskq f.host f.disk = true →
      (ln.curlog = L_SUCCESS →
        (scan_line E dyn label datestamp st ln).output_find =
          new_output_find label f (scan_line E dyn label datestamp st ln).filenum "OK" ::
            st.output_find) ∧
      (ln.curlog = L_PART ∨ ln.curlog = L_CHUNK →
        (scan_line E dyn label datestamp st ln).part_find =
          new_output_find label f (scan_line E dyn label datestamp st ln).filenum "OK" ::
            st.part_find) ∧
      (ln.curlog = L_PARTPARTIAL →
        (scan_line E dyn label datestamp st ln).output_find =
          new_output_find label f (scan_line E dyn label datestamp st ln).filenum "PARTIAL" ::
            st.part_find ++ st.output_find)) ∧
    (∀ lines : List logline,
      (∀ l ∈ lines, l.curlog ≠ L_PART ∧ l.curlog ≠ L_PARTPARTIAL ∧ l.curlog ≠ L_START) →
      (scan_loop E dyn label datestamp st lines).filenum =
        st.filenum + (lines.countP is_counted : Nat)) ∧
    (∀ (diskq : disklist_t) (catalog : List find_result_t) (logfile lines : List logline),
      tape_loop label datestamp logfile = some lines →
      search_logfile E dyn diskq (some catalog) label datestamp logfile =
        ⟨1, some (scan_loop E dyn label datestamp ⟨catalog, [], 0, true, diskq⟩
            lines).output_find,
          (scan_loop E dyn label datestamp ⟨catalog, [], 0, true, diskq⟩ lines).diskq⟩) := by
  have hcount : count_filenum st ln = st.filenum + 1 := by
    have hc : is_counted ln = true := by
      rcases hkind with h | h | h | h <;> simp [is_counted, h, hprog]
    rw [count_filenum_eq st ln hpass]
    simp [hc]
  have hrec : is_record_kind ln.curlog = true := by
    rcases hkind with h | h | h | h <;> simp [is_record_kind, h]
  have hfile := (scan_line_filenum E dyn label datestamp st ln).1
  rw [parse_record_fileno, hcount] at hfile
  simp only [hrec, if_true] at hfile
  refine ⟨hcount, ?_, ?_, ?_, ?_, ?_, ?_⟩
  · intro hk
    have hno : ¬ (ln.curlog = L_PART ∨ ln.curlog = L_PARTPARTIAL) := by
      rcases hk with h | h <;> simp [h]
    rw [hfile]
    simp [hno]
  · intro hk
    rw [hfile]
    simp [hk]
  · intro number rest hk hlabel hnumber hline
    have hnum : (scan_line E dyn label datestamp st ln).filenum = atoi number := by
      rw [hfile, hline, line_file_number_layout label number rest hlabel
        ⟨hnumber.1, fun c hc => (isdigit_not_space c (hnumber.2 c hc)).1⟩]
      simp [hk]
    refine ⟨hnum, ?_⟩
    intro hr
    rw [hnum, atoi_digits_small number hnumber.1 hnumber.2 hr]
  · intro fo f hparse hm
    have hfo : (scan_line E dyn label datestamp st ln).filenum =
        fo.getD (count_filenum st ln) := by
      have h := (scan_line_filenum E dyn label datestamp st ln).1
      rw [hparse] at h
      simpa [hrec] using h
    refine ⟨?_, ?_, ?_⟩
    · intro hk
      rw [hfo, scan_line_success E dyn label datestamp st ln fo f hprog hk hparse hm]
    · intro hk
      rw [hfo, scan_line_part E dyn label datestamp st ln fo f hprog hk hparse hm]
    · intro hk
      rw [hfo, scan_line_of_fields E dyn label datestamp st ln fo f hrec hparse,
        resolve_disk_of_find_match E dyn label ln f
          { st with filenum := fo.getD (count_filenum st ln) } hm,
        add_record_partial_part E label ln f
          { st with filenum := fo.getD (count_filenum st ln) } hprog hk hm]
  · intro lines hlines
    exact scan_loop_filenum E dyn label datestamp lines st hpass hlines
  · intro diskq catalog logfile lines hl
    simp [search_logfile, hl]

/-- Witness for C25 as amended: the taper SUCCESS line of the sample log read
with the counter at 0 leaves the counter at 1, and the taper PART line that
names the tape file 5 leaves it at 5. -/
theorem tape_file_counter_witness :
    (scan_line plain_externals false "TAPE01" "20230101"
      ⟨[], [], 0, true, sample_inventory⟩ success_disk1).filenum = 0 + 1 ∧
    (scan_line plain_externals false "TAPE01" "20230101"
      ⟨[], [], 0, true, sample_inventory⟩ part_file5_disk1).filenum =
        ((read_digits 0 "5".data : Nat) : Int) :=
  ⟨(tape_file_counter plain_externals false "TAPE01" "20230101"
      ⟨[], [], 0, true, sample_inventory⟩ success_disk1 rfl rfl (Or.inl rfl)).2.1
      (Or.inl rfl),
    ((tape_file_counter plain_externals false "TAPE01" "20230101"
      ⟨[], [], 0, true, sample_inventory⟩ part_file5_disk1 rfl rfl
      (Or.inr (Or.inr (Or.inl rfl)))).2.2.2.1
      "5".data "host1 /disk1 20230101 1/1 0 [sec 1.0 kb 10 kps 10.0]".data
      (Or.inl rfl) (by decide) (by decide) (by decide)).2 (by decide)⟩

/-! ## The token in the date position -/

theorem parse_record_fields (E : externals) (curlog : logtype_t)
    (label datestamp curstr : String) :
    (parse_record E curlog label datestamp curstr).2 =
      (host_cursor curlog label curstr).bind (dump_fields E curlog datestamp) := by
  unfold parse_record host_cursor
  by_cases h0 : (skip_whitespace ⟨curstr.data, false⟩).p = []
  · simp [h0]
  · simp only [h0, if_false]
    rcases part_header curlog label (skip_whitespace ⟨curstr.data, false⟩) with ⟨fo, _ | c⟩
    · rfl
    · rfl

theorem scan_line_no_fields (E : externals) (dyn : Bool) (label datestamp : String)
    (st : scan_state) (ln : logline)
    (h : (parse_record E ln.curlog label datestamp ln.curstr).2 = none) :
    (scan_line E dyn label datestamp st ln).output_find = st.output_find ∧
    (scan_line E dyn label datestamp st ln).part_find = st.part_find := by
  unfold scan_line
  by_cases hk : is_record_kind ln.curlog = true
  · simp only [hk, if_true]
    rcases hp : parse_record E ln.curlog label datestamp ln.curstr with ⟨fo, _ | f⟩
    · exact ⟨rfl, rfl⟩
    · rw [hp] at h
      cases h
  · simp only [hk]
    exact ⟨rfl, rfl⟩

/-! ## The record of a line -/

theorem cons_append_ne_self (r : find_result_t) (p l : List find_result_t) :
    l ≠ r :: (p ++ l) := by
  intro h
  have := congrArg List.length h
  simp only [List.length_cons, List.length_append] at this
  omega

theorem cons_ne_self_list (r : find_result_t) (l : List find_result_t) : l ≠ r :: l := by
  exact cons_append_ne_self r [] l

theorem add_record_line_record (E : externals) (label : String) (ln : logline)
    (f : record_fields) (st st1 : scan_state) (r : find_result_t)
    (ho : st1.output_find = st.output_find) (hp : st1.part_find = st.part_find)
    (h : line_record_is st (add_record E label ln f st1) ln r) :
    r.timestamp = f.date ∧ r.hostname = f.host ∧ r.diskname = f.disk ∧ r.level = f.level ∧
    r.partnum = f.partnum ∧ r.label = label := by
  by_cases hm : find_match st1.diskq f.host f.disk = true
  · rcases h with ⟨hprog, hk, h⟩ | ⟨hprog, hk, h⟩ | ⟨hprog, hk, h⟩ | ⟨hprog, hk, h⟩
    · rw [add_record_success E label ln f st1 hprog hk hm] at h
      simp only [ho, List.cons.injEq, and_true] at h
      subst h
      exact ⟨rfl, rfl, rfl, rfl, rfl, rfl⟩
    · rw [add_record_part E label ln f st1 hprog hk hm] at h
      simp only [hp, List.cons.injEq, and_true] at h
      subst h
      exact ⟨rfl, rfl, rfl, rfl, rfl, rfl⟩
    · rw [add_record_partial_part E label ln f st1 hprog hk hm] at h
      simp only [ho, hp, List.cons_append, List.cons.injEq, and_true] at h
      subst h
      exact ⟨rfl, rfl, rfl, rfl, rfl, rfl⟩
    · rw [add_record_other_program E label ln f st1 hprog hm] at h
      simp only [hk, if_true, ho, List.cons.injEq, and_true] at h
      subst h
      exact ⟨rfl, rfl, rfl, rfl, rfl, rfl⟩
  · have hst : add_record E label ln f st1 = st1 := by
      unfold add_record
      simp [hm]
    rw [hst] at h
    unfold line_record_is at h
    simp only [ho, hp] at h
    rcases h with ⟨_, _, h⟩ | ⟨_, _, h⟩ | ⟨_, _, h⟩ | ⟨_, _, h⟩
    · exact absurd h (cons_ne_self_list r _)
    · exact absurd h (cons_ne_self_list r _)
    · exact absurd h (cons_append_ne_self r _ _)
    · exact absurd h (cons_ne_self_list r _)

theorem line_record_kind (st st2 : scan_state) (ln : logline) (r : find_result_t)
    (h : line_record_is st st2 ln r) : is_record_kind ln.curlog = true := by
  rcases h with ⟨_, hk, _⟩ | ⟨_, hk, _⟩ | ⟨_, hk, _⟩ | ⟨_, hk, _⟩
  · simp [is_record_kind, hk]
  · rcases hk with hk | hk <;> simp [is_record_kind, hk]
  · simp [is_record_kind, hk]
  · simp [is_record_kind, hk]

theorem line_record_of_fields (E : externals) (dyn : Bool) (label datestamp : String)
    (st : scan_state) (ln : logline) (f : record_fields) (r : find_result_t)
    (hparse : (parse_record E ln.curlog label datestamp ln.curstr).2 = some f)
    (h : line_record_is st (scan_line E dyn label datestamp st ln) ln r) :
    r.timestamp = f.date ∧ r.hostname = f.host ∧ r.diskname = f.disk ∧ r.level = f.level ∧
    r.partnum = f.partnum ∧ r.label = label := by
  have hk := line_record_kind st _ ln r h
  have hpair : parse_record E ln.curlog label datestamp ln.curstr =
      ((parse_record E ln.curlog label datestamp ln.curstr).1, some f) := by
    rw [← hparse]
  rw [scan_line_of_fields E dyn label datestamp st ln _ f hk hpair] at h
  unfold resolve_disk at h
  cases hl : lookup_disk st.diskq f.host f.disk with
  | none =>
    cases dyn with
    | false =>
      simp only [hl] at h
      rcases h with ⟨_, _, h⟩ | ⟨_, _, h⟩ | ⟨_, _, h⟩ | ⟨_, _, h⟩
      · exact absurd h (cons_ne_self_list r _)
      · exact absurd h (cons_ne_self_list r _)
      · exact absurd h (cons_append_ne_self r _ _)
      · exact absurd h (cons_ne_self_list r _)
    | true =>
      simp only [hl, Bool.true_eq_false, if_false] at h
      exact add_record_line_record E label ln f st _ r (by rfl) (by rfl) h
  | some dp =>
    simp only [hl] at h
    exact add_record_line_record E label ln f st _ r (by rfl) (by rfl) h

theorem no_line_record_without_fields (E : externals) (dyn : Bool) (label datestamp : String)
    (st : scan_state) (ln : logline) (r : find_result_t)
    (hparse : (parse_record E ln.curlog label datestamp ln.curstr).2 = none) :
    ¬ line_record_is st (scan_line E dyn label datestamp st ln) ln r := by
  obtain ⟨ho, hp⟩ := scan_line_no_fields E dyn label datestamp st ln hparse
  intro h
  rw [line_record_is, ho, hp] at h
  rcases h with ⟨_, _, h⟩ | ⟨_, _, h⟩ | ⟨_, _, h⟩ | ⟨_, _, h⟩
  · exact absurd h (cons_ne_self_list r _)
  · exact absurd h (cons_ne_self_list r _)
  · exact absurd h (cons_append_ne_self r _ _)
  · exact absurd h (cons_ne_self_list r _)

theorem line_record_exists (E : externals) (dyn : Bool) (label datestamp : String)
    (st : scan_state) (ln : logline) (f : record_fields)
    (hparse : (parse_record E ln.curlog label datestamp ln.curstr).2 = some f)
    (hm : find_match st.diskq f.host f.disk = true)
    (hk : (ln.curprog = P_TAPER ∧ (ln.curlog = L_SUCCESS ∨ ln.curlog = L_CHUNK ∨
        ln.curlog = L_PART ∨ ln.curlog = L_PARTPARTIAL)) ∨
      (ln.curprog ≠ P_TAPER ∧ ln.curlog = L_FAIL)) :
    ∃ r, line_record_is st (scan_line E dyn label datestamp st ln) ln r := by
  have hpair : parse_record E ln.curlog label datestamp ln.curstr =
      ((parse_record E ln.curlog label datestamp ln.curstr).1, some f) := by
    rw [← hparse]
  have hrk : is_record_kind ln.curlog = true := by
    rcases hk with ⟨_, h | h | h | h⟩ | ⟨_, h⟩ <;> simp [is_record_kind, h]
  have hstep := scan_line_of_fields E dyn label datestamp st ln _ f hrk hpair
  rw [resolve_disk_of_find_match E dyn label ln f
    { st with filenum :=
        (parse_record E ln.curlog label datestamp ln.curstr).1.getD (count_filenum st ln) }
    hm] at hstep
  rcases hk with ⟨hprog, h | h | h | h⟩ | ⟨hprog, h⟩
  · rw [add_record_success E label ln f
      { st with filenum :=
          (parse_record E ln.curlog label datestamp ln.curstr).1.getD (count_filenum st ln) }
      hprog h hm] at hstep
    exact ⟨_, Or.inl ⟨hprog, h, by rw [hstep]⟩⟩
  · rw [add_record_part E label ln f
      { st with filenum :=
          (parse_record E ln.curlog label datestamp ln.curstr).1.getD (count_filenum st ln) }
      hprog (Or.inr h) hm] at hstep
    exact ⟨_, Or.inr (Or.inl ⟨hprog, Or.inr h, by rw [hstep]⟩)⟩
  · rw [add_record_part E label ln f
      { st with filenum :=
          (parse_record E ln.curlog label datestamp ln.curstr).1.getD (count_filenum st ln) }
      hprog (Or.inl h) hm] at hstep
    exact ⟨_, Or.inr (Or.inl ⟨hprog, Or.inl h, by rw [hstep]⟩)⟩
  · rw [add_record_partial_part E label ln f
      { st with filenum :=
          (parse_record E ln.curlog label datestamp ln.curstr).1.getD (count_filenum st ln) }
      hprog h hm] at hstep
    exact ⟨_, Or.inr (Or.inr (Or.inl ⟨hprog, h, by rw [hstep]; rfl⟩))⟩
  · rw [add_record_other_program E label ln f
      { st with filenum :=
          (parse_record E ln.curlog label datestamp ln.curstr).1.getD (count_filenum st ln) }
      hprog hm] at hstep
    simp only [h, if_true] at hstep
    exact ⟨_, Or.inr (Or.inr (Or.inr ⟨hprog, h, by rw [hstep]⟩))⟩

/-! ## Record lines by their fields -/

theorem take_word_end (w : List Char) (hw : ∀ c ∈ w, isspace c = false) :
    take_word ⟨w, false⟩ = (w, ⟨[], true⟩) := by
  have h1 : w.takeWhile (fun ch => !isspace ch) = w := by
    rw [List.takeWhile_eq_self_iff]
    intro c hc
    simp [hw c hc]
  have h2 : w.dropWhile (fun ch => !isspace ch) = [] := by
    rw [List.dropWhile_eq_nil_iff]
    intro c hc
    simp [hw c hc]
  simp [take_word, h1, h2]

theorem skip_whitespace_blank (t : List Char) (z : Bool) :
    skip_whitespace ⟨' ' :: t, z⟩ = ⟨t.dropWhile is_skipped_space, false⟩ := by
  have h1 : is_skipped_space ' ' = true := by decide
  simp [skip_whitespace, h1]

theorem dropWhile_isspace_skipped (l : List Char) :
    (l.dropWhile is_skipped_space).dropWhile isspace = l.dropWhile isspace := by
  induction l with
  | nil => rfl
  | cons c l ih =>
    by_cases h : is_skipped_space c = true
    · have hs : isspace c = true := by
        unfold is_skipped_space at h
        simp only [Bool.and_eq_true] at h
        exact h.2
      simp [List.dropWhile, h, hs, ih]
    · simp [List.dropWhile, h]

theorem read_signed_flag (u : List Char) : (read_signed u).1 = starts_integer u := by
  have hm : isdigit '-' = false := by decide
  have hp : isdigit '+' = false := by decide
  cases u with
  | nil => rfl
  | cons c t =>
    by_cases c1 : c = '-'
    · subst c1
      cases t with
      | nil => simp [read_signed, starts_integer, hm]
      | cons d t => simp [read_signed, starts_integer, hm]
    · by_cases c2 : c = '+'
      · subst c2
        cases t with
        | nil => simp [read_signed, starts_integer, hp]
        | cons d t => simp [read_signed, starts_integer, hp]
      · have e : read_signed (c :: t) =
            (((c :: t).head?.map isdigit).getD false, (read_digits 0 (c :: t) : Int)) := by
          unfold read_signed
          split
          · rename_i heq; simp at heq; exact absurd heq.1 c1
          · rename_i heq; simp at heq; exact absurd heq.1 c2
          · rfl
        rw [e]
        cases t with
        | nil => simp [starts_integer]
        | cons d t => simp [starts_integer, c1, c2]

theorem sscanf_d_none (s : List Char) (h : starts_integer (s.dropWhile isspace) = false) :
    sscanf_d s = none := by
  unfold sscanf_d
  simp [read_signed_flag, h]

theorem level_position_no_integer (t : List Char)
    (h : starts_integer (t.dropWhile isspace) = false) :
    (skip_whitespace ⟨' ' :: t, true⟩).p = [] ∨
      sscanf_d (skip_whitespace ⟨' ' :: t, true⟩).cstr = none := by
  right
  rw [skip_whitespace_blank]
  apply sscanf_d_none
  simp only [cursor.cstr, Bool.false_eq_true, if_false]
  rw [dropWhile_isspace_skipped]
  exact h

theorem append_ne_nil_of_word (w u : List Char) (hw : starts_word w) : w ++ u ≠ [] := by
  obtain ⟨c, s, rfl, _⟩ := hw
  simp

theorem dump_fields_legacy (E : externals) (curlog : logtype_t) (datestamp : String)
    (host qdisk tok rest : List Char)
    (hhost : ∀ c ∈ host, isspace c = false)
    (hqdisk : qdisk ≠ [] ∧ quoted_word false qdisk = true)
    (htok : tok ≠ [] ∧ ∀ c ∈ tok, isspace c = false) (hlen : tok.length < 3)
    (hrest : starts_word rest ∧ ∀ c ∈ rest, c ≠ '\n') :
    dump_fields E curlog datestamp
        ⟨host ++ ' ' :: (qdisk ++ ' ' :: (tok ++ ' ' :: rest)), false⟩ =
      some ⟨String.mk host, E.unquote_string (String.mk qdisk), datestamp, "--",
        atoi tok, String.mk rest⟩ := by
  have hsq := starts_word_of_quoted qdisk hqdisk.1 hqdisk.2
  have hst := starts_word_of_nonspace tok htok.1 htok.2
  have hr := skip_whitespace_sep rest [] true hrest.1
  simp only [List.append_nil] at hr
  have hrne : rest ≠ [] := by
    have := append_ne_nil_of_word rest [] hrest.1
    simpa using this
  unfold dump_fields
  simp only [take_word_sep host _ hhost, skip_whitespace_sep qdisk _ true hsq,
    append_ne_nil_of_word qdisk _ hsq, if_false, take_quoted_sep qdisk _ hqdisk.2,
    skip_whitespace_sep tok _ true hst, append_ne_nil_of_word tok _ hst,
    take_word_sep tok _ htok.2, hlen, if_true, hr, hrne, rest_of_line rest hrest.2]

theorem dump_fields_no_level_plain (E : externals) (curlog : logtype_t) (datestamp : String)
    (host qdisk date after : List Char)
    (hk : ¬ (curlog = L_CHUNK ∨ curlog = L_PART ∨ curlog = L_PARTPARTIAL ∨ curlog = L_DONE))
    (hhost : ∀ c ∈ host, isspace c = false)
    (hqdisk : qdisk ≠ [] ∧ quoted_word false qdisk = true)
    (hdate : 3 ≤ date.length ∧ ∀ c ∈ date, isspace c = false)
    (hno : no_integer_follows after) :
    dump_fields E curlog datestamp
        ⟨host ++ ' ' :: (qdisk ++ ' ' :: (date ++ after)), false⟩ = none := by
  have hdne : date ≠ [] := by
    intro h; rw [h] at hdate; simp at hdate
  have hsq := starts_word_of_quoted qdisk hqdisk.1 hqdisk.2
  have hsd := starts_word_of_nonspace date hdne hdate.2
  have hlen : ¬ date.length < 3 := by omega
  have hnil : skip_whitespace ⟨[], true⟩ = ⟨[], true⟩ := rfl
  rcases hno with rfl | ⟨t, rfl, ht⟩
  · have hd := skip_whitespace_sep date [] true hsd
    unfold dump_fields
    simp only [List.append_nil] at hd ⊢
    simp only [take_word_sep host _ hhost, skip_whitespace_sep qdisk _ true hsq,
      append_ne_nil_of_word qdisk _ hsq, if_false, take_quoted_sep qdisk _ hqdisk.2,
      hd, hdne, take_word_end date hdate.2, hlen, take_partnum_none curlog _ hk,
      hnil, if_true]
  · have hlv := level_position_no_integer t ht
    unfold dump_fields
    simp only [take_word_sep host _ hhost, skip_whitespace_sep qdisk _ true hsq,
      append_ne_nil_of_word qdisk _ hsq, if_false, take_quoted_sep qdisk _ hqdisk.2,
      skip_whitespace_sep date _ true hsd, append_ne_nil_of_word date _ hsd,
      take_word_sep date _ hdate.2, hlen, take_partnum_none curlog _ hk]
    rcases hlv with hlv | hlv
    · simp only [hlv, if_true]
    · simp only [hlv]
      split_ifs <;> rfl

theorem dump_fields_no_level_parts (E : externals) (curlog : logtype_t) (datestamp : String)
    (host qdisk date partnum after : List Char)
    (hk : curlog = L_CHUNK ∨ curlog = L_PART ∨ curlog = L_PARTPARTIAL ∨ curlog = L_DONE)
    (hhost : ∀ c ∈ host, isspace c = false)
    (hqdisk : qdisk ≠ [] ∧ quoted_word false qdisk = true)
    (hdate : 3 ≤ date.length ∧ ∀ c ∈ date, isspace c = false)
    (hpn : partnum ≠ [] ∧ ∀ c ∈ partnum, isspace c = false)
    (hno : no_integer_follows after) :
    dump_fields E curlog datestamp
        ⟨host ++ ' ' :: (qdisk ++ ' ' :: (date ++ ' ' :: (partnum ++ after))), false⟩ =
      none := by
  have hdne : date ≠ [] := by
    intro h; rw [h] at hdate; simp at hdate
  have hsq := starts_word_of_quoted qdisk hqdisk.1 hqdisk.2
  have hsd := starts_word_of_nonspace date hdne hdate.2
  have hsp := starts_word_of_nonspace partnum hpn.1 hpn.2
  have hlen : ¬ date.length < 3 := by omega
  have hnil : skip_whitespace ⟨[], true⟩ = ⟨[], true⟩ := rfl
  rcases hno with rfl | ⟨t, rfl, ht⟩
  · have hp := skip_whitespace_sep partnum [] true hsp
    have htp : take_partnum curlog ⟨' ' :: partnum, true⟩ =
        (String.mk partnum, ⟨[], true⟩) := by
      simp only [List.append_nil] at hp
      simp [take_partnum, hk, hp, take_word_end partnum hpn.2]
    unfold dump_fields
    simp only [List.append_nil]
    simp only [take_word_sep host _ hhost, skip_whitespace_sep qdisk _ true hsq,
      append_ne_nil_of_word qdisk _ hsq, if_false, take_quoted_sep qdisk _ hqdisk.2,
      skip_whitespace_sep date _ true hsd, append_ne_nil_of_word date _ hsd,
      take_word_sep date _ hdate.2, hlen, htp, hnil, if_true]
  · have hlv := level_position_no_integer t ht
    unfold dump_fields
    simp only [take_word_sep host _ hhost, skip_whitespace_sep qdisk _ true hsq,
      append_ne_nil_of_word qdisk _ hsq, if_false, take_quoted_sep qdisk _ hqdisk.2,
      skip_whitespace_sep date _ true hsd, append_ne_nil_of_word date _ hsd,
      take_word_sep date _ hdate.2, hlen, take_partnum_word curlog partnum _ hk hpn.1 hpn.2]
    rcases hlv with hlv | hlv
    · simp only [hlv, if_true]
    · simp only [hlv]
      split_ifs <;> rfl

theorem host_cursor_layout (curlog : logtype_t) (label : String) (number fields : List Char)
    (hlabel : label.data ≠ [] ∧ ∀ c ∈ label.data, isspace c = false)
    (hnumber : number ≠ [] ∧ ∀ c ∈ number, isspace c = false)
    (hfields : starts_word fields) :
    host_cursor curlog label (String.mk (line_header curlog label number ++ fields)) =
      some ⟨fields, false⟩ := by
  have hfne : fields ≠ [] := by
    have := append_ne_nil_of_word fields [] hfields
    simpa using this
  by_cases hk : curlog = L_PART ∨ curlog = L_PARTPARTIAL
  · have hsl := starts_word_of_nonspace label.data hlabel.1 hlabel.2
    have hsn := starts_word_of_nonspace number hnumber.1 hnumber.2
    have hs0 : starts_word (label.data ++ ' ' :: (number ++ ' ' :: fields)) :=
      starts_word_append label.data _ hsl
    have ht := skip_whitespace_sep fields [] true hfields
    simp only [List.append_nil] at ht
    unfold host_cursor line_header
    simp only [hk, if_true, List.append_assoc, List.cons_append, List.nil_append,
      skip_whitespace_word _ hs0, append_ne_nil_of_word _ _ hsl, if_false, part_header,
      take_word_sep label.data _ hlabel.2, ne_eq, not_true_eq_false,
      skip_whitespace_sep number _ true hsn, append_ne_nil_of_word _ _ hsn,
      take_word_sep number _ hnumber.2, ht, hfne]
  · unfold host_cursor line_header
    simp only [hk, if_false, List.nil_append, skip_whitespace_word _ hfields, hfne,
      part_header]

theorem atoi_short_digits (tok : List Char) (hne : tok ≠ [])
    (hd : ∀ c ∈ tok, isdigit c = true) (hlen : tok.length < 3) :
    atoi tok = (read_digits 0 tok : Int) := by
  apply atoi_digits_small tok hne hd
  match tok, hd, hlen with
  | [], _, _ => simp [read_digits]
  | [a], hd, _ =>
    have ha := hd a (by simp)
    have ba := (digit_char_value a ha).2.1
    simp only [read_digits, ha, if_true]
    omega
  | [a, b], hd, _ =>
    have ha := hd a (by simp)
    have hb := hd b (by simp)
    have ba := (digit_char_value a ha).2.1
    have bb := (digit_char_value b hb).2.1
    simp only [read_digits, ha, hb, if_true]
    omega
  | _ :: _ :: _ :: _, _, hlen => simp at hlen; omega

/-- C24: in `search_logfile`, for a record line `[label number] host qdisk ...`
(label and file number on PART and PARTPARTIAL lines only) the token in the
date position decides how the record of the line is filled.  When it is
shorter than 3 characters, the record has the expected tape datestamp as
time stamp, the integer value of that token as level and `--` as part
number.  When it has 3 characters or more, the time stamp of the record is
that token; on CHUNK, PART, PARTPARTIAL and DONE lines the next token is the
part number of the record and the level is the number after it, on the other
lines the part number is `--` and the level is the number right after the
date (levels being decimal numbers that fit an `int`).  A line on which no
integer stands at the place of the level adds no record and leaves the
catalog and the pending parts as they were.  A line whose fields parse and
whose disk is scheduled does add a record when it is a taper SUCCESS, CHUNK,
PART or PARTPARTIAL line or a FAIL line of another program. -/
theorem date_token_decides_record (E : externals) (dyn : Bool) (label datestamp : String)
    (st : scan_state) (ln : logline) (number host qdisk after_qdisk : List Char)
    (hlabel : label.data ≠ [] ∧ ∀ c ∈ label.data, isspace c = false)
    (hnumber : number ≠ [] ∧ ∀ c ∈ number, isspace c = false)
    (hhost : host ≠ [] ∧ ∀ c ∈ host, isspace c = false)
    (hqdisk : qdisk ≠ [] ∧ quoted_word false qdisk = true)
    (hline : ln.curstr = String.mk (line_header ln.curlog label number ++
      (host ++ ' ' :: (qdisk ++ ' ' :: after_qdisk)))) :
    (∀ tok rest : List Char, after_qdisk = tok ++ ' ' :: rest →
      (tok ≠ [] ∧ ∀ c ∈ tok, isspace c = false) → tok.length < 3 →
      (starts_word rest ∧ ∀ c ∈ rest, c ≠ '\n') →
      (∀ r, line_record_is st (scan_line E dyn label datestamp st ln) ln r →
        r.timestamp = datestamp ∧ r.level = atoi tok ∧ r.partnum = "--") ∧
      ((∀ c ∈ tok, isdigit c = true) → atoi tok = (read_digits 0 tok : Int))) ∧
    (∀ date level rest : List Char,
      ¬ (ln.curlog = L_CHUNK ∨ ln.curlog = L_PART ∨ ln.curlog = L_PARTPARTIAL ∨
        ln.curlog = L_DONE) →
      after_qdisk = date ++ ' ' :: (level ++ ' ' :: rest) →
      (3 ≤ date.length ∧ ∀ c ∈ date, isspace c = false) →
      (level ≠ [] ∧ ∀ c ∈ level, isdigit c = true) → read_digits 0 level < 2147483648 →
      (starts_word rest ∧ ∀ c ∈ rest, c ≠ '\n') →
      ∀ r, line_record_is st (scan_line E dyn label datestamp st ln) ln r →
        r.timestamp = String.mk date ∧ r.level = (read_digits 0 level : Int) ∧
        r.partnum = "--") ∧
    (∀ date partnum level rest : List Char,
      (ln.curlog = L_CHUNK ∨ ln.curlog = L_PART ∨ ln.curlog = L_PARTPARTIAL ∨
        ln.curlog = L_DONE) →
      after_qdisk = date ++ ' ' :: (partnum ++ ' ' :: (level ++ ' ' :: rest)) →
      (3 ≤ date.length ∧ ∀ c ∈ date, isspace c = false) →
      (partnum ≠ [] ∧ ∀ c ∈ partnum, isspace c = false) →
      (level ≠ [] ∧ ∀ c ∈ level, isdigit c = true) → read_digits 0 level < 2147483648 →
      (starts_word rest ∧ ∀ c ∈ rest, c ≠ '\n') →
      ∀ r, line_record_is st (scan_line E dyn label datestamp st ln) ln r →
        r.timestamp = String.mk date ∧ r.level = (read_digits 0 level : Int) ∧
        r.partnum = String.mk partnum) ∧
    (∀ date after : List Char,
      (3 ≤ date.length ∧ ∀ c ∈ date, isspace c = false) → no_integer_follows after →
      ((¬ (ln.curlog = L_CHUNK ∨ ln.curlog = L_PART ∨ ln.curlog = L_PARTPARTIAL ∨
            ln.curlog = L_DONE) ∧ after_qdisk = date ++ after) ∨
        ((ln.curlog = L_CHUNK ∨ ln.curlog = L_PART ∨ ln.curlog = L_PARTPARTIAL ∨
            ln.curlog = L_DONE) ∧
          ∃ partnum : List Char, (partnum ≠ [] ∧ ∀ c ∈ partnum, isspace c = false) ∧
            after_qdisk = date ++ ' ' :: (partnum ++ after))) →
      (∀ r, ¬ line_record_is st (scan_line E dyn label datestamp st ln) ln r) ∧
      (scan_line E dyn label datestamp st ln).output_find = st.output_find ∧
      (scan_line E dyn label datestamp st ln).part_find = st.part_find) ∧
    (∀ f, (parse_record E ln.curlog label datestamp ln.curstr).2 = some f →
      find_match st.diskq f.host f.disk = true →
      ((ln.curprog = P_TAPER ∧ (ln.curlog = L_SUCCESS ∨ ln.curlog = L_CHUNK ∨
          ln.curlog = L_PART ∨ ln.curlog = L_PARTPARTIAL)) ∨
        (ln.curprog ≠ P_TAPER ∧ ln.curlog = L_FAIL)) →
      ∃ r, line_record_is st (scan_line E dyn label datestamp st ln) ln r) := by
  have hsh := starts_word_of_nonspace host hhost.1 hhost.2
  have hc := host_cursor_layout ln.curlog label number
    (host ++ ' ' :: (qdisk ++ ' ' :: after_qdisk)) hlabel hnumber
    (starts_word_append host _ hsh)
  rw [← hline] at hc
  have hp := parse_record_fields E ln.curlog label datestamp ln.curstr
  rw [hc] at hp
  simp only [Option.some_bind] at hp
  refine ⟨?_, ?_, ?_, ?_, ?_⟩
  · intro tok rest hafter htok hlen hrest
    subst hafter
    rw [dump_fields_legacy E ln.curlog datestamp host qdisk tok rest hhost.2 hqdisk htok hlen
      hrest] at hp
    refine ⟨?_, fun hd => atoi_short_digits tok htok.1 hd hlen⟩
    intro r hr
    obtain ⟨h1, _, _, h4, h5, _⟩ := line_record_of_fields E dyn label datestamp st ln _ r hp hr
    exact ⟨h1, h4, h5⟩
  · intro date level rest hk hafter hdate hlevel hrange hrest
    subst hafter
    rw [dump_fields_plain E ln.curlog datestamp host qdisk date level rest hk hhost.2 hqdisk
      hdate hlevel hrest] at hp
    intro r hr
    obtain ⟨h1, _, _, h4, h5, _⟩ := line_record_of_fields E dyn label datestamp st ln _ r hp hr
    refine ⟨h1, ?_, h5⟩
    rw [h4]
    exact strtol_int_small _ (by omega) (by omega)
  · intro date partnum level rest hk hafter hdate hpn hlevel hrange hrest
    subst hafter
    have hf := dump_fields_parts E ln.curlog datestamp
      ⟨host, qdisk, date, partnum, level, rest⟩ hk ⟨hhost, hqdisk, hdate, hpn, hlevel, hrest⟩
    simp only [dump_tokens.text] at hf
    rw [hf] at hp
    intro r hr
    obtain ⟨h1, _, _, h4, h5, _⟩ := line_record_of_fields E dyn label datestamp st ln _ r hp hr
    refine ⟨h1, ?_, h5⟩
    rw [h4]
    exact strtol_int_small _ (by omega) (by omega)
  · intro date after hdate hno hcase
    have hnone : (parse_record E ln.curlog label datestamp ln.curstr).2 = none := by
      rcases hcase with ⟨hk, hafter⟩ | ⟨hk, partnum, hpn, hafter⟩
      · subst hafter
        rw [hp]
        exact dump_fields_no_level_plain E ln.curlog datestamp host qdisk date after hk
          hhost.2 hqdisk hdate hno
      · subst hafter
        rw [hp]
        exact dump_fields_no_level_parts E ln.curlog datestamp host qdisk date partnum after
          hk hhost.2 hqdisk hdate hpn hno
    obtain ⟨ho, hpf⟩ := scan_line_no_fields E dyn label datestamp st ln hnone
    exact ⟨fun r => no_line_record_without_fields E dyn label datestamp st ln r hnone, ho, hpf⟩
  · intro f hf hm hk
    exact line_record_exists E dyn label datestamp st ln f hf hm hk

/-- Witness for C24: a SUCCESS line of an old log, whose token in the date
position is the level `0`; the first PART line of the sample dump, with the
part number `1/2` before its level; and a SUCCESS line with `[sec` at the
place of the level, which adds no record. -/
theorem date_token_decides_record_witness :
    (line_record_is ⟨[], [], 0, true, sample_inventory⟩
        (scan_line plain_externals false "TAPE01" "20230101"
          ⟨[], [], 0, true, sample_inventory⟩ legacy_success_disk1) legacy_success_disk1
        { timestamp := "20230101", hostname := "host1", diskname := "/disk1", level := 0,
          label := "TAPE01", filenum := 1, status := "OK", partnum := "--" } ∧
      ("20230101" : String) = "20230101" ∧ (0 : Int) = atoi "0".data ∧
        ("--" : String) = "--") ∧
    (line_record_is ⟨[], [], 0, true, sample_inventory⟩
        (scan_line plain_externals false "TAPE01" "20230101"
          ⟨[], [], 0, true, sample_inventory⟩ part1_disk1) part1_disk1 pending_part1 ∧
      pending_part1.timestamp = String.mk "20230101".data ∧
        pending_part1.level = ((read_digits 0 "0".data : Nat) : Int) ∧
        pending_part1.partnum = String.mk "1/2".data) ∧
    ((scan_line plain_externals false "TAPE01" "20230101"
        ⟨[], [], 0, true, sample_inventory⟩ success_without_level).output_find = [] ∧
      (scan_line plain_externals false "TAPE01" "20230101"
        ⟨[], [], 0, true, sample_inventory⟩ success_without_level).part_find = []) :=
  ⟨⟨by decide,
      ((date_token_decides_record plain_externals false "TAPE01" "20230101"
        ⟨[], [], 0, true, sample_inventory⟩ legacy_success_disk1
        "1".data "host1".data "/disk1".data "0 [sec 1.0 kb 10 kps 10.0]".data
        (by decide) (by decide) (by decide) (by decide) (by decide)).1
        "0".data "[sec 1.0 kb 10 kps 10.0]".data rfl (by decide) (by decide) (by decide)).1
        { timestamp := "20230101", hostname := "host1", diskname := "/disk1", level := 0,
          label := "TAPE01", filenum := 1, status := "OK", partnum := "--" } (by decide)⟩,
    ⟨by decide,
      (date_token_decides_record plain_externals false "TAPE01" "20230101"
        ⟨[], [], 0, true, sample_inventory⟩ part1_disk1
        "1".data "host1".data "/disk1".data "20230101 1/2 0 [sec 1.0 kb 10 kps 10.0]".data
        (by decide) (by decide) (by decide) (by decide) (by decide)).2.2.1
        "20230101".data "1/2".data "0".data "[sec 1.0 kb 10 kps 10.0]".data
        (by decide) rfl (by decide) (by decide) (by decide) (by decide) (by decide)
        pending_part1 (by decide)⟩,
    ((date_token_decides_record plain_externals false "TAPE01" "20230101"
      ⟨[], [], 0, true, sample_inventory⟩ success_without_level
      "1".data "host1".data "/disk1".data "20230101 [sec 1.0 kb 10 kps 10.0]".data
      (by decide) (by decide) (by decide) (by decide) (by decide)).2.2.2.1
      "20230101".data " [sec 1.0 kb 10 kps 10.0]".data (by decide)
      (Or.inr ⟨"[sec 1.0 kb 10 kps 10.0]".data, rfl, by decide⟩)
      (Or.inl ⟨by decide, rfl⟩)).2⟩

/-! ## Sorting keeps the records -/

theorem is_list_nil (next : Nat → Option Nat) (h : Option Nat)
    (hl : is_list next h [] = true) : h = none := by
  cases h with
  | none => rfl
  | some p => simp [is_list] at hl

theorem is_list_cons (next : Nat → Option Nat) (h : Option Nat) (q : Nat) (ps : List Nat)
    (hl : is_list next h (q :: ps) = true) :
    h = some q ∧ q ∉ ps ∧ is_list next (next q) ps = true := by
  cases h with
  | none => simp [is_list] at hl
  | some p =>
    simp only [is_list, Bool.and_eq_true, decide_eq_true_eq, Bool.not_eq_true',
      decide_eq_false_iff_not] at hl
    exact ⟨by rw [hl.1.1], hl.1.2, hl.2⟩

theorem is_list_nodup (next : Nat → Option Nat) (ptrs : List Nat) :
    ∀ h, is_list next h ptrs = true → ptrs.Nodup := by
  induction ptrs with
  | nil => intro _ _; exact List.nodup_nil
  | cons q ps ih =>
    intro h hl
    obtain ⟨_, h2, h3⟩ := is_list_cons next h q ps hl
    exact List.nodup_cons.mpr ⟨h2, ih _ h3⟩

theorem walk_of_is_list (next : Nat → Option Nat) (ptrs : List Nat) :
    ∀ (fuel : Nat) (h : Option Nat), is_list next h ptrs = true → ptrs.length ≤ fuel →
      walk_list next fuel h = some ptrs := by
  induction ptrs with
  | nil =>
    intro fuel h hl _
    rw [is_list_nil next h hl]
    cases fuel <;> rfl
  | cons q ps ih =>
    intro fuel h hl hfuel
    obtain ⟨h1, _, h3⟩ := is_list_cons next h q ps hl
    subst h1
    cases fuel with
    | zero => simp at hfuel
    | succ fuel =>
      simp only [List.length_cons, Nat.add_le_add_iff_right] at hfuel
      simp [walk_list, ih fuel _ h3 hfuel]

theorem relink_outside (l : List Nat) :
    ∀ (next : Nat → Option Nat) (q : Nat), q ∉ l → relink next l q = next q := by
  induction l with
  | nil => intro next q _; rfl
  | cons p rest ih =>
    intro next q hq
    have hqp : q ≠ p := fun h => hq (by simp [h])
    cases rest with
    | nil => simp [relink, hqp]
    | cons p2 rest =>
      simp only [relink]
      rw [ih _ q (fun h => hq (List.mem_cons_of_mem _ h))]
      simp [hqp]

theorem relink_is_list (l : List Nat) :
    ∀ (next : Nat → Option Nat), l.Nodup → l ≠ [] →
      is_list (relink next l) l.head? l = true := by
  induction l with
  | nil => intro _ _ h; exact absurd rfl h
  | cons p rest ih =>
    intro next hnd _
    obtain ⟨hp, hrest⟩ := List.nodup_cons.mp hnd
    cases rest with
    | nil => simp [relink, is_list]
    | cons p2 rest =>
      have hrec := ih (fun q => if q = p then some p2 else next q) hrest (by simp)
      have hout := relink_outside (p2 :: rest) (fun q => if q = p then some p2 else next q) p hp
      simp only [List.head?_cons] at hrec ⊢
      simp only [relink] at hrec hout ⊢
      have hnext : relink (fun q => if q = p then some p2 else next q) (p2 :: rest) p =
          some p2 := by
        rw [hout]
        simp
      rw [is_list]
      simp only [hnext, hrec, Bool.and_true, decide_True, Bool.true_and, Bool.not_eq_true',
        decide_eq_false_iff_not]
      exact hp

theorem address_insert_perm (cmp : Nat → Nat → Int) (x : Nat) (l : List Nat) :
    (address_insert cmp x l).Perm (x :: l) := by
  induction l with
  | nil => exact List.Perm.refl _
  | cons y ys ih =>
    unfold address_insert
    by_cases h : cmp x y ≤ 0
    · simp [h]
    · simp only [h, if_false]
      exact (List.Perm.cons y ih).trans (List.Perm.swap x y ys)

theorem address_qsort_perm (cmp : Nat → Nat → Int) (l : List Nat) :
    (address_qsort cmp l).Perm l := by
  induction l with
  | nil => exact List.Perm.refl _
  | cons x xs ih =>
    exact (address_insert_perm cmp x _).trans (List.Perm.cons x ih)

/-- C27: for every order string and every catalog held as a properly
terminated list in memory, `sort_find_result` returns (its two walks of the
list end within any fuel that covers the length) and leaves a properly
terminated list whose nodes are the nodes of the old list, each exactly
once, in the order in which `qsort` left the array; no field of a node other
than the link is changed, no `next` field outside the list is written, and
the length and the records are the same.  On the empty catalog it returns
at once, for any `qsort`, with the memory as it was.  Of `qsort`, which is not
part of the sources, only this is assumed: it rearranges the array. -/
theorem sort_find_result_links_rearranges
    (qsort : (Nat → Nat → Int) → List Nat → List Nat)
    (hq : ∀ cmp l, (qsort cmp l).Perm l) (sort_order : String) (m : catalog_memory)
    (ptrs : List Nat) (fuel : Nat)
    (hlist : is_list m.next m.head ptrs = true) (hfuel : ptrs.length ≤ fuel) :
    (∃ m2 sorted, sort_find_result_links qsort sort_order fuel m = some m2 ∧
      (ptrs ≠ [] → sorted =
        qsort (fun i j => find_compare sort_order (m.node i) (m.node j)) ptrs) ∧
      is_list m2.next m2.head sorted = true ∧
      walk_list m2.next fuel m2.head = some sorted ∧
      sorted.Perm ptrs ∧ sorted.Nodup ∧ sorted.length = ptrs.length ∧
      m2.node = m.node ∧
      (∀ q, q ∉ ptrs → m2.next q = m.next q) ∧
      (sorted.map m2.node).Perm (ptrs.map m.node)) ∧
    (m.head = none →
      ∀ (q2 : (Nat → Nat → Int) → List Nat → List Nat) (fuel2 : Nat),
        sort_find_result_links q2 sort_order fuel2 m = some m) := by
  constructor
  · cases ptrs with
    | nil =>
      have hh := is_list_nil m.next m.head hlist
      refine ⟨m, [], ?_, fun h => absurd rfl h, hlist, ?_, List.Perm.refl _, List.nodup_nil,
        rfl, rfl, fun _ _ => rfl, List.Perm.refl _⟩
      · simp [sort_find_result_links, hh]
      · rw [hh]
        cases fuel <;> rfl
    | cons p ps =>
      obtain ⟨hh, _, _⟩ := is_list_cons m.next m.head p ps hlist
      have hwalk := walk_of_is_list m.next (p :: ps) fuel m.head hlist hfuel
      have hperm := hq (fun i j => find_compare sort_order (m.node i) (m.node j)) (p :: ps)
      have hnd : (qsort (fun i j => find_compare sort_order (m.node i) (m.node j))
          (p :: ps)).Nodup :=
        hperm.nodup_iff.mpr (is_list_nodup m.next (p :: ps) m.head hlist)
      have hne : qsort (fun i j => find_compare sort_order (m.node i) (m.node j))
          (p :: ps) ≠ [] := by
        intro h
        have := hperm.length_eq
        rw [h] at this
        simp at this
      have hrel := relink_is_list _ m.next hnd hne
      refine ⟨{ m with
          next := relink m.next
            (qsort (fun i j => find_compare sort_order (m.node i) (m.node j)) (p :: ps)),
          head := (qsort (fun i j => find_compare sort_order (m.node i) (m.node j))
            (p :: ps)).head? },
        qsort (fun i j => find_compare sort_order (m.node i) (m.node j)) (p :: ps),
        ?_, fun _ => rfl, hrel, ?_, hperm, hnd, hperm.length_eq, rfl, ?_, hperm.map _⟩
      · simp [sort_find_result_links, hh, hwalk]
        rw [hh] at hwalk
        simp [hwalk]
      · exact walk_of_is_list _ _ fuel _ hrel (by rw [hperm.length_eq]; exact hfuel)
      · intro q hqn
        exact relink_outside _ m.next q (fun h => hqn (hperm.mem_iff.mp h))
  · intro hh q2 fuel2
    simp [sort_find_result_links, hh]

/-- Witness for C27: the sample memory of three nodes with the levels 1, 5
and 0, sorted by level with the sample `qsort`. -/
theorem sort_find_result_links_rearranges_witness :
    ∃ m2 sorted, sort_find_result_links address_qsort "l" 3 sample_memory = some m2 ∧
      ([10, 20, 30] ≠ [] → sorted =
        address_qsort (fun i j => find_compare "l" (sample_memory.node i)
          (sample_memory.node j)) [10, 20, 30]) ∧
      is_list m2.next m2.head sorted = true ∧
      walk_list m2.next 3 m2.head = some sorted ∧
      sorted.Perm [10, 20, 30] ∧ sorted.Nodup ∧ sorted.length = [10, 20, 30].length ∧
      m2.node = sample_memory.node ∧
      (∀ q, q ∉ [10, 20, 30] → m2.next q = sample_memory.next q) ∧
      (sorted.map m2.node).Perm ([10, 20, 30].map sample_memory.node) :=
  (sort_find_result_links_rearranges address_qsort address_qsort_perm "l" sample_memory
    [10, 20, 30] 3 (by decide) (by decide)).1

/-! ## Whole dumps -/

theorem check_label_eq (label : String) (st : scan_state) (ln : logline) :
    check_label label st ln =
      if names_other_label label ln = true then !st.passlabel else st.passlabel := by
  unfold check_label names_other_label
  by_cases h : ln.curlog = L_START ∧ ln.curprog = P_TAPER
  · cases hp : parse_taper_datestamp_log ln.curstr with
    | none => simp [h, hp]
    | some ck =>
      by_cases hc : ck.2 = label
      · simp [h, hp, hc]
      · simp [h, hp, hc]
  · have h2 : (decide (ln.curlog = L_START) && decide (ln.curprog = P_TAPER)) = false := by
      simpa using h
    simp [h, h2]

theorem scan_loop_passlabel (E : externals) (dyn : Bool) (label datestamp : String)
    (pre : List logline) :
    ∀ st : scan_state, st.passlabel = true →
      (∀ l ∈ pre, names_other_label label l = false) →
      (scan_loop E dyn label datestamp st pre).passlabel = true := by
  induction pre with
  | nil => intro st hpass _; simpa [scan_loop] using hpass
  | cons ln pre ih =>
    intro st hpass hpre
    have hp : (scan_line E dyn label datestamp st ln).passlabel = true := by
      rw [(scan_line_filenum E dyn label datestamp st ln).2, check_label_eq,
        hpre ln (by simp)]
      simpa using hpass
    simp only [scan_loop, hpass, if_true]
    exact ih _ hp (fun l hl => hpre l (by simp [hl]))

theorem scan_loop_snoc (E : externals) (dyn : Bool) (label datestamp : String)
    (st0 : scan_state) (pre : List logline) (ln : logline)
    (hpass : (scan_loop E dyn label datestamp st0 pre).passlabel = true) :
    scan_loop E dyn label datestamp st0 (pre ++ [ln]) =
      scan_line E dyn label datestamp (scan_loop E dyn label datestamp st0 pre) ln := by
  rw [scan_loop_append]
  simp [scan_loop, hpass]

/-- C3 (counterexample): in the log START TAPE01, START TAPE02, SUCCESS the
well-formed taper SUCCESS line for the scheduled disk follows the matching
START line and adds no record, because a START line of another label was read
before it. -/
theorem success_after_other_label_not_added :
    names_tape "TAPE01" "20230101" start_tape01 ∧
    find_match sample_inventory "host1" "/disk1" = true ∧
    names_other_label "TAPE01" start_tape02 = true ∧
    search_logfile plain_externals false sample_inventory (some []) "TAPE01" "20230101"
        [start_tape01, start_tape02, success_disk1] =
      ⟨1, some [], sample_inventory⟩ := by
  decide

/-- C3 (as amended): a taper SUCCESS line of the form `host qdisk date level
rest` (fields separated by one blank, the date at least 3 characters long, the
level a decimal number that fits an `int`) that is read while the tape
identity holds and names a scheduled inventory disk prepends exactly one
record to the catalog: hostname, timestamp and level as written on the line,
diskname the unquoted disk field, status OK, label the expected tape label
and partnum `--`; the pending parts and the inventory are unchanged.  This is
the case of every such line that follows the matching START taper line with
no START taper line naming another label in between. -/
theorem taper_success_prepends_one_record (E : externals) (dyn : Bool)
    (label datestamp : String) (st : scan_state) (ln : logline)
    (host qdisk date level rest : List Char)
    (hpass : st.passlabel = true)
    (hprog : ln.curprog = P_TAPER) (hkind : ln.curlog = L_SUCCESS)
    (hline : ln.curstr =
      String.mk (host ++ ' ' :: (qdisk ++ ' ' :: (date ++ ' ' :: (level ++ ' ' :: rest)))))
    (hhost : host ≠ [] ∧ ∀ c ∈ host, isspace c = false)
    (hqdisk : qdisk ≠ [] ∧ quoted_word false qdisk = true)
    (hdate : 3 ≤ date.length ∧ ∀ c ∈ date, isspace c = false)
    (hlevel : level ≠ [] ∧ ∀ c ∈ level, isdigit c = true)
    (hrange : read_digits 0 level < 2147483648)
    (hrest : starts_word rest ∧ ∀ c ∈ rest, c ≠ '\n')
    (hdisk : find_match st.diskq (String.mk host) (E.unquote_string (String.mk qdisk)) = true) :
    scan_line E dyn label datestamp st ln =
      { st with
        output_find :=
          { timestamp := String.mk date, hostname := String.mk host,
            diskname := E.unquote_string (String.mk qdisk),
            level := (read_digits 0 level : Int), label := label,
            filenum := st.filenum + 1, status := "OK", partnum := "--" } :: st.output_find,
        filenum := st.filenum + 1 } ∧
    (∀ (diskq : disklist_t) (catalog : List find_result_t) (start : logline)
        (pre : List logline),
      names_tape label datestamp start →
      (∀ l ∈ pre, names_other_label label l = false) →
      scan_loop E dyn label datestamp ⟨catalog, [], 0, true, diskq⟩ pre = st →
      search_logfile E dyn diskq (some catalog) label datestamp (start :: (pre ++ [ln])) =
        ⟨1, some (
          { timestamp := String.mk date, hostname := String.mk host,
            diskname := E.unquote_string (String.mk qdisk),
            level := (read_digits 0 level : Int), label := label,
            filenum := st.filenum + 1, status := "OK", partnum := "--" } :: st.output_find),
          st.diskq⟩) := by
  have hk : ¬ (ln.curlog = L_CHUNK ∨ ln.curlog = L_PART ∨ ln.curlog = L_PARTPARTIAL ∨
      ln.curlog = L_DONE) := by
    simp [hkind]
  have hparse := parse_record_plain E ln.curlog label datestamp host qdisk date level rest hk
    hhost hqdisk hdate hlevel hrest
  rw [← hline] at hparse
  have hl : strtol_int (read_digits 0 level) = (read_digits 0 level : Int) :=
    strtol_int_small _ (by omega) (by omega)
  have hstep : scan_line E dyn label datestamp st ln =
      { st with
        output_find :=
          { timestamp := String.mk date, hostname := String.mk host,
            diskname := E.unquote_string (String.mk qdisk),
            level := (read_digits 0 level : Int), label := label,
            filenum := st.filenum + 1, status := "OK", partnum := "--" } :: st.output_find,
        filenum := st.filenum + 1 } := by
    rw [scan_line_success E dyn label datestamp st ln none _ hprog hkind hparse hdisk]
    simp [count_filenum, hkind, hprog, hpass, new_output_find, hl]
  refine ⟨hstep, ?_⟩
  intro diskq catalog start pre hstart hpre hst
  have hp := scan_loop_passlabel E dyn label datestamp pre ⟨catalog, [], 0, true, diskq⟩ rfl hpre
  simp only [search_logfile, tape_loop_cons_of_names label datestamp start _ hstart]
  rw [scan_loop_snoc E dyn label datestamp _ pre ln hp, hst, hstep]

/-- Witness for C3 as amended: after `START taper datestamp 20230101 label
TAPE01`, the line `SUCCESS taper host1 "/disk1" 20230101 0 [sec 1.0 kb 10 kps
10.0]` yields the single record host1, /disk1, level 0, OK, TAPE01, `--`. -/
theorem taper_success_prepends_one_record_witness :
    search_logfile plain_externals false sample_inventory (some []) "TAPE01" "20230101"
        (start_tape01 :: ([] ++ [success_disk1])) =
      ⟨1, some [{ timestamp := "20230101", hostname := "host1", diskname := "/disk1",
                  level := 0, label := "TAPE01",
                  filenum := 1, status := "OK", partnum := "--" }], sample_inventory⟩ :=
  (taper_success_prepends_one_record plain_externals false "TAPE01" "20230101"
    ⟨[], [], 0, true, sample_inventory⟩ success_disk1
    "host1".data "\"/disk1\"".data "20230101".data "0".data "[sec 1.0 kb 10 kps 10.0]".data
    (by decide) (by decide) (by decide) (by decide) (by decide) (by decide) (by decide)
    (by decide) (by decide) (by decide) (by decide)).2 sample_inventory [] start_tape01 []
    (by decide) (by decide) rfl

end Amanda
